import Mathlib

/-!
# go-sensors-parser: a shallow embedding of the sensors-output parsers

The development embeds `parser.go`, `ubuntu.go` and `open_Euler.go`.

Modelling conventions.

* A Go `string` is modelled as the list of its Unicode code points (`Str`): the
  input is taken to be valid UTF-8 text.  The byte-indexed loops of the source
  only ever compare bytes with ASCII characters, and every byte of a multi-byte
  UTF-8 sequence is `≥ 0x80`, so scanning code points visits the same
  boundaries as scanning bytes.
* A `float64` is modelled exactly (`Float64`): a finite value is a sign, an odd
  (or zero) mantissa and a binary exponent.
* A Go function returning `(*T, error)` returns `Except GoError (Option T)` (or
  `Except GoError T` where the pointer is never nil on success); a run-time
  panic is the outer `Except Panic`.
* `io.Reader` + `bufio.Scanner` are modelled by `Reader`: the lines that
  `scanner.Text()` yields one after the other, and the value of
  `scanner.Err()` once `scanner.Scan()` has returned false.
-/

namespace Sensorparser

/-! ## Strings (package `strings`, `unicode`) -/

/-- Go strings as lists of code points. -/
abbrev Str := List Char

/-- Go `unicode.IsSpace`: the Unicode White_Space property. -/
def isSpace (c : Char) : Bool :=
  let n := c.toNat
  (0x09 ≤ n && n ≤ 0x0D) || n == 0x20 || n == 0x85 || n == 0xA0 || n == 0x1680 ||
  (0x2000 ≤ n && n ≤ 0x200A) || n == 0x2028 || n == 0x2029 || n == 0x202F ||
  n == 0x205F || n == 0x3000

/-- Go `strings.TrimSpace`: remove leading and trailing white space. -/
def TrimSpace (s : Str) : Str :=
  List.rdropWhile isSpace (s.dropWhile isSpace)

/-- Go `strings.HasPrefix`. -/
def HasPrefix (s p : Str) : Bool := p.isPrefixOf s

/-- Go `strings.TrimPrefix`: drop `p` from the front of `s` when it is there. -/
def TrimPrefix (s p : Str) : Str :=
  if HasPrefix s p then s.drop p.length else s

/-- Go `strings.TrimSuffix`: drop `p` from the end of `s` when it is there. -/
def TrimSuffix (s p : Str) : Str :=
  if p.isSuffixOf s then s.take (s.length - p.length) else s

/-- Go `strings.Contains(s, sep)` for a one-character `sep` (the source only
uses `":"` and `"("`). -/
def Contains (s : Str) (sep : Char) : Bool := s.contains sep

/-- Go `strings.SplitN(s, sep, 2)` for a one-character `sep`: `[s]` when `sep`
does not occur, else the text before and the text after its first occurrence. -/
def SplitN2 (s : Str) (sep : Char) : List Str :=
  if s.contains sep then
    [s.takeWhile (fun c => c != sep), (s.dropWhile (fun c => c != sep)).drop 1]
  else [s]

/-- Go `strings.Split(s, sep)` for a one-character `sep`: always at least one
piece. -/
def Split (s : Str) (sep : Char) : List Str :=
  match s with
  | [] => [[]]
  | c :: cs =>
    if c = sep then [] :: Split cs sep
    else
      match Split cs sep with
      | [] => [[c]]
      | p :: ps => (c :: p) :: ps

/-- The loop of Go `strings.Fields`: `cur` is the field being read. -/
def fieldsFrom (cur : Str) : Str → List Str
  | [] => if cur.isEmpty then [] else [cur]
  | c :: cs =>
    if isSpace c then
      (if cur.isEmpty then fieldsFrom [] cs else cur :: fieldsFrom [] cs)
    else fieldsFrom (cur ++ [c]) cs

/-- Go `strings.Fields`: the maximal runs of non-space characters. -/
def Fields (s : Str) : List Str := fieldsFrom [] s

/-- Go `unicode.ToLower` on ASCII; on the other code points it is the Unicode
case table `tbl`, which is a parameter. -/
def toLowerRune (tbl : Char → Char) (c : Char) : Char :=
  if c.toNat < 128 then
    (if 'A' ≤ c ∧ c ≤ 'Z' then Char.ofNat (c.toNat + 32) else c)
  else tbl c

/-- Go `strings.ToLower`. -/
def ToLower (tbl : Char → Char) (s : Str) : Str := s.map (toLowerRune tbl)

/-! ## Errors and panics -/

/-- Go `error` values the parsers can meet: the two `strconv` errors and the
errors of the scanner (a read error of the stream, or `bufio.ErrTooLong`). -/
inductive GoError
  | ErrSyntax
  | ErrRange
  | scanErr (code : Nat)
  deriving DecidableEq, Repr

/-- Run-time panics. -/
inductive Panic
  | indexOutOfRange
  | nilDereference
  deriving DecidableEq, Repr

/-! ## float64 and `strconv.ParseFloat` -/

/-- A `float64` value.  `finite neg m e` is `± m · 2^e`, with `m` odd, or
`m = 0` and `e = 0` (so `45.0` is `finite false 45 0`, `80.0` is
`finite false 5 4`, `-5.2` is `finite true 5854679515581645 (-50)`). -/
inductive Float64
  | finite (neg : Bool) (mant : Nat) (exp : Int)
  | inf (neg : Bool)
  | nan
  deriving DecidableEq, Repr

/-- Loop of `bitLen`. -/
def bitLenAux : Nat → Nat → Nat
  | 0, _ => 0
  | fuel + 1, n => if n = 0 then 0 else bitLenAux fuel (n / 2) + 1

/-- Number of binary digits of `n`. -/
def bitLen (n : Nat) : Nat := bitLenAux n n

/-- Divide the mantissa by two while it is even, raising the exponent. -/
def normalizeOdd : Nat → Nat → Int → Nat × Int
  | 0, m, e => (m, e)
  | fuel + 1, m, e =>
    if m ≠ 0 ∧ m % 2 = 0 then normalizeOdd fuel (m / 2) (e + 1) else (m, e)

/-- The float64 nearest to `± num / den` (IEEE 754 round to nearest, ties to
even, subnormals included); a value that rounds beyond the largest float64 is
`ErrRange`. -/
def roundToFloat64 (neg : Bool) (num den : Nat) : Except GoError Float64 :=
  if num = 0 then .ok (.finite neg 0 0)
  else
    let k : Int := (bitLen num : Int) - (bitLen den : Int)
    let e : Int :=
      if 0 ≤ k then (if den * 2 ^ k.toNat ≤ num then k else k - 1)
      else (if den ≤ num * 2 ^ (-k).toNat then k else k - 1)
    let s : Int := max (e - 52) (-1074)
    let N : Nat := if 0 ≤ s then num else num * 2 ^ (-s).toNat
    let D : Nat := if 0 ≤ s then den * 2 ^ s.toNat else den
    let q := N / D
    let r := N % D
    let q1 := if D < 2 * r ∨ (2 * r = D ∧ q % 2 = 1) then q + 1 else q
    if q1 = 0 then .ok (.finite neg 0 0)
    else if 0 ≤ s ∧ 2 ^ 1024 ≤ q1 * 2 ^ s.toNat then .error .ErrRange
    else
      let p := normalizeOdd 64 q1 s
      .ok (.finite neg p.1 p.2)

/-- Go `lower(c byte)` of `strconv` (`c | 0x20`), on the ASCII range. -/
def lower (c : Char) : Char :=
  if c.toNat < 128 then Char.ofNat (c.toNat ||| 0x20) else c

/-- Value of a decimal digit. -/
def digitVal (c : Char) : Nat := c.toNat - '0'.toNat

/-- `'0' <= c && c <= '9'`. -/
def isDigit (c : Char) : Bool := decide ('0' ≤ c) && decide (c ≤ '9')

/-- `'a' <= lower(c) && lower(c) <= 'f'`. -/
def isHexLetter (c : Char) : Bool := decide ('a' ≤ lower c) && decide (lower c ≤ 'f')

/-- Go `commonPrefixLenIgnoreCase` of `strconv`; `p` is lower case. -/
def commonPrefixLenIgnoreCase : Str → Str → Nat
  | c :: cs, p :: ps =>
    let c1 := if 'A' ≤ c ∧ c ≤ 'Z' then Char.ofNat (c.toNat + 32) else c
    if c1 = p then commonPrefixLenIgnoreCase cs ps + 1 else 0
  | _, _ => 0

/-- The `'i'` case of Go `special`: `s` after the optional sign. -/
def specialInf (neg : Bool) (nsign : Nat) (s : Str) : Option (Float64 × Nat) :=
  let n := commonPrefixLenIgnoreCase s "infinity".toList
  let n := if 3 < n ∧ n < 8 then 3 else n
  if n = 3 ∨ n = 8 then some (.inf neg, nsign + n) else none

/-- Go `special` of `strconv`: the spellings of infinity and NaN, with the
number of characters read. -/
def special (s : Str) : Option (Float64 × Nat) :=
  match s with
  | [] => none
  | c :: cs =>
    if c = '+' ∨ c = '-' then specialInf (c == '-') 1 cs
    else if c = 'i' ∨ c = 'I' then specialInf false 0 s
    else if c = 'n' ∨ c = 'N' then
      (if commonPrefixLenIgnoreCase s "nan".toList = 3 then some (.nan, 3) else none)
    else none

/-- Loop of Go `underscoreOK`; `saw` is the last kind of character seen. -/
def underscoreOKLoop (hex : Bool) : Char → Str → Bool
  | saw, [] => saw != '_'
  | saw, c :: cs =>
    if isDigit c || (hex && isHexLetter c) then underscoreOKLoop hex '0' cs
    else if c = '_' then (if saw != '0' then false else underscoreOKLoop hex '_' cs)
    else if saw = '_' then false
    else underscoreOKLoop hex '!' cs

/-- Go `underscoreOK` of `strconv`: underscores only between digits (or right
after a base prefix). -/
def underscoreOK (s : Str) : Bool :=
  let s1 := match s with
    | c :: cs => if c = '-' ∨ c = '+' then cs else s
    | [] => s
  match s1 with
  | c0 :: c1 :: rest =>
    if c0 = '0' ∧ (lower c1 = 'b' ∨ lower c1 = 'o' ∨ lower c1 = 'x') then
      underscoreOKLoop (lower c1 == 'x') '0' rest
    else underscoreOKLoop false '^' s1
  | _ => underscoreOKLoop false '^' s1

/-- What the mantissa loop of Go `readFloat` has read.  The mantissa is kept in
full: `strconv` keeps 19 digits and a truncation flag, and converts from the
whole digit string whenever the kept digits do not decide the rounding. -/
structure MantAcc where
  mant : Nat
  sawdot : Bool
  sawdigits : Bool
  fracDigits : Nat
  underscores : Bool
  deriving DecidableEq, Repr

/-- Mantissa loop of Go `readFloat`; returns the unread rest. -/
def readMantissa (hex : Bool) : Str → MantAcc → MantAcc × Str
  | [], a => (a, [])
  | c :: cs, a =>
    if c = '_' then readMantissa hex cs { a with underscores := true }
    else if c = '.' then
      (if a.sawdot then (a, c :: cs) else readMantissa hex cs { a with sawdot := true })
    else if isDigit c then
      readMantissa hex cs
        { a with sawdigits := true
                 mant := a.mant * (if hex then 16 else 10) + digitVal c
                 fracDigits := if a.sawdot then a.fracDigits + 1 else a.fracDigits }
    else if hex && isHexLetter c then
      readMantissa hex cs
        { a with sawdigits := true
                 mant := a.mant * 16 + ((lower c).toNat - 'a'.toNat + 10)
                 fracDigits := if a.sawdot then a.fracDigits + 1 else a.fracDigits }
    else (a, c :: cs)

/-- Exponent digit loop of Go `readFloat`: the exponent stops growing once it
has reached 10000. -/
def readExpDigits : Str → Nat → Bool → Nat × Bool × Str
  | [], e, u => (e, u, [])
  | c :: cs, e, u =>
    if c = '_' then readExpDigits cs e true
    else if isDigit c then readExpDigits cs (if e < 10000 then e * 10 + digitVal c else e) u
    else (e, u, c :: cs)

/-- A number read by `readFloat`: `± mant · base^(-fracDigits) · b^exp` with
`base` 10 or 16 and `b` 10 or 2, and the unread rest of the string. -/
structure FloatLit where
  neg : Bool
  hex : Bool
  mant : Nat
  fracDigits : Nat
  exp : Int
  rest : Str
  deriving DecidableEq, Repr

/-- Go `readFloat` of `strconv`; `none` is `ok = false`. -/
def readFloat (s : Str) : Option FloatLit :=
  match s with
  | [] => none
  | c0 :: _ =>
    let neg := c0 == '-'
    let s1 := if c0 = '+' ∨ c0 = '-' then s.drop 1 else s
    let hex : Bool :=
      match s1 with
      | d0 :: d1 :: _ :: _ => d0 == '0' && lower d1 == 'x'
      | _ => false
    let s2 := if hex then s1.drop 2 else s1
    let ma := readMantissa hex s2 ⟨0, false, false, 0, false⟩
    let a := ma.1
    if !a.sawdigits then none
    else
      let expChar : Char := if hex then 'p' else 'e'
      let tail : Option (Int × Bool × Str) :=
        match ma.2 with
        | c :: cs =>
          if lower c = expChar then
            match cs with
            | [] => none
            | d :: ds =>
              let esign : Int := if d = '-' then -1 else 1
              let r := if d = '+' ∨ d = '-' then ds else cs
              match r with
              | [] => none
              | x :: _ =>
                if !isDigit x then none
                else
                  let ed := readExpDigits r 0 a.underscores
                  some (esign * (ed.1 : Int), ed.2.1, ed.2.2)
          else if hex then none
          else some (0, a.underscores, ma.2)
        | [] => if hex then none else some (0, a.underscores, [])
      match tail with
      | none => none
      | some (e, underscores, rest) =>
        if underscores && !underscoreOK (s.take (s.length - rest.length)) then none
        else some ⟨neg, hex, a.mant, a.fracDigits, e, rest⟩

/-- The float64 a read number rounds to. -/
def FloatLit.toFloat64 (l : FloatLit) : Except GoError Float64 :=
  let e : Int :=
    if l.hex then l.exp - 4 * (l.fracDigits : Int) else l.exp - (l.fracDigits : Int)
  let b : Nat := if l.hex then 2 else 10
  if 0 ≤ e then roundToFloat64 l.neg (l.mant * b ^ e.toNat) 1
  else roundToFloat64 l.neg l.mant (b ^ (-e).toNat)

/-- Go `strconv.ParseFloat(s, 64)`: the whole of `s` must be a decimal or
hexadecimal floating-point number, an infinity or NaN; the result is the
nearest float64, and `ErrRange` when that is beyond the largest float64. -/
def ParseFloat (s : Str) : Except GoError Float64 :=
  match special s with
  | some (v, n) => if n = s.length then .ok v else .error .ErrSyntax
  | none =>
    match readFloat s with
    | none => .error .ErrSyntax
    | some l => if l.rest.isEmpty then l.toFloat64 else .error .ErrSyntax

/-! ## Data model (`parser.go`) -/

/-- Go `Sensor`; the `*float64` thresholds are options (`none` is nil). -/
structure Sensor where
  Name : Str
  Value : Float64
  Unit : Str
  Low : Option Float64
  High : Option Float64
  Critical : Option Float64
  deriving DecidableEq, Repr

/-- Go `Device`. -/
structure Device where
  Name : Str
  Adapter : Str
  Sensors : List Sensor
  deriving DecidableEq, Repr

/-- Go `Result`. -/
structure Result where
  Devices : List Device
  deriving DecidableEq, Repr

/-- The input stream as the scanner sees it: the lines `scanner.Text()` yields,
and `scanner.Err()` after the last of them. -/
structure Reader where
  lines : List Str
  err : Option GoError
  deriving DecidableEq, Repr

/-- Equality of Go results is decidable. -/
instance instDecidableEqExcept {ε α : Type} [DecidableEq ε] [DecidableEq α] :
    DecidableEq (Except ε α) := fun a b =>
  match a, b with
  | .ok x, .ok y => if h : x = y then isTrue (by rw [h]) else isFalse (fun h1 => h (by cases h1; rfl))
  | .error x, .error y =>
    if h : x = y then isTrue (by rw [h]) else isFalse (fun h1 => h (by cases h1; rfl))
  | .ok _, .error _ => isFalse (fun h => by cases h)
  | .error _, .ok _ => isFalse (fun h => by cases h)

/-- The Go zero value `Device{}` (also `Device{Sensors: []Sensor{}}`: a nil and
an empty slice are both the empty list). -/
def Device.zero : Device := ⟨[], [], []⟩

/-! ## Value extraction and thresholds (`parser.go`) -/

/-- The byte test of the scanning loop of `parseSensorSimple`:
`+`, `-`, `.` or a decimal digit. -/
def isNumChar (c : Char) : Bool :=
  c == '+' || c == '-' || c == '.' || (decide ('0' ≤ c) && decide (c ≤ '9'))

/-- The index `i` at which the scanning loop of `parseSensorSimple` stops. -/
def numRunLen : Str → Nat
  | [] => 0
  | c :: cs => if isNumChar c then numRunLen cs + 1 else 0

/-- Go `parseSensorSimple`. -/
def parseSensorSimple (name valueStr : Str) : Except GoError (Option Sensor) :=
  let i := numRunLen valueStr
  if 0 < i then
    let rawValue := valueStr.take i
    let unit : Str := if i < valueStr.length then TrimSpace (valueStr.drop i) else []
    let rawValue := TrimPrefix rawValue "+".toList
    match ParseFloat rawValue with
    | .error e => .error e
    | .ok value => .ok (some ⟨name, value, unit, none, none, none⟩)
  else .ok none

/-- Go `extractValue`: the text right of the first `=`, without a leading `+`,
up to the first white space; `""` when there is no `=`.  Indexing the empty
result of `strings.Fields` panics. -/
def extractValue (s : Str) : Except Panic Str :=
  match SplitN2 s '=' with
  | [_, p1] =>
    let valueStr := TrimSpace p1
    let valueStr := TrimPrefix valueStr "+".toList
    match Fields valueStr with
    | [] => .error .indexOutOfRange
    | f :: _ => .ok f
  | _ => .ok []

/-- One threshold clause of `processLimits`: the body shared by its three
branches.  `set` stores the parsed number in the sensor; storing through a nil
`*Sensor` panics. -/
def applyLimit (sensor : Option Sensor) (limit : Str) (set : Sensor → Float64 → Sensor) :
    Except Panic (Option Sensor) :=
  match extractValue limit with
  | .error p => .error p
  | .ok str =>
    if str ≠ [] then
      match ParseFloat str with
      | .ok v =>
        match sensor with
        | none => .error .nilDereference
        | some s => .ok (some (set s v))
      | .error _ => .ok sensor
    else .ok sensor

/-- The body of the loop of `processLimits` for one clause. -/
def processLimit (sensor : Option Sensor) (limit : Str) : Except Panic (Option Sensor) :=
  let limit := TrimSpace limit
  if HasPrefix limit "low".toList then
    applyLimit sensor limit (fun s v => { s with Low := some v })
  else if HasPrefix limit "high".toList then
    applyLimit sensor limit (fun s v => { s with High := some v })
  else if HasPrefix limit "crit".toList then
    applyLimit sensor limit (fun s v => { s with Critical := some v })
  else .ok sensor

/-- The loop of `processLimits` over the clauses. -/
def processLimitsLoop : Option Sensor → List Str → Except Panic (Option Sensor)
  | sensor, [] => .ok sensor
  | sensor, limit :: rest =>
    match processLimit sensor limit with
    | .error p => .error p
    | .ok s => processLimitsLoop s rest

/-- Go `processLimits`: the sensor pointer it is given may be nil; the result
is the sensor after the updates. -/
def processLimits (sensor : Option Sensor) (limitsStr : Str) : Except Panic (Option Sensor) :=
  processLimitsLoop sensor (Split limitsStr ',')

/-- The `interface{}` argument of `parseSensorWithLimits`, as its callers use
it. -/
inductive ValueOrSensor
  | string (v : Str)
  | float64 (v : Float64)
  deriving DecidableEq, Repr

/-- Go `parseSensorWithLimits`. -/
def parseSensorWithLimits (name : Str) (valueOrSensor : ValueOrSensor)
    (limitLineOpt : List Str) : Except Panic (Except GoError (Option Sensor)) :=
  match valueOrSensor with
  | .string valueStr =>
    let mainParts := SplitN2 valueStr '('
    match parseSensorSimple name (mainParts.headD []) with
    | .error e => .ok (.error e)
    | .ok sensor =>
      match mainParts with
      | _ :: limitsPart :: _ =>
        let limitsPart := TrimSuffix limitsPart ")".toList
        match processLimits sensor limitsPart with
        | .error p => .error p
        | .ok s => .ok (.ok s)
      | _ => .ok (.ok sensor)
  | .float64 v =>
    match limitLineOpt with
    | [] => .ok (.ok none)
    | limitLine :: _ =>
      match processLimits (some ⟨name, v, [], none, none, none⟩) limitLine with
      | .error p => .error p
      | .ok s => .ok (.ok s)

/-- The digit test of `parseSensorLine`. -/
def hasDigit (s : Str) : Bool := s.any (fun r => decide ('0' ≤ r) && decide (r ≤ '9'))

/-- Go `parseSensorLine`. -/
def parseSensorLine (line : Str) : Except Panic (Except GoError (Option Sensor)) :=
  match SplitN2 line ':' with
  | [p0, p1] =>
    let name := TrimSpace p0
    let valueStr := TrimSpace p1
    if !hasDigit valueStr then .ok (.ok none)
    else if Contains valueStr '(' then parseSensorWithLimits name (.string valueStr) []
    else .ok (parseSensorSimple name valueStr)
  | _ => .ok (.ok none)

/-! ## The scanning loop -/

/-- Run a loop body over the lines; a panic ends the run. -/
def scanLoop {σ : Type} (step : σ → Str → Except Panic σ) : σ → List Str → Except Panic σ
  | st, [] => .ok st
  | st, l :: ls =>
    match step st l with
    | .error p => .error p
    | .ok st1 => scanLoop step st1 ls

/-- Go `return nil, err` when `scanner.Err()` is not nil, else `return result, nil`. -/
def finish (r : Reader) (devices : List Device) : Except GoError Result :=
  match r.err with
  | some e => .error e
  | none => .ok ⟨devices⟩

/-! ## `GenericParser` (`parser.go`) -/

/-- The variables of `GenericParser.Parse`. -/
structure GenericState where
  result : List Device
  currentDevice : Device
  currentSensor : Option Sensor
  deriving DecidableEq, Repr

/-- `currentDevice.Sensors = append(currentDevice.Sensors, *currentSensor)` when
`currentSensor != nil`. -/
def flushSensor (d : Device) (s : Option Sensor) : Device :=
  match s with
  | some x => { d with Sensors := d.Sensors ++ [x] }
  | none => d

/-- The body of the loop of `GenericParser.Parse` for one raw line. -/
def genericStep (st : GenericState) (raw : Str) : Except Panic GenericState :=
  let line := TrimSpace raw
  if line = [] then
    if st.currentDevice.Name ≠ [] then
      .ok ⟨st.result ++ [flushSensor st.currentDevice st.currentSensor], Device.zero, none⟩
    else .ok st
  else if st.currentDevice.Name = [] ∧ !Contains line ':' then
    .ok { st with currentDevice := ⟨line, [], []⟩ }
  else if HasPrefix line "Adapter:".toList then
    .ok { st with currentDevice :=
            { st.currentDevice with
              Adapter := TrimSpace (TrimPrefix line "Adapter:".toList) } }
  else if HasPrefix line " ".toList && st.currentSensor.isSome then
    match st.currentSensor with
    | some cur =>
      match parseSensorWithLimits cur.Name (.float64 cur.Value) [line] with
      | .error p => .error p
      | .ok (.ok (some sensor)) => .ok { st with currentSensor := some sensor }
      | .ok _ => .ok st
    | none => .ok st
  else
    let dev := flushSensor st.currentDevice st.currentSensor
    match parseSensorLine line with
    | .error p => .error p
    | .ok (.ok (some sensor)) => .ok { st with currentDevice := dev, currentSensor := some sensor }
    | .ok _ => .ok { st with currentDevice := dev, currentSensor := none }

/-- The devices after the loop of `GenericParser.Parse`: the last device is
added when it has a name. -/
def genericFinal (st : GenericState) : List Device :=
  if st.currentDevice.Name ≠ [] then
    st.result ++ [flushSensor st.currentDevice st.currentSensor]
  else st.result

/-- Go `GenericParser.Parse`. -/
def GenericParser.Parse (r : Reader) : Except Panic (Except GoError Result) :=
  match scanLoop genericStep ⟨[], Device.zero, none⟩ r.lines with
  | .error p => .error p
  | .ok st => .ok (finish r (genericFinal st))

/-- Go `Parse`: the package-level function, which uses the generic parser. -/
def Parse (r : Reader) : Except Panic (Except GoError Result) := GenericParser.Parse r

/-! ## `UbuntuParser` (`ubuntu.go`) -/

/-- The variables of `UbuntuParser.Parse` and of `OpenEulerParser.Parse`. -/
structure DeviceState where
  result : List Device
  currentDevice : Device
  deriving DecidableEq, Repr

/-- Go `parseUbuntuSensorLine`. -/
def parseUbuntuSensorLine (line : Str) : Except Panic (Except GoError (Option Sensor)) :=
  parseSensorLine line

/-- The body of the loop of `UbuntuParser.Parse` for one raw line. -/
def ubuntuStep (st : DeviceState) (raw : Str) : Except Panic DeviceState :=
  let line := TrimSpace raw
  if line = [] then
    if st.currentDevice.Name ≠ [] then .ok ⟨st.result ++ [st.currentDevice], Device.zero⟩
    else .ok ⟨st.result, Device.zero⟩
  else if st.currentDevice.Name = [] then
    .ok { st with currentDevice := ⟨line, [], []⟩ }
  else if HasPrefix line "Adapter:".toList then
    .ok { st with currentDevice :=
            { st.currentDevice with
              Adapter := TrimSpace (TrimPrefix line "Adapter:".toList) } }
  else
    match parseUbuntuSensorLine line with
    | .error p => .error p
    | .ok (.ok (some sensor)) =>
      .ok { st with currentDevice :=
              { st.currentDevice with Sensors := st.currentDevice.Sensors ++ [sensor] } }
    | .ok _ => .ok st

/-- The devices after the loop of `UbuntuParser.Parse`. -/
def ubuntuFinal (st : DeviceState) : List Device :=
  if st.currentDevice.Name ≠ [] then st.result ++ [st.currentDevice] else st.result

/-- Go `UbuntuParser.Parse`. -/
def UbuntuParser.Parse (r : Reader) : Except Panic (Except GoError Result) :=
  match scanLoop ubuntuStep ⟨[], Device.zero⟩ r.lines with
  | .error p => .error p
  | .ok st => .ok (finish r (ubuntuFinal st))

/-! ## `OpenEulerParser` (`open_Euler.go`) -/

/-- Go `parseOpenEulerSensorLine`. -/
def parseOpenEulerSensorLine (line : Str) : Except GoError (Option Sensor) :=
  match SplitN2 line ':' with
  | [p0, p1] =>
    let name := TrimSpace p0
    let valueStr := TrimSpace p1
    let i := numRunLen valueStr
    if 0 < i then
      let rawValue := valueStr.take i
      let unit : Str := if i < valueStr.length then TrimSpace (valueStr.drop i) else []
      let rawValue := TrimPrefix rawValue "+".toList
      match ParseFloat rawValue with
      | .error e => .error e
      | .ok value => .ok (some ⟨name, value, unit, none, none, none⟩)
    else .ok none
  | _ => .ok none

/-- The body of the loop of `OpenEulerParser.Parse` for one raw line. -/
def openEulerStep (st : DeviceState) (raw : Str) : Except Panic DeviceState :=
  let line := TrimSpace raw
  if line = [] then
    if st.currentDevice.Name ≠ [] then .ok ⟨st.result ++ [st.currentDevice], Device.zero⟩
    else .ok st
  else if st.currentDevice.Name = [] then
    .ok { st with currentDevice := ⟨line, [], []⟩ }
  else if HasPrefix line "Adapter:".toList then
    .ok { st with currentDevice :=
            { st.currentDevice with
              Adapter := TrimSpace (TrimPrefix line "Adapter:".toList) } }
  else
    match parseOpenEulerSensorLine line with
    | .ok (some sensor) =>
      .ok { st with currentDevice :=
              { st.currentDevice with Sensors := st.currentDevice.Sensors ++ [sensor] } }
    | _ => .ok st

/-- The devices after the loop of `OpenEulerParser.Parse`: the last device is
added when it has a name and at least one sensor. -/
def openEulerFinal (st : DeviceState) : List Device :=
  if st.currentDevice.Name ≠ [] ∧ 0 < st.currentDevice.Sensors.length then
    st.result ++ [st.currentDevice]
  else st.result

/-- Go `OpenEulerParser.Parse`. -/
def OpenEulerParser.Parse (r : Reader) : Except Panic (Except GoError Result) :=
  match scanLoop openEulerStep ⟨[], Device.zero⟩ r.lines with
  | .error p => .error p
  | .ok st => .ok (finish r (openEulerFinal st))

/-! ## `NewParser` (`parser.go`) -/

/-- The three implementations of the Go interface `SensorParser`. -/
inductive SensorParser
  | OpenEulerParser
  | UbuntuParser
  | GenericParser
  deriving DecidableEq, Repr

/-- Method `Parse` of the interface. -/
def SensorParser.Parse (p : SensorParser) (r : Reader) : Except Panic (Except GoError Result) :=
  match p with
  | .OpenEulerParser => OpenEulerParser.Parse r
  | .UbuntuParser => UbuntuParser.Parse r
  | .GenericParser => GenericParser.Parse r

/-- Go `NewParser`; `tbl` is the Unicode case table of `strings.ToLower`. -/
def NewParser (tbl : Char → Char) (distro : Str) : SensorParser :=
  let d := ToLower tbl distro
  if d = "openeuler".toList then .OpenEulerParser
  else if d = "ubuntu".toList then .UbuntuParser
  else .GenericParser

/-! ## Observations used in the statements -/

/-- The names of the devices recorded so far, the open device (the one with a name)
included. -/
def deviceNames (result : List Device) (cur : Device) : List Str :=
  result.map Device.Name ++ (if cur.Name = [] then [] else [cur.Name])

/-- The non-blank input lines, trimmed. -/
def nonBlankLines (lines : List Str) : List Str :=
  (lines.map TrimSpace).filter (fun l => decide (l ≠ []))

/-- All the sensors a state of `GenericParser.Parse` holds: those of the recorded
devices, those of the current device, and the pending one. -/
def GenericState.sensors (st : GenericState) : List Sensor :=
  (st.result.map Device.Sensors).flatten ++ st.currentDevice.Sensors ++ st.currentSensor.toList

/-- All the sensors a state of `UbuntuParser.Parse` or `OpenEulerParser.Parse` holds. -/
def DeviceState.sensors (st : DeviceState) : List Sensor :=
  (st.result.map Device.Sensors).flatten ++ st.currentDevice.Sensors

/-- The state of `UbuntuParser.Parse` that a state of `GenericParser.Parse` stands for:
the pending sensor is counted with the current device. -/
def GenericState.toDeviceState (st : GenericState) : DeviceState :=
  ⟨st.result, flushSensor st.currentDevice st.currentSensor⟩

/-- A threshold clause that `processLimits` reads for the keyword `kw` as the number `v`:
trimmed, the clause starts with `kw`, `extractValue` gives a non-empty token, and
`ParseFloat` reads that token as `v`. -/
def ParseableClause (kw c : Str) (v : Float64) : Prop :=
  HasPrefix (TrimSpace c) kw = true ∧
    ∃ tok, extractValue (TrimSpace c) = .ok tok ∧ tok ≠ [] ∧ ParseFloat tok = .ok v

/-- The shape `key = [+]number[ white space unit]` of a threshold clause for the keyword
`kw` with the number `v`: trimmed, the clause is `key=rhs` with no `=` in `key`, `key`
begins with `kw`, and `rhs`, trimmed and without one leading `+`, starts with a non-empty
token without white space that ends the clause or is followed by white space, and that
`ParseFloat` reads as `v`. -/
def ThresholdClause (kw c : Str) (v : Float64) : Prop :=
  ∃ key rhs num rest, TrimSpace c = key ++ '=' :: rhs ∧ '=' ∉ key ∧
    HasPrefix key kw = true ∧
    TrimPrefix (TrimSpace rhs) "+".toList = num ++ rest ∧ num ≠ [] ∧
    (∀ ch ∈ num, isSpace ch = false) ∧
    (rest = [] ∨ ∃ ch cs, rest = ch :: cs ∧ isSpace ch = true) ∧
    ParseFloat num = .ok v

/-- What the loop of `Parse` has built after the given lines, in each dialect: the devices
recorded so far, and the current device as a blank line or end of input would record it
(for the generic parser, with the pending sensor counted in). -/
def SensorParser.scan (p : SensorParser) (lines : List Str) :
    Except Panic (List Device × Device) :=
  match p with
  | .GenericParser =>
    match scanLoop genericStep ⟨[], Device.zero, none⟩ lines with
    | .error e => .error e
    | .ok st => .ok (st.result, flushSensor st.currentDevice st.currentSensor)
  | .UbuntuParser =>
    match scanLoop ubuntuStep ⟨[], Device.zero⟩ lines with
    | .error e => .error e
    | .ok st => .ok (st.result, st.currentDevice)
  | .OpenEulerParser =>
    match scanLoop openEulerStep ⟨[], Device.zero⟩ lines with
    | .error e => .error e
    | .ok st => .ok (st.result, st.currentDevice)

/-! ## Auxiliary lemmas -/

theorem scanLoop_append {σ : Type} (step : σ → Str → Except Panic σ) (st : σ)
    (a b : List Str) :
    scanLoop step st (a ++ b) =
      match scanLoop step st a with
      | .error p => .error p
      | .ok st1 => scanLoop step st1 b := by
  induction a generalizing st with
  | nil => rfl
  | cons l ls ih =>
    simp only [List.cons_append, scanLoop]
    cases step st l with
    | error p => rfl
    | ok st1 => exact ih st1

theorem trimSpace_head_not_space (s : Str) (c : Char) (cs : Str)
    (h : TrimSpace s = c :: cs) : isSpace c = false := by
  unfold TrimSpace at h
  obtain ⟨t, ht⟩ := List.rdropWhile_prefix (p := isSpace) (l := s.dropWhile isSpace)
  rw [h] at ht
  have h1 := List.head?_dropWhile_not isSpace s
  rw [← ht] at h1
  simpa using h1

theorem hasPrefix_space_trimSpace (s : Str) : HasPrefix (TrimSpace s) " ".toList = false := by
  cases h : TrimSpace s with
  | nil => rfl
  | cons c cs =>
    have hc := trimSpace_head_not_space s c cs h
    have hne : (' ' == c) = false := by
      cases hcc : (' ' == c) with
      | false => rfl
      | true =>
        have : c = ' ' := by simpa using (beq_iff_eq.mp hcc).symm
        rw [this] at hc
        exact absurd hc (by decide)
    show List.isPrefixOf [' '] (c :: cs) = false
    simp [List.isPrefixOf, hne]

theorem splitN2_two_contains (s p0 p1 : Str) (sep : Char) (h : SplitN2 s sep = [p0, p1]) :
    s.contains sep = true := by
  unfold SplitN2 at h
  split at h
  · assumption
  · simp at h

theorem splitN2_two_ne_nil (s p0 p1 : Str) (sep : Char) (h : SplitN2 s sep = [p0, p1]) :
    s ≠ [] := by
  intro hs
  have := splitN2_two_contains s p0 p1 sep h
  rw [hs] at this
  simp at this

theorem parseSensorSimple_error (name v : Str) (e : GoError)
    (hrun : 0 < numRunLen v)
    (hbad : ParseFloat (TrimPrefix (v.take (numRunLen v)) "+".toList) = .error e) :
    parseSensorSimple name v = .error e := by
  unfold parseSensorSimple
  simp only [hrun, if_true, hbad]

theorem parseSensorLine_malformed (line p0 p1 : Str) (e : GoError)
    (hsplit : SplitN2 line ':' = [p0, p1])
    (hparen : Contains (TrimSpace p1) '(' = false)
    (hrun : 0 < numRunLen (TrimSpace p1))
    (hbad : ParseFloat
      (TrimPrefix ((TrimSpace p1).take (numRunLen (TrimSpace p1))) "+".toList) = .error e) :
    parseSensorLine line = .ok (.ok none) ∨ parseSensorLine line = .ok (.error e) := by
  unfold parseSensorLine
  rw [hsplit]
  simp only [hparen]
  cases hd : hasDigit (TrimSpace p1) with
  | false => left; simp
  | true =>
    right
    simp [parseSensorSimple_error (TrimSpace p0) (TrimSpace p1) e hrun hbad]

theorem genericStep_sensor_branch (st : GenericState) (raw : Str)
    (hne : TrimSpace raw ≠ [])
    (hcolon : Contains (TrimSpace raw) ':' = true)
    (hadapter : HasPrefix (TrimSpace raw) "Adapter:".toList = false) :
    genericStep st raw =
      match parseSensorLine (TrimSpace raw) with
      | .error p => .error p
      | .ok (.ok (some sensor)) =>
        .ok { st with currentDevice := flushSensor st.currentDevice st.currentSensor,
                      currentSensor := some sensor }
      | .ok _ =>
        .ok { st with currentDevice := flushSensor st.currentDevice st.currentSensor,
                      currentSensor := none } := by
  unfold genericStep
  simp only [hne, if_false, hcolon, hadapter, hasPrefix_space_trimSpace, Bool.not_true,
    and_false, Bool.false_and, Bool.false_eq_true]

theorem generic_parse_error_iff (r : Reader) (e : GoError) :
    GenericParser.Parse r = .ok (.error e) ↔
      r.err = some e ∧ ∃ st, scanLoop genericStep ⟨[], Device.zero, none⟩ r.lines = .ok st := by
  unfold GenericParser.Parse finish
  cases hs : scanLoop genericStep ⟨[], Device.zero, none⟩ r.lines with
  | error p => simp
  | ok st =>
    cases he : r.err with
    | none => simp
    | some e1 => simp

theorem flushSensor_name (d : Device) (s : Option Sensor) : (flushSensor d s).Name = d.Name := by
  cases s <;> rfl

theorem genericStep_result (st st1 : GenericState) (raw : Str)
    (h : genericStep st raw = .ok st1) :
    st1.result = st.result ∨
      (st.currentDevice.Name ≠ [] ∧
        st1.result = st.result ++ [flushSensor st.currentDevice st.currentSensor]) := by
  unfold genericStep at h
  simp only at h
  split at h
  · split at h
    · right
      rename_i hn
      cases h
      exact ⟨hn, rfl⟩
    · left; cases h; rfl
  · split at h
    · left; cases h; rfl
    · split at h
      · left; cases h; rfl
      · split at h
        · split at h
          · split at h
            · cases h
            · left; cases h; rfl
            · left; cases h; rfl
          · left; cases h; rfl
        · split at h
          · cases h
          · left; cases h; rfl
          · left; cases h; rfl

theorem scanLoop_generic_extends (lines : List Str) (st st1 : GenericState)
    (h : scanLoop genericStep st lines = .ok st1) : st.result <+: st1.result := by
  induction lines generalizing st with
  | nil => cases h; exact List.prefix_refl _
  | cons l ls ih =>
    simp only [scanLoop] at h
    cases hs : genericStep st l with
    | error p => rw [hs] at h; cases h
    | ok st2 =>
      rw [hs] at h
      have h2 := ih st2 h
      rcases genericStep_result st st2 l hs with h1 | ⟨_, h1⟩
      · rw [← h1]; exact h2
      · exact List.IsPrefix.trans (by rw [h1]; exact List.prefix_append _ _) h2

theorem scanLoop_generic_named (lines : List Str) (st st1 : GenericState)
    (h : scanLoop genericStep st lines = .ok st1)
    (hinv : ∀ d ∈ st.result, d.Name ≠ []) : ∀ d ∈ st1.result, d.Name ≠ [] := by
  induction lines generalizing st with
  | nil => cases h; exact hinv
  | cons l ls ih =>
    simp only [scanLoop] at h
    cases hs : genericStep st l with
    | error p => rw [hs] at h; cases h
    | ok st2 =>
      rw [hs] at h
      apply ih st2 h
      rcases genericStep_result st st2 l hs with h1 | ⟨hn, h1⟩
      · rw [h1]; exact hinv
      · rw [h1]
        intro d hd
        rcases List.mem_append.mp hd with hd | hd
        · exact hinv d hd
        · rw [List.mem_singleton.mp hd, flushSensor_name]; exact hn

theorem genericFinal_extends (st : GenericState) : st.result <+: genericFinal st := by
  unfold genericFinal
  split
  · exact List.prefix_append _ _
  · exact List.prefix_refl _

theorem genericFinal_named (st : GenericState) (hinv : ∀ d ∈ st.result, d.Name ≠ []) :
    ∀ d ∈ genericFinal st, d.Name ≠ [] := by
  unfold genericFinal
  split
  · rename_i hn
    intro d hd
    rcases List.mem_append.mp hd with hd | hd
    · exact hinv d hd
    · rw [List.mem_singleton.mp hd, flushSensor_name]; exact hn
  · exact hinv

theorem generic_parse_named (r : Reader) (res : Result)
    (h : GenericParser.Parse r = .ok (.ok res)) : ∀ d ∈ res.Devices, d.Name ≠ [] := by
  unfold GenericParser.Parse at h
  cases hs : scanLoop genericStep ⟨[], Device.zero, none⟩ r.lines with
  | error p => rw [hs] at h; cases h
  | ok st =>
    rw [hs] at h
    unfold finish at h
    cases he : r.err with
    | some e => rw [he] at h; cases h
    | none =>
      rw [he] at h
      cases h
      exact genericFinal_named st
        (scanLoop_generic_named r.lines _ st hs (by intro d hd; cases hd))

theorem genericStep_name_line (st : GenericState) (name : Str)
    (hclosed : st.currentDevice.Name = [])
    (hname : TrimSpace name ≠ [])
    (hcolon : Contains (TrimSpace name) ':' = false) :
    genericStep st name = .ok { st with currentDevice := ⟨TrimSpace name, [], []⟩ } := by
  unfold genericStep
  simp [hname, hclosed, hcolon]

theorem genericStep_blank (st : GenericState) (blank : Str) (hblank : TrimSpace blank = []) :
    genericStep st blank =
      if st.currentDevice.Name ≠ [] then
        .ok ⟨st.result ++ [flushSensor st.currentDevice st.currentSensor], Device.zero, none⟩
      else .ok st := by
  unfold genericStep
  simp [hblank]

theorem generic_parse_of_scan (lines : List Str) (st : GenericState)
    (h : scanLoop genericStep ⟨[], Device.zero, none⟩ lines = .ok st) :
    GenericParser.Parse ⟨lines, none⟩ = .ok (.ok ⟨genericFinal st⟩) := by
  unfold GenericParser.Parse finish
  simp only [h]

theorem ubuntuStep_result (st st1 : DeviceState) (raw : Str)
    (h : ubuntuStep st raw = .ok st1) :
    st1.result = st.result ∨ st1.result = st.result ++ [st.currentDevice] := by
  unfold ubuntuStep at h
  simp only at h
  split at h
  · split at h
    · right; cases h; rfl
    · left; cases h; rfl
  · split at h
    · left; cases h; rfl
    · split at h
      · left; cases h; rfl
      · split at h
        · cases h
        · left; cases h; rfl
        · left; cases h; rfl

theorem scanLoop_ubuntu_extends (lines : List Str) (st st1 : DeviceState)
    (h : scanLoop ubuntuStep st lines = .ok st1) : st.result <+: st1.result := by
  induction lines generalizing st with
  | nil => cases h; exact List.prefix_refl _
  | cons l ls ih =>
    simp only [scanLoop] at h
    cases hs : ubuntuStep st l with
    | error p => rw [hs] at h; cases h
    | ok st2 =>
      rw [hs] at h
      have h2 := ih st2 h
      rcases ubuntuStep_result st st2 l hs with h1 | h1
      · rw [← h1]; exact h2
      · exact List.IsPrefix.trans (by rw [h1]; exact List.prefix_append _ _) h2

theorem ubuntuFinal_extends (st : DeviceState) : st.result <+: ubuntuFinal st := by
  unfold ubuntuFinal
  split
  · exact List.prefix_append _ _
  · exact List.prefix_refl _

theorem ubuntu_parse_of_scan (lines : List Str) (st : DeviceState)
    (h : scanLoop ubuntuStep ⟨[], Device.zero⟩ lines = .ok st) :
    UbuntuParser.Parse ⟨lines, none⟩ = .ok (.ok ⟨ubuntuFinal st⟩) := by
  unfold UbuntuParser.Parse finish
  simp only [h]

theorem ubuntuStep_name_line (st : DeviceState) (name : Str)
    (hclosed : st.currentDevice.Name = [])
    (hname : TrimSpace name ≠ []) :
    ubuntuStep st name = .ok { st with currentDevice := ⟨TrimSpace name, [], []⟩ } := by
  unfold ubuntuStep
  simp [hname, hclosed]

theorem ubuntuStep_blank (st : DeviceState) (blank : Str) (hblank : TrimSpace blank = []) :
    ubuntuStep st blank =
      if st.currentDevice.Name ≠ [] then .ok ⟨st.result ++ [st.currentDevice], Device.zero⟩
      else .ok ⟨st.result, Device.zero⟩ := by
  unfold ubuntuStep
  simp [hblank]

theorem generic_parse_blank_end (lines : List Str) (err : Option GoError) :
    GenericParser.Parse ⟨lines ++ [[]], err⟩ = GenericParser.Parse ⟨lines, err⟩ := by
  unfold GenericParser.Parse
  simp only [scanLoop_append]
  cases hs : scanLoop genericStep ⟨[], Device.zero, none⟩ lines with
  | error p => rfl
  | ok st =>
    simp only [scanLoop]
    rw [genericStep_blank st [] rfl]
    by_cases hn : st.currentDevice.Name = []
    · simp [hn, finish]
    · simp [hn, genericFinal, finish, Device.zero]

theorem ubuntu_parse_blank_end (lines : List Str) (err : Option GoError) :
    UbuntuParser.Parse ⟨lines ++ [[]], err⟩ = UbuntuParser.Parse ⟨lines, err⟩ := by
  unfold UbuntuParser.Parse
  simp only [scanLoop_append]
  cases hs : scanLoop ubuntuStep ⟨[], Device.zero⟩ lines with
  | error p => rfl
  | ok st =>
    simp only [scanLoop]
    rw [ubuntuStep_blank st [] rfl]
    by_cases hn : st.currentDevice.Name = []
    · simp [hn, ubuntuFinal, finish, Device.zero]
    · simp [hn, ubuntuFinal, finish, Device.zero]

theorem numRunLen_eq (s : Str) : numRunLen s = (s.takeWhile isNumChar).length := by
  induction s with
  | nil => rfl
  | cons c cs ih =>
    simp only [numRunLen, List.takeWhile_cons]
    cases h : isNumChar c with
    | true => simp [ih]
    | false => simp

theorem take_numRunLen (s : Str) : s.take (numRunLen s) = s.takeWhile isNumChar := by
  induction s with
  | nil => rfl
  | cons c cs ih =>
    simp only [numRunLen, List.takeWhile_cons]
    cases h : isNumChar c with
    | true => simp [ih]
    | false => simp

theorem drop_numRunLen (s : Str) : s.drop (numRunLen s) = s.dropWhile isNumChar := by
  induction s with
  | nil => rfl
  | cons c cs ih =>
    simp only [numRunLen, List.dropWhile_cons]
    cases h : isNumChar c with
    | true => simp [ih]
    | false => simp

theorem select_by_name (d a b : Str) (hab : a ≠ b) :
    ((if d = a then SensorParser.OpenEulerParser
        else if d = b then SensorParser.UbuntuParser else SensorParser.GenericParser) =
        SensorParser.OpenEulerParser ↔ d = a) ∧
    ((if d = a then SensorParser.OpenEulerParser
        else if d = b then SensorParser.UbuntuParser else SensorParser.GenericParser) =
        SensorParser.UbuntuParser ↔ d = b) ∧
    ((if d = a then SensorParser.OpenEulerParser
        else if d = b then SensorParser.UbuntuParser else SensorParser.GenericParser) =
        SensorParser.GenericParser ↔ (d ≠ a ∧ d ≠ b)) := by
  by_cases h1 : d = a
  · have h2 : d ≠ b := fun h => hab (h1.symm.trans h)
    simp [h1, hab]
  · by_cases h2 : d = b
    · simp [h1, h2, Ne.symm hab]
    · simp [h1, h2]

theorem splitN2_append (key rhs : Str) (sep : Char) (hkey : sep ∉ key) :
    SplitN2 (key ++ sep :: rhs) sep = [key, rhs] := by
  have hc : (key ++ sep :: rhs).contains sep = true := by simp
  have ht : (key ++ sep :: rhs).takeWhile (fun c => c != sep) = key := by
    induction key with
    | nil => simp
    | cons a as ih =>
      have ha : a ≠ sep := fun h => hkey (by simp [h])
      have has : sep ∉ as := fun h => hkey (by simp [h])
      simp [List.takeWhile_cons, ha, ih has]
  have hd : (key ++ sep :: rhs).dropWhile (fun c => c != sep) = sep :: rhs := by
    clear hc ht
    induction key with
    | nil => simp
    | cons a as ih =>
      have ha : a ≠ sep := fun h => hkey (by simp [h])
      have has : sep ∉ as := fun h => hkey (by simp [h])
      simp [List.dropWhile_cons, ha, ih has]
  unfold SplitN2
  rw [if_pos hc, ht, hd]
  rfl

theorem fieldsFrom_run (num rest cur : Str) (hnosp : ∀ c ∈ num, isSpace c = false) :
    fieldsFrom cur (num ++ rest) = fieldsFrom (cur ++ num) rest := by
  induction num generalizing cur with
  | nil => simp
  | cons a as ih =>
    have ha : isSpace a = false := hnosp a (by simp)
    have has : ∀ c ∈ as, isSpace c = false := fun c hc => hnosp c (by simp [hc])
    simp only [List.cons_append, fieldsFrom, ha, Bool.false_eq_true, if_false]
    have := ih (cur ++ [a]) has
    simp only [List.append_assoc, List.singleton_append] at this
    exact this

theorem fields_first (num rest : Str) (hnum : num ≠ [])
    (hnosp : ∀ c ∈ num, isSpace c = false)
    (hrest : rest = [] ∨ ∃ c cs, rest = c :: cs ∧ isSpace c = true) :
    ∃ more, Fields (num ++ rest) = num :: more := by
  unfold Fields
  rw [fieldsFrom_run num rest [] hnosp]
  have he : num.isEmpty = false := by
    cases num with
    | nil => exact absurd rfl hnum
    | cons a as => rfl
  rcases hrest with h | ⟨c, cs, h, hc⟩
  · subst h
    exact ⟨[], by simp [fieldsFrom, he]⟩
  · subst h
    exact ⟨fieldsFrom [] cs, by simp [fieldsFrom, he, hc]⟩

theorem extractValue_clause (l key rhs num rest : Str)
    (hclause : l = key ++ '=' :: rhs)
    (hkey : '=' ∉ key)
    (hrhs : TrimPrefix (TrimSpace rhs) "+".toList = num ++ rest)
    (hnum : num ≠ [])
    (hnosp : ∀ c ∈ num, isSpace c = false)
    (hrest : rest = [] ∨ ∃ c cs, rest = c :: cs ∧ isSpace c = true) :
    extractValue l = .ok num := by
  obtain ⟨more, hf⟩ := fields_first num rest hnum hnosp hrest
  unfold extractValue
  rw [hclause, splitN2_append key rhs '=' hkey]
  simp only [hrhs, hf]

theorem applyLimit_value (s : Sensor) (l tok : Str) (v : Float64)
    (set : Sensor → Float64 → Sensor)
    (htok : extractValue l = .ok tok) (hne : tok ≠ [])
    (hval : ParseFloat tok = .ok v) :
    applyLimit (some s) l set = .ok (some (set s v)) := by
  unfold applyLimit
  simp only [htok, hval, ne_eq, hne, not_false_eq_true, if_true]

theorem hasPrefix_append (s t p : Str) (h : HasPrefix s p = true) :
    HasPrefix (s ++ t) p = true := by
  unfold HasPrefix at *
  rw [List.isPrefixOf_iff_prefix] at *
  exact List.IsPrefix.trans h (List.prefix_append s t)

theorem hasPrefix_first (s : Str) (a b : Char) (p q : Str) (hab : a ≠ b)
    (h : HasPrefix s (a :: p) = true) : HasPrefix s (b :: q) = false := by
  cases s with
  | nil => simp [HasPrefix, List.isPrefixOf] at h
  | cons c cs =>
    simp only [HasPrefix, List.isPrefixOf, Bool.and_eq_true, beq_iff_eq] at h
    have hcb : (b == c) = false := by
      cases hb : (b == c) with
      | false => rfl
      | true => exact absurd (h.1.trans (beq_iff_eq.mp hb).symm) hab
    simp [HasPrefix, List.isPrefixOf, hcb]

theorem names_step_sublist (n n2 acc : List Str) (l : Str)
    (h : n2 = n ∨ (TrimSpace l ≠ [] ∧ n2 = n ++ [TrimSpace l]))
    (hacc : n.Sublist acc) : n2.Sublist (acc ++ nonBlankLines [l]) := by
  rcases h with h | ⟨hne, h⟩
  · rw [h]
    exact hacc.trans (List.sublist_append_left _ _)
  · rw [h]
    have : nonBlankLines [l] = [TrimSpace l] := by
      simp [nonBlankLines, hne]
    rw [this]
    exact List.Sublist.append hacc (List.Sublist.refl _)

theorem nonBlankLines_cons (l : Str) (ls : List Str) :
    nonBlankLines (l :: ls) = nonBlankLines [l] ++ nonBlankLines ls := by
  simp [nonBlankLines, List.filter_cons]
  split <;> simp

theorem genericStep_names (st st1 : GenericState) (raw : Str)
    (h : genericStep st raw = .ok st1) :
    deviceNames st1.result st1.currentDevice = deviceNames st.result st.currentDevice ∨
      (TrimSpace raw ≠ [] ∧
        deviceNames st1.result st1.currentDevice =
          deviceNames st.result st.currentDevice ++ [TrimSpace raw]) := by
  unfold genericStep at h
  simp only at h
  split at h
  · split at h
    · left
      rename_i hn
      cases h
      simp [deviceNames, Device.zero, flushSensor_name, hn]
    · left; cases h; rfl
  · rename_i hne
    split at h
    · right
      rename_i hc
      cases h
      exact ⟨hne, by simp [deviceNames, hc.1, hne]⟩
    · split at h
      · left; cases h; rfl
      · split at h
        · split at h
          · split at h
            · cases h
            · left; cases h; rfl
            · left; cases h; rfl
          · left; cases h; rfl
        · split at h
          · cases h
          · left; cases h; simp [deviceNames, flushSensor_name]
          · left; cases h; simp [deviceNames, flushSensor_name]

theorem ubuntuStep_names (st st1 : DeviceState) (raw : Str)
    (h : ubuntuStep st raw = .ok st1) :
    deviceNames st1.result st1.currentDevice = deviceNames st.result st.currentDevice ∨
      (TrimSpace raw ≠ [] ∧
        deviceNames st1.result st1.currentDevice =
          deviceNames st.result st.currentDevice ++ [TrimSpace raw]) := by
  unfold ubuntuStep at h
  simp only at h
  split at h
  · split at h
    · left
      rename_i hn
      cases h
      simp [deviceNames, Device.zero, hn]
    · left
      rename_i hn
      cases h
      simp only [ne_eq, Decidable.not_not] at hn
      simp [deviceNames, Device.zero, hn]
  · rename_i hne
    split at h
    · right
      rename_i hc
      cases h
      exact ⟨hne, by simp [deviceNames, hc, hne]⟩
    · split at h
      · left; cases h; rfl
      · split at h
        · cases h
        · left; cases h; rfl
        · left; cases h; rfl

theorem openEulerStep_names (st st1 : DeviceState) (raw : Str)
    (h : openEulerStep st raw = .ok st1) :
    deviceNames st1.result st1.currentDevice = deviceNames st.result st.currentDevice ∨
      (TrimSpace raw ≠ [] ∧
        deviceNames st1.result st1.currentDevice =
          deviceNames st.result st.currentDevice ++ [TrimSpace raw]) := by
  unfold openEulerStep at h
  simp only at h
  split at h
  · split at h
    · left
      rename_i hn
      cases h
      simp [deviceNames, Device.zero, hn]
    · left; cases h; rfl
  · rename_i hne
    split at h
    · right
      rename_i hc
      cases h
      exact ⟨hne, by simp [deviceNames, hc, hne]⟩
    · split at h
      · left; cases h; rfl
      · split at h
        · left; cases h; rfl
        · left; cases h; rfl

theorem scanLoop_names {σ : Type} (step : σ → Str → Except Panic σ) (names : σ → List Str)
    (hstep : ∀ st st1 raw, step st raw = .ok st1 →
      names st1 = names st ∨ (TrimSpace raw ≠ [] ∧ names st1 = names st ++ [TrimSpace raw]))
    (lines : List Str) (st st1 : σ) (acc : List Str)
    (h : scanLoop step st lines = .ok st1) (hacc : (names st).Sublist acc) :
    (names st1).Sublist (acc ++ nonBlankLines lines) := by
  induction lines generalizing st acc with
  | nil =>
    cases h
    simpa [nonBlankLines] using hacc
  | cons l ls ih =>
    simp only [scanLoop] at h
    cases hs : step st l with
    | error p => rw [hs] at h; cases h
    | ok st2 =>
      rw [hs] at h
      rw [nonBlankLines_cons, ← List.append_assoc]
      exact ih st2 _ h (names_step_sublist _ _ acc l (hstep st st2 l hs) hacc)

theorem mem_nonBlankLines (lines : List Str) (n : Str) (h : n ∈ nonBlankLines lines) :
    n ≠ [] := by
  unfold nonBlankLines at h
  simpa using (List.mem_filter.mp h).2

theorem genericFinal_names (st : GenericState) :
    (genericFinal st).map Device.Name = deviceNames st.result st.currentDevice := by
  unfold genericFinal deviceNames
  by_cases hn : st.currentDevice.Name = []
  · simp [hn]
  · simp [hn, flushSensor_name]

theorem ubuntuFinal_names (st : DeviceState) :
    (ubuntuFinal st).map Device.Name = deviceNames st.result st.currentDevice := by
  unfold ubuntuFinal deviceNames
  by_cases hn : st.currentDevice.Name = []
  · simp [hn]
  · simp [hn]

theorem openEulerFinal_names (st : DeviceState) :
    ((openEulerFinal st).map Device.Name).Sublist
      (deviceNames st.result st.currentDevice) := by
  unfold openEulerFinal deviceNames
  by_cases hn : st.currentDevice.Name = []
  · simp [hn]
  · by_cases hs : 0 < st.currentDevice.Sensors.length
    · simp [hn, hs]
    · simp [hn, hs]

theorem parse_ok_inv (step : DeviceState → Str → Except Panic DeviceState)
    (final : DeviceState → List Device) (r : Reader) (res : Result)
    (h : (match scanLoop step ⟨[], Device.zero⟩ r.lines with
      | .error p => (.error p : Except Panic (Except GoError Result))
      | .ok st => .ok (finish r (final st))) = .ok (.ok res)) :
    ∃ st, scanLoop step ⟨[], Device.zero⟩ r.lines = .ok st ∧ res.Devices = final st := by
  cases hs : scanLoop step ⟨[], Device.zero⟩ r.lines with
  | error p => rw [hs] at h; cases h
  | ok st =>
    rw [hs] at h
    unfold finish at h
    cases he : r.err with
    | some e => rw [he] at h; cases h
    | none => rw [he] at h; cases h; exact ⟨st, rfl, rfl⟩

theorem generic_parse_ok_inv (r : Reader) (res : Result)
    (h : GenericParser.Parse r = .ok (.ok res)) :
    ∃ st, scanLoop genericStep ⟨[], Device.zero, none⟩ r.lines = .ok st ∧
      res.Devices = genericFinal st := by
  unfold GenericParser.Parse at h
  cases hs : scanLoop genericStep ⟨[], Device.zero, none⟩ r.lines with
  | error p => rw [hs] at h; cases h
  | ok st =>
    rw [hs] at h
    unfold finish at h
    cases he : r.err with
    | some e => rw [he] at h; cases h
    | none => rw [he] at h; cases h; exact ⟨st, rfl, rfl⟩

theorem openEuler_sensor_no_limits (line : Str) (s : Sensor)
    (h : parseOpenEulerSensorLine line = .ok (some s)) :
    s.Low = none ∧ s.High = none ∧ s.Critical = none := by
  unfold parseOpenEulerSensorLine at h
  split at h
  · simp only at h
    split at h
    · split at h
      · cases h
      · cases h; exact ⟨rfl, rfl, rfl⟩
    · cases h
  · cases h

theorem openEulerStep_no_limits (st st1 : DeviceState) (raw : Str)
    (h : openEulerStep st raw = .ok st1)
    (hres : ∀ d ∈ st.result, ∀ s ∈ d.Sensors, s.Low = none ∧ s.High = none ∧ s.Critical = none)
    (hcur : ∀ s ∈ st.currentDevice.Sensors, s.Low = none ∧ s.High = none ∧ s.Critical = none) :
    (∀ d ∈ st1.result, ∀ s ∈ d.Sensors, s.Low = none ∧ s.High = none ∧ s.Critical = none) ∧
      (∀ s ∈ st1.currentDevice.Sensors, s.Low = none ∧ s.High = none ∧ s.Critical = none) := by
  unfold openEulerStep at h
  simp only at h
  split at h
  · split at h
    · cases h
      refine ⟨?_, by simp [Device.zero]⟩
      intro d hd
      rcases List.mem_append.mp hd with hd | hd
      · exact hres d hd
      · rw [List.mem_singleton.mp hd]; exact hcur
    · cases h; exact ⟨hres, hcur⟩
  · split at h
    · cases h; exact ⟨hres, by simp⟩
    · split at h
      · cases h; exact ⟨hres, hcur⟩
      · split at h
        · rename_i sensor hp
          cases h
          refine ⟨hres, ?_⟩
          intro s hs
          rcases List.mem_append.mp hs with hs | hs
          · exact hcur s hs
          · rw [List.mem_singleton.mp hs]; exact openEuler_sensor_no_limits _ _ hp
        · cases h; exact ⟨hres, hcur⟩

theorem openEuler_scan_total (lines : List Str) (st : DeviceState) :
    ∃ st1, scanLoop openEulerStep st lines = .ok st1 := by
  induction lines generalizing st with
  | nil => exact ⟨st, rfl⟩
  | cons l ls ih =>
    have hs : ∃ st2, openEulerStep st l = .ok st2 := by
      unfold openEulerStep
      simp only
      split
      · split
        · exact ⟨_, rfl⟩
        · exact ⟨_, rfl⟩
      · split
        · exact ⟨_, rfl⟩
        · split
          · exact ⟨_, rfl⟩
          · split
            · exact ⟨_, rfl⟩
            · exact ⟨_, rfl⟩
    obtain ⟨st2, h2⟩ := hs
    obtain ⟨st1, h1⟩ := ih st2
    exact ⟨st1, by simp only [scanLoop, h2, h1]⟩

theorem scanLoop_openEuler_no_limits (lines : List Str) (st st1 : DeviceState)
    (h : scanLoop openEulerStep st lines = .ok st1)
    (hres : ∀ d ∈ st.result, ∀ s ∈ d.Sensors, s.Low = none ∧ s.High = none ∧ s.Critical = none)
    (hcur : ∀ s ∈ st.currentDevice.Sensors, s.Low = none ∧ s.High = none ∧ s.Critical = none) :
    (∀ d ∈ st1.result, ∀ s ∈ d.Sensors, s.Low = none ∧ s.High = none ∧ s.Critical = none) ∧
      (∀ s ∈ st1.currentDevice.Sensors, s.Low = none ∧ s.High = none ∧ s.Critical = none) := by
  induction lines generalizing st with
  | nil => cases h; exact ⟨hres, hcur⟩
  | cons l ls ih =>
    simp only [scanLoop] at h
    cases hs : openEulerStep st l with
    | error p => rw [hs] at h; cases h
    | ok st2 =>
      rw [hs] at h
      obtain ⟨h1, h2⟩ := openEulerStep_no_limits st st2 l hs hres hcur
      exact ih st2 h h1 h2

theorem openEulerFinal_no_limits (st : DeviceState)
    (hres : ∀ d ∈ st.result, ∀ s ∈ d.Sensors, s.Low = none ∧ s.High = none ∧ s.Critical = none)
    (hcur : ∀ s ∈ st.currentDevice.Sensors, s.Low = none ∧ s.High = none ∧ s.Critical = none) :
    ∀ d ∈ openEulerFinal st, ∀ s ∈ d.Sensors,
      s.Low = none ∧ s.High = none ∧ s.Critical = none := by
  unfold openEulerFinal
  split
  · intro d hd
    rcases List.mem_append.mp hd with hd | hd
    · exact hres d hd
    · rw [List.mem_singleton.mp hd]; exact hcur
  · exact hres

theorem openEuler_parse_total (r : Reader) :
    ∃ ds, OpenEulerParser.Parse r = .ok (finish r ds) ∧
      ∀ d ∈ ds, ∀ s ∈ d.Sensors, s.Low = none ∧ s.High = none ∧ s.Critical = none := by
  obtain ⟨st, hs⟩ := openEuler_scan_total r.lines ⟨[], Device.zero⟩
  obtain ⟨h1, h2⟩ := scanLoop_openEuler_no_limits r.lines _ st hs
    (by intro d hd; cases hd) (by intro s hs; cases hs)
  refine ⟨openEulerFinal st, ?_, openEulerFinal_no_limits st h1 h2⟩
  unfold OpenEulerParser.Parse
  rw [hs]

theorem openEulerStep_sensor_line (st : DeviceState) (raw line : Str) (sensor : Sensor)
    (hopen : st.currentDevice.Name ≠ [])
    (hline : TrimSpace raw = line)
    (hne : line ≠ [])
    (hadapter : HasPrefix line "Adapter:".toList = false)
    (hparse : parseOpenEulerSensorLine line = .ok (some sensor)) :
    openEulerStep st raw =
      .ok { st with currentDevice :=
              { st.currentDevice with Sensors := st.currentDevice.Sensors ++ [sensor] } } := by
  unfold openEulerStep
  simp only [hline, hne, if_false, hopen, hadapter, Bool.false_eq_true, hparse]

theorem mem_trimSpace (s : Str) (c : Char) (h : c ∈ TrimSpace s) : c ∈ s := by
  unfold TrimSpace at h
  exact (List.dropWhile_suffix isSpace).subset
    ((List.rdropWhile_prefix isSpace _).subset h)

theorem hasDigit_false_of_subset (s t : Str) (hst : ∀ c ∈ s, c ∈ t)
    (h : hasDigit t = false) : hasDigit s = false := by
  unfold hasDigit at *
  rw [List.any_eq_false] at *
  intro c hc
  exact h c (hst c hc)

theorem readMantissa_no_digit (s : Str) (a : MantAcc)
    (h : ∀ c ∈ s, isDigit c = false) :
    (readMantissa false s a).1.sawdigits = a.sawdigits := by
  induction s generalizing a with
  | nil => rfl
  | cons c cs ih =>
    have hc : isDigit c = false := h c (by simp)
    have hcs : ∀ d ∈ cs, isDigit d = false := fun d hd => h d (by simp [hd])
    unfold readMantissa
    split
    · rw [ih _ hcs]
    · split
      · split
        · rfl
        · rw [ih _ hcs]
      · simp only [hc, Bool.false_eq_true, if_false, Bool.false_and]

theorem special_signs (s : Str) (h : ∀ c ∈ s, c = '+' ∨ c = '-' ∨ c = '.') :
    special s = none := by
  have hinf : ∀ (neg : Bool) (n : Nat) (t : Str), (∀ c ∈ t, c = '+' ∨ c = '-' ∨ c = '.') →
      specialInf neg n t = none := by
    intro neg n t ht
    cases t with
    | nil => rfl
    | cons d ds =>
      rcases ht d (by simp) with hd | hd | hd <;> subst hd <;> rfl
  cases s with
  | nil => rfl
  | cons c cs =>
    have hcs : ∀ d ∈ cs, d = '+' ∨ d = '-' ∨ d = '.' := fun d hd => h d (by simp [hd])
    rcases h c (by simp) with hc | hc | hc <;> subst hc
    · exact hinf _ _ cs hcs
    · exact hinf _ _ cs hcs
    · rfl

theorem signs_no_digit (s : Str) (h : ∀ c ∈ s, c = '+' ∨ c = '-' ∨ c = '.') :
    ∀ c ∈ s, isDigit c = false := by
  intro c hc
  rcases h c hc with h1 | h1 | h1 <;> subst h1 <;> rfl

theorem readFloat_signs (s : Str) (h : ∀ c ∈ s, c = '+' ∨ c = '-' ∨ c = '.') :
    readFloat s = none := by
  cases s with
  | nil => rfl
  | cons c0 t =>
    have ht : ∀ d ∈ t, d = '+' ∨ d = '-' ∨ d = '.' := fun d hd => h d (by simp [hd])
    have hs1 : ∀ d ∈ (if c0 = '+' ∨ c0 = '-' then (c0 :: t).drop 1 else c0 :: t),
        d = '+' ∨ d = '-' ∨ d = '.' := by
      split
      · simpa using ht
      · exact h
    unfold readFloat
    simp only
    generalize (if c0 = '+' ∨ c0 = '-' then (c0 :: t).drop 1 else c0 :: t) = s1 at hs1 ⊢
    have hm := readMantissa_no_digit s1 ⟨0, false, false, 0, false⟩ (signs_no_digit _ hs1)
    match s1, hs1, hm with
    | [], _, hm => simp [hm]
    | [_], _, hm => simp [hm]
    | [_, _], _, hm => simp [hm]
    | d0 :: d1 :: d2 :: ds, hu, hm =>
      have hd0 : (d0 == '0') = false := by
        rcases hu d0 (by simp) with hd | hd | hd <;> subst hd <;> rfl
      simp [hd0, hm]

theorem parseFloat_signs (s : Str) (h : ∀ c ∈ s, c = '+' ∨ c = '-' ∨ c = '.') :
    ParseFloat s = .error .ErrSyntax := by
  unfold ParseFloat
  rw [special_signs s h, readFloat_signs s h]

theorem numChar_not_digit (c : Char) (hn : isNumChar c = true) (hd : isDigit c = false) :
    c = '+' ∨ c = '-' ∨ c = '.' := by
  unfold isNumChar at hn
  unfold isDigit at hd
  rw [hd] at hn
  simpa [or_assoc] using hn

theorem mem_trimPrefix (s p : Str) (c : Char) (h : c ∈ TrimPrefix s p) : c ∈ s := by
  unfold TrimPrefix at h
  split at h
  · exact List.mem_of_mem_drop h
  · exact h

theorem hasDigit_false_mem (s : Str) (h : hasDigit s = false) (c : Char) (hc : c ∈ s) :
    isDigit c = false := by
  unfold hasDigit at h
  rw [List.any_eq_false] at h
  have := h c hc
  unfold isDigit
  simpa using this

theorem parseSensorLine_no_digit (line : Str)
    (h : hasDigit ((line.dropWhile (fun c => c != ':')).drop 1) = false) :
    parseSensorLine line = .ok (.ok none) := by
  unfold parseSensorLine SplitN2
  by_cases hc : line.contains ':' = true
  · have hv : hasDigit (TrimSpace ((line.dropWhile (fun c => c != ':')).drop 1)) = false :=
      hasDigit_false_of_subset _ _ (mem_trimSpace _) h
    simp only [hc, if_true, hv, Bool.not_false]
  · simp only [hc, if_false, Bool.false_eq_true]

theorem parseOpenEulerSensorLine_no_digit (line : Str)
    (h : hasDigit ((line.dropWhile (fun c => c != ':')).drop 1) = false) :
    parseOpenEulerSensorLine line = .ok none ∨
      parseOpenEulerSensorLine line = .error .ErrSyntax := by
  unfold parseOpenEulerSensorLine SplitN2
  by_cases hc : line.contains ':' = true
  · have hv : hasDigit (TrimSpace ((line.dropWhile (fun c => c != ':')).drop 1)) = false :=
      hasDigit_false_of_subset _ _ (mem_trimSpace _) h
    simp only [hc, if_true]
    generalize TrimSpace ((line.dropWhile (fun c => c != ':')).drop 1) = v at hv
    by_cases hi : 0 < numRunLen v
    · right
      have hsigns : ∀ c ∈ TrimPrefix (v.take (numRunLen v)) "+".toList,
          c = '+' ∨ c = '-' ∨ c = '.' := by
        intro c hm
        have h1 := mem_trimPrefix _ _ c hm
        rw [take_numRunLen] at h1
        have h2 := List.mem_takeWhile_imp h1
        have h3 := (List.takeWhile_prefix isNumChar).subset h1
        exact numChar_not_digit c h2 (hasDigit_false_mem v hv c h3)
      simp only [hi, if_true, parseFloat_signs _ hsigns]
    · left
      simp only [hi, if_false]
  · left
    simp only [hc, if_false, Bool.false_eq_true]

theorem genericStep_no_sensor (g : GenericState) (raw : Str)
    (h : parseSensorLine (TrimSpace raw) = .ok (.ok none)) :
    ∃ g1, genericStep g raw = .ok g1 ∧ g1.sensors.Sublist g.sensors := by
  unfold genericStep
  simp only [h, hasPrefix_space_trimSpace, Bool.false_and, Bool.false_eq_true, if_false]
  split
  · split
    · refine ⟨_, rfl, ?_⟩
      cases hp : g.currentSensor <;>
        simp [GenericState.sensors, flushSensor, Device.zero, hp]
    · exact ⟨_, rfl, List.Sublist.refl _⟩
  · split
    · refine ⟨_, rfl, ?_⟩
      simp only [GenericState.sensors, List.append_nil]
      exact List.Sublist.append (List.sublist_append_left _ _) (List.Sublist.refl _)
    · split
      · exact ⟨_, rfl, List.Sublist.refl _⟩
      · refine ⟨_, rfl, ?_⟩
        cases hp : g.currentSensor <;>
          simp [GenericState.sensors, flushSensor, hp]

theorem ubuntuStep_no_sensor (u : DeviceState) (raw : Str)
    (h : parseSensorLine (TrimSpace raw) = .ok (.ok none)) :
    ∃ u1, ubuntuStep u raw = .ok u1 ∧ u1.sensors.Sublist u.sensors := by
  unfold ubuntuStep parseUbuntuSensorLine
  simp only [h]
  split
  · split
    · refine ⟨_, rfl, ?_⟩
      simp [DeviceState.sensors, Device.zero]
    · refine ⟨_, rfl, ?_⟩
      simp [DeviceState.sensors, Device.zero]
  · split
    · refine ⟨_, rfl, ?_⟩
      simp [DeviceState.sensors]
    · split
      · exact ⟨_, rfl, List.Sublist.refl _⟩
      · exact ⟨_, rfl, List.Sublist.refl _⟩

theorem openEulerStep_no_sensor (u : DeviceState) (raw : Str)
    (h : parseOpenEulerSensorLine (TrimSpace raw) = .ok none ∨
      parseOpenEulerSensorLine (TrimSpace raw) = .error .ErrSyntax) :
    ∃ u1, openEulerStep u raw = .ok u1 ∧ u1.sensors.Sublist u.sensors := by
  unfold openEulerStep
  simp only
  split
  · split
    · refine ⟨_, rfl, ?_⟩
      simp [DeviceState.sensors, Device.zero]
    · exact ⟨_, rfl, List.Sublist.refl _⟩
  · split
    · refine ⟨_, rfl, ?_⟩
      simp [DeviceState.sensors]
    · split
      · exact ⟨_, rfl, List.Sublist.refl _⟩
      · rcases h with h | h <;> rw [h] <;> exact ⟨_, rfl, List.Sublist.refl _⟩

theorem trimPrefix_drop (s p : Str) (h : HasPrefix s p = true) :
    TrimPrefix s p = s.drop p.length := by
  unfold TrimPrefix
  rw [if_pos h]

theorem hasPrefix_ne_nil (s p : Str) (hp : p ≠ []) (h : HasPrefix s p = true) : s ≠ [] := by
  intro hs
  subst hs
  cases p with
  | nil => exact hp rfl
  | cons a as => simp [HasPrefix, List.isPrefixOf] at h

theorem genericStep_adapter (st : GenericState) (raw : Str)
    (hopen : st.currentDevice.Name ≠ [])
    (hadapter : HasPrefix (TrimSpace raw) "Adapter:".toList = true) :
    genericStep st raw =
      .ok { st with currentDevice :=
              { st.currentDevice with Adapter := TrimSpace ((TrimSpace raw).drop 8) } } := by
  have hne := hasPrefix_ne_nil _ _ (by decide) hadapter
  unfold genericStep
  simp only [hne, if_false, hopen, false_and, hadapter, if_true,
    trimPrefix_drop _ _ hadapter]
  rfl

theorem ubuntuStep_adapter (st : DeviceState) (raw : Str)
    (hopen : st.currentDevice.Name ≠ [])
    (hadapter : HasPrefix (TrimSpace raw) "Adapter:".toList = true) :
    ubuntuStep st raw =
      .ok { st with currentDevice :=
              { st.currentDevice with Adapter := TrimSpace ((TrimSpace raw).drop 8) } } := by
  have hne := hasPrefix_ne_nil _ _ (by decide) hadapter
  unfold ubuntuStep
  simp only [hne, if_false, hopen, hadapter, if_true, trimPrefix_drop _ _ hadapter]
  rfl

theorem openEulerStep_adapter (st : DeviceState) (raw : Str)
    (hopen : st.currentDevice.Name ≠ [])
    (hadapter : HasPrefix (TrimSpace raw) "Adapter:".toList = true) :
    openEulerStep st raw =
      .ok { st with currentDevice :=
              { st.currentDevice with Adapter := TrimSpace ((TrimSpace raw).drop 8) } } := by
  have hne := hasPrefix_ne_nil _ _ (by decide) hadapter
  unfold openEulerStep
  simp only [hne, if_false, hopen, hadapter, if_true, trimPrefix_drop _ _ hadapter]
  rfl

theorem genericStep_block_line (st st1 : GenericState) (raw : Str)
    (hopen : st.currentDevice.Name ≠ [])
    (hne : TrimSpace raw ≠ [])
    (hadapter : HasPrefix (TrimSpace raw) "Adapter:".toList = false)
    (h : genericStep st raw = .ok st1) :
    st1.result = st.result ∧ st1.currentDevice.Name = st.currentDevice.Name ∧
      st1.currentDevice.Adapter = st.currentDevice.Adapter := by
  unfold genericStep at h
  simp only [hne, if_false, hopen, false_and, hadapter, hasPrefix_space_trimSpace,
    Bool.false_and, Bool.false_eq_true] at h
  split at h
  · cases h
  · cases h
    cases hp : st.currentSensor <;> simp [flushSensor]
  · cases h
    cases hp : st.currentSensor <;> simp [flushSensor]

theorem ubuntuStep_block_line (st st1 : DeviceState) (raw : Str)
    (hopen : st.currentDevice.Name ≠ [])
    (hne : TrimSpace raw ≠ [])
    (hadapter : HasPrefix (TrimSpace raw) "Adapter:".toList = false)
    (h : ubuntuStep st raw = .ok st1) :
    st1.result = st.result ∧ st1.currentDevice.Name = st.currentDevice.Name ∧
      st1.currentDevice.Adapter = st.currentDevice.Adapter := by
  unfold ubuntuStep at h
  simp only [hne, if_false, hopen, hadapter, Bool.false_eq_true] at h
  split at h
  · cases h
  · cases h; exact ⟨rfl, rfl, rfl⟩
  · cases h; exact ⟨rfl, rfl, rfl⟩

theorem openEulerStep_block_line (st st1 : DeviceState) (raw : Str)
    (hopen : st.currentDevice.Name ≠ [])
    (hne : TrimSpace raw ≠ [])
    (hadapter : HasPrefix (TrimSpace raw) "Adapter:".toList = false)
    (h : openEulerStep st raw = .ok st1) :
    st1.result = st.result ∧ st1.currentDevice.Name = st.currentDevice.Name ∧
      st1.currentDevice.Adapter = st.currentDevice.Adapter := by
  unfold openEulerStep at h
  simp only [hne, if_false, hopen, hadapter, Bool.false_eq_true] at h
  split at h
  · cases h; exact ⟨rfl, rfl, rfl⟩
  · cases h; exact ⟨rfl, rfl, rfl⟩

theorem openEulerStep_name_line (st : DeviceState) (name : Str)
    (hclosed : st.currentDevice.Name = [])
    (hname : TrimSpace name ≠ []) :
    openEulerStep st name = .ok { st with currentDevice := ⟨TrimSpace name, [], []⟩ } := by
  unfold openEulerStep
  simp [hname, hclosed]

theorem openEulerStep_blank (st : DeviceState) (blank : Str) (hblank : TrimSpace blank = []) :
    openEulerStep st blank =
      if st.currentDevice.Name ≠ [] then .ok ⟨st.result ++ [st.currentDevice], Device.zero⟩
      else .ok st := by
  unfold openEulerStep
  simp [hblank]

theorem scanLoop_cons_ok {σ : Type} (step : σ → Str → Except Panic σ) (st st1 : σ)
    (l : Str) (ls : List Str) (h : scanLoop step st (l :: ls) = .ok st1) :
    ∃ st2, step st l = .ok st2 ∧ scanLoop step st2 ls = .ok st1 := by
  simp only [scanLoop] at h
  cases hs : step st l with
  | error p => rw [hs] at h; cases h
  | ok st2 => rw [hs] at h; exact ⟨st2, rfl, h⟩

theorem flushSensor_adapter (d : Device) (s : Option Sensor) :
    (flushSensor d s).Adapter = d.Adapter := by
  cases s <;> rfl

theorem processLimitsLoop_append (s : Option Sensor) (a b : List Str) :
    processLimitsLoop s (a ++ b) =
      match processLimitsLoop s a with
      | .error p => .error p
      | .ok s1 => processLimitsLoop s1 b := by
  induction a generalizing s with
  | nil => rfl
  | cons l ls ih =>
    simp only [List.cons_append, processLimitsLoop]
    cases processLimit s l with
    | error p => rfl
    | ok s1 => exact ih s1

theorem ubuntu_parse_error_iff (r : Reader) (e : GoError) :
    UbuntuParser.Parse r = .ok (.error e) ↔
      r.err = some e ∧ ∃ st, scanLoop ubuntuStep ⟨[], Device.zero⟩ r.lines = .ok st := by
  unfold UbuntuParser.Parse finish
  cases hs : scanLoop ubuntuStep ⟨[], Device.zero⟩ r.lines with
  | error p => simp
  | ok st =>
    cases he : r.err with
    | none => simp
    | some e1 => simp

theorem ubuntuStep_malformed (st : DeviceState) (raw p0 p1 : Str) (e : GoError)
    (hopen : st.currentDevice.Name ≠ [])
    (hsplit : SplitN2 (TrimSpace raw) ':' = [p0, p1])
    (hadapter : HasPrefix (TrimSpace raw) "Adapter:".toList = false)
    (hparen : Contains (TrimSpace p1) '(' = false)
    (hrun : 0 < numRunLen (TrimSpace p1))
    (hbad : ParseFloat
      (TrimPrefix ((TrimSpace p1).take (numRunLen (TrimSpace p1))) "+".toList) = .error e) :
    ubuntuStep st raw = .ok st := by
  have hne := splitN2_two_ne_nil _ p0 p1 ':' hsplit
  unfold ubuntuStep parseUbuntuSensorLine
  simp only [hne, if_false, hopen, hadapter, Bool.false_eq_true]
  rcases parseSensorLine_malformed (TrimSpace raw) p0 p1 e hsplit hparen hrun hbad with h | h
  · rw [h]
  · rw [h]

theorem genericStep_open_sensor_line (st : GenericState) (raw : Str)
    (hne : TrimSpace raw ≠ [])
    (hopen : st.currentDevice.Name ≠ [])
    (hadapter : HasPrefix (TrimSpace raw) "Adapter:".toList = false) :
    genericStep st raw =
      match parseSensorLine (TrimSpace raw) with
      | .error p => .error p
      | .ok (.ok (some sensor)) =>
        .ok { st with currentDevice := flushSensor st.currentDevice st.currentSensor,
                      currentSensor := some sensor }
      | .ok _ =>
        .ok { st with currentDevice := flushSensor st.currentDevice st.currentSensor,
                      currentSensor := none } := by
  unfold genericStep
  simp only [hne, if_false, hopen, false_and, hadapter, hasPrefix_space_trimSpace,
    Bool.false_and, Bool.false_eq_true]

theorem ubuntuStep_open_sensor_line (st : DeviceState) (raw : Str)
    (hne : TrimSpace raw ≠ [])
    (hopen : st.currentDevice.Name ≠ [])
    (hadapter : HasPrefix (TrimSpace raw) "Adapter:".toList = false) :
    ubuntuStep st raw =
      match parseSensorLine (TrimSpace raw) with
      | .error p => .error p
      | .ok (.ok (some sensor)) =>
        .ok { st with currentDevice :=
                { st.currentDevice with Sensors := st.currentDevice.Sensors ++ [sensor] } }
      | .ok _ => .ok st := by
  unfold ubuntuStep parseUbuntuSensorLine
  simp only [hne, if_false, hopen, hadapter, Bool.false_eq_true]

theorem step_simulation (g : GenericState) (raw : Str)
    (hinv : g.currentDevice.Name = [] → g.currentDevice = Device.zero ∧ g.currentSensor = none)
    (hwf : g.currentDevice.Name = [] → TrimSpace raw ≠ [] →
      Contains (TrimSpace raw) ':' = false) :
    match genericStep g raw with
    | .error p => ubuntuStep g.toDeviceState raw = .error p
    | .ok g1 => ubuntuStep g.toDeviceState raw = .ok g1.toDeviceState ∧
        (g1.currentDevice.Name = [] →
          g1.currentDevice = Device.zero ∧ g1.currentSensor = none) := by
  have hname : g.toDeviceState.currentDevice.Name = g.currentDevice.Name :=
    flushSensor_name _ _
  by_cases ht : TrimSpace raw = []
  · by_cases hn : g.currentDevice.Name = []
    · obtain ⟨h1, h2⟩ := hinv hn
      have hg : genericStep g raw = .ok g := by
        rw [genericStep_blank g raw ht]
        simp [hn]
      have hu : ubuntuStep g.toDeviceState raw = .ok ⟨g.result, Device.zero⟩ := by
        rw [ubuntuStep_blank _ raw ht]
        simp [hn, GenericState.toDeviceState, flushSensor_name]
      rw [hg]
      refine ⟨?_, hinv⟩
      rw [hu]
      simp [GenericState.toDeviceState, h1, h2, flushSensor]
    · have hg : genericStep g raw =
          .ok ⟨g.result ++ [flushSensor g.currentDevice g.currentSensor], Device.zero, none⟩ := by
        rw [genericStep_blank g raw ht]
        simp [hn]
      have hu : ubuntuStep g.toDeviceState raw =
          .ok ⟨g.result ++ [flushSensor g.currentDevice g.currentSensor], Device.zero⟩ := by
        rw [ubuntuStep_blank _ raw ht]
        simp [hn, GenericState.toDeviceState, flushSensor_name]
      rw [hg]
      exact ⟨hu, fun _ => ⟨rfl, rfl⟩⟩
  · by_cases hn : g.currentDevice.Name = []
    · obtain ⟨h1, h2⟩ := hinv hn
      rw [genericStep_name_line g raw hn ht (hwf hn ht),
        ubuntuStep_name_line _ raw (hname.trans hn) ht]
      refine ⟨?_, fun h => absurd h ht⟩
      simp [GenericState.toDeviceState, h2, flushSensor]
    · have hnu : g.toDeviceState.currentDevice.Name ≠ [] := by rw [hname]; exact hn
      cases ha : HasPrefix (TrimSpace raw) "Adapter:".toList with
      | true =>
        rw [genericStep_adapter g raw hn ha, ubuntuStep_adapter _ raw hnu ha]
        refine ⟨?_, fun h => absurd h hn⟩
        cases hp : g.currentSensor <;> simp [GenericState.toDeviceState, flushSensor, hp]
      | false =>
        rw [genericStep_open_sensor_line g raw ht hn ha,
          ubuntuStep_open_sensor_line _ raw ht hnu ha]
        cases hp : parseSensorLine (TrimSpace raw) with
        | error p => rfl
        | ok r =>
          cases r with
          | error e =>
            refine ⟨?_, fun h => absurd ((flushSensor_name _ _).symm.trans h) hn⟩
            simp [GenericState.toDeviceState, flushSensor]
          | ok o =>
            cases o with
            | none =>
              refine ⟨?_, fun h => absurd ((flushSensor_name _ _).symm.trans h) hn⟩
              simp [GenericState.toDeviceState, flushSensor]
            | some sensor =>
              refine ⟨?_, fun h => absurd ((flushSensor_name _ _).symm.trans h) hn⟩
              simp [GenericState.toDeviceState, flushSensor]

theorem scan_simulation (lines : List Str) (g : GenericState)
    (hinv : g.currentDevice.Name = [] → g.currentDevice = Device.zero ∧ g.currentSensor = none)
    (hwf : ∀ (pre : List Str) (l : Str) (post : List Str) (st : GenericState),
      lines = pre ++ l :: post → scanLoop genericStep g pre = .ok st →
      st.currentDevice.Name = [] → TrimSpace l ≠ [] → Contains (TrimSpace l) ':' = false) :
    match scanLoop genericStep g lines with
    | .error p => scanLoop ubuntuStep g.toDeviceState lines = .error p
    | .ok g1 => scanLoop ubuntuStep g.toDeviceState lines = .ok g1.toDeviceState := by
  induction lines generalizing g with
  | nil => rfl
  | cons l ls ih =>
    have hstep := step_simulation g l hinv (hwf [] l ls g rfl rfl)
    simp only [scanLoop]
    cases hs : genericStep g l with
    | error p =>
      rw [hs] at hstep
      simp only [hstep]
    | ok g1 =>
      rw [hs] at hstep
      simp only [hstep.1]
      apply ih g1 hstep.2
      intro pre x post st hl hsc
      exact hwf (l :: pre) x post st (by rw [hl]; rfl) (by simp only [scanLoop, hs]; exact hsc)

theorem ubuntuFinal_toDeviceState (g : GenericState) :
    ubuntuFinal g.toDeviceState = genericFinal g := by
  unfold ubuntuFinal genericFinal
  have hname : g.toDeviceState.currentDevice.Name = g.currentDevice.Name :=
    flushSensor_name _ _
  rw [hname]
  rfl

theorem applyLimit_cases (s : Sensor) (l : Str) (set : Sensor → Float64 → Sensor)
    (o : Option Sensor) (h : applyLimit (some s) l set = .ok o) :
    o = some s ∨
      ∃ tok v, extractValue l = .ok tok ∧ tok ≠ [] ∧ ParseFloat tok = .ok v ∧
        o = some (set s v) := by
  unfold applyLimit at h
  split at h
  · cases h
  · rename_i str hstr
    split at h
    · rename_i hne
      split at h
      · rename_i v hv
        cases h
        exact Or.inr ⟨str, v, hstr, hne, hv, rfl⟩
      · cases h; exact Or.inl rfl
    · cases h; exact Or.inl rfl

theorem processLimit_cases (s : Sensor) (l : Str) (o : Option Sensor)
    (h : processLimit (some s) l = .ok o) :
    ∃ s1, o = some s1 ∧ s1.Name = s.Name ∧ s1.Value = s.Value ∧ s1.Unit = s.Unit ∧
      (s1.Low = s.Low ∨ ∃ w, ParseableClause "low".toList l w ∧ s1.Low = some w) ∧
      (s1.High = s.High ∨ ∃ w, ParseableClause "high".toList l w ∧ s1.High = some w) ∧
      (s1.Critical = s.Critical ∨
        ∃ w, ParseableClause "crit".toList l w ∧ s1.Critical = some w) := by
  unfold processLimit at h
  simp only at h
  split at h
  · rename_i hp
    rcases applyLimit_cases s _ _ o h with h1 | ⟨tok, v, h1, h2, h3, h4⟩
    · subst h1
      exact ⟨s, rfl, rfl, rfl, rfl, Or.inl rfl, Or.inl rfl, Or.inl rfl⟩
    · subst h4
      exact ⟨_, rfl, rfl, rfl, rfl, Or.inr ⟨v, ⟨hp, tok, h1, h2, h3⟩, rfl⟩, Or.inl rfl,
        Or.inl rfl⟩
  · split at h
    · rename_i hp
      rcases applyLimit_cases s _ _ o h with h1 | ⟨tok, v, h1, h2, h3, h4⟩
      · subst h1
        exact ⟨s, rfl, rfl, rfl, rfl, Or.inl rfl, Or.inl rfl, Or.inl rfl⟩
      · subst h4
        exact ⟨_, rfl, rfl, rfl, rfl, Or.inl rfl, Or.inr ⟨v, ⟨hp, tok, h1, h2, h3⟩, rfl⟩,
          Or.inl rfl⟩
    · split at h
      · rename_i hp
        rcases applyLimit_cases s _ _ o h with h1 | ⟨tok, v, h1, h2, h3, h4⟩
        · subst h1
          exact ⟨s, rfl, rfl, rfl, rfl, Or.inl rfl, Or.inl rfl, Or.inl rfl⟩
        · subst h4
          exact ⟨_, rfl, rfl, rfl, rfl, Or.inl rfl, Or.inl rfl,
            Or.inr ⟨v, ⟨hp, tok, h1, h2, h3⟩, rfl⟩⟩
      · cases h
        exact ⟨s, rfl, rfl, rfl, rfl, Or.inl rfl, Or.inl rfl, Or.inl rfl⟩

theorem processLimitsLoop_keeps (post : List Str) (s : Sensor) (o : Option Sensor)
    (h : processLimitsLoop (some s) post = .ok o) :
    ∃ s1, o = some s1 ∧ s1.Name = s.Name ∧ s1.Value = s.Value ∧ s1.Unit = s.Unit ∧
      ((∀ l ∈ post, ∀ w, ¬ParseableClause "low".toList l w) → s1.Low = s.Low) ∧
      ((∀ l ∈ post, ∀ w, ¬ParseableClause "high".toList l w) → s1.High = s.High) ∧
      ((∀ l ∈ post, ∀ w, ¬ParseableClause "crit".toList l w) →
        s1.Critical = s.Critical) := by
  induction post generalizing s with
  | nil => cases h; exact ⟨s, rfl, rfl, rfl, rfl, fun _ => rfl, fun _ => rfl, fun _ => rfl⟩
  | cons l ls ih =>
    simp only [processLimitsLoop] at h
    cases hs : processLimit (some s) l with
    | error p => rw [hs] at h; cases h
    | ok o2 =>
      rw [hs] at h
      obtain ⟨s2, ho2, n1, n2, n3, a1, a2, a3⟩ := processLimit_cases s l o2 hs
      subst ho2
      obtain ⟨s1, ho, m1, m2, m3, b1, b2, b3⟩ := ih s2 h
      refine ⟨s1, ho, m1.trans n1, m2.trans n2, m3.trans n3, ?_, ?_, ?_⟩
      · intro hall
        rw [b1 (fun x hx => hall x (by simp [hx]))]
        rcases a1 with a | ⟨w, hw, _⟩
        · exact a
        · exact absurd hw (hall l (by simp) w)
      · intro hall
        rw [b2 (fun x hx => hall x (by simp [hx]))]
        rcases a2 with a | ⟨w, hw, _⟩
        · exact a
        · exact absurd hw (hall l (by simp) w)
      · intro hall
        rw [b3 (fun x hx => hall x (by simp [hx]))]
        rcases a3 with a | ⟨w, hw, _⟩
        · exact a
        · exact absurd hw (hall l (by simp) w)

theorem processLimit_parseable (s : Sensor) (c : Str) (v : Float64) :
    (ParseableClause "low".toList c v →
      processLimit (some s) c = .ok (some { s with Low := some v })) ∧
    (ParseableClause "high".toList c v →
      processLimit (some s) c = .ok (some { s with High := some v })) ∧
    (ParseableClause "crit".toList c v →
      processLimit (some s) c = .ok (some { s with Critical := some v })) := by
  refine ⟨?_, ?_, ?_⟩
  · rintro ⟨hp, tok, htok, hne, hval⟩
    unfold processLimit
    simp only [hp, if_true]
    exact applyLimit_value s _ tok v _ htok hne hval
  · rintro ⟨hp, tok, htok, hne, hval⟩
    have hl : HasPrefix (TrimSpace c) "low".toList = false :=
      hasPrefix_first _ 'h' 'l' _ _ (by decide) hp
    unfold processLimit
    simp only [hp, hl, if_true, Bool.false_eq_true, if_false]
    exact applyLimit_value s _ tok v _ htok hne hval
  · rintro ⟨hp, tok, htok, hne, hval⟩
    have hl : HasPrefix (TrimSpace c) "low".toList = false :=
      hasPrefix_first _ 'c' 'l' _ _ (by decide) hp
    have hh : HasPrefix (TrimSpace c) "high".toList = false :=
      hasPrefix_first _ 'c' 'h' _ _ (by decide) hp
    unfold processLimit
    simp only [hp, hl, hh, if_true, Bool.false_eq_true, if_false]
    exact applyLimit_value s _ tok v _ htok hne hval

theorem split_no_sep (a : Str) (sep : Char) (h : sep ∉ a) : Split a sep = [a] := by
  induction a with
  | nil => rfl
  | cons c cs ih =>
    have hc : c ≠ sep := fun e => h (by simp [e])
    have hcs : sep ∉ cs := fun e => h (by simp [e])
    simp only [Split, hc, if_false, ih hcs]

theorem split_append (a b : Str) (sep : Char) (h : sep ∉ a) :
    Split (a ++ sep :: b) sep = a :: Split b sep := by
  induction a with
  | nil => simp [Split]
  | cons c cs ih =>
    have hc : c ≠ sep := fun e => h (by simp [e])
    have hcs : sep ∉ cs := fun e => h (by simp [e])
    simp only [List.cons_append, Split, hc, if_false]
    rw [show cs.append (sep :: b) = cs ++ sep :: b from rfl, ih hcs]

theorem split_intercalate (cs : List Str) (sep : Char) (hne : cs ≠ [])
    (h : ∀ c ∈ cs, sep ∉ c) : Split (List.intercalate [sep] cs) sep = cs := by
  induction cs with
  | nil => exact absurd rfl hne
  | cons c rest ih =>
    have hc : sep ∉ c := h c (by simp)
    cases rest with
    | nil =>
      simp only [List.intercalate, List.intersperse, List.flatten, List.append_nil]
      exact split_no_sep c sep hc
    | cons d ds =>
      have hrest : ∀ x ∈ d :: ds, sep ∉ x := fun x hx => h x (by simp [hx])
      have ih2 := ih (by simp) hrest
      have he : List.intercalate [sep] (c :: d :: ds) =
          c ++ sep :: List.intercalate [sep] (d :: ds) := by
        simp [List.intercalate, List.intersperse_cons_cons]
      rw [he, split_append c _ sep hc, ih2]

theorem trimSuffix_append (l p : Str) : TrimSuffix (l ++ p) p = l := by
  unfold TrimSuffix
  have h : p.isSuffixOf (l ++ p) = true :=
    List.isSuffixOf_iff_suffix.mpr (List.suffix_append l p)
  rw [if_pos h]
  simp

theorem thresholdClause_parseable (kw c : Str) (v : Float64)
    (h : ThresholdClause kw c v) : ParseableClause kw c v := by
  obtain ⟨key, rhs, num, rest, h1, h2, h3, h4, h5, h6, h7, h8⟩ := h
  refine ⟨?_, num, extractValue_clause _ key rhs num rest h1 h2 h4 h5 h6 h7, h5, h8⟩
  rw [h1]
  exact hasPrefix_append _ _ _ h3

theorem processLimitsLoop_total (cs : List Str) (s : Sensor)
    (h : ∀ c ∈ cs, (∃ v, ParseableClause "low".toList c v ∨
        ParseableClause "high".toList c v ∨ ParseableClause "crit".toList c v) ∨
      (HasPrefix (TrimSpace c) "low".toList = false ∧
        HasPrefix (TrimSpace c) "high".toList = false ∧
        HasPrefix (TrimSpace c) "crit".toList = false)) :
    ∃ r, processLimitsLoop (some s) cs = .ok (some r) := by
  induction cs generalizing s with
  | nil => exact ⟨s, rfl⟩
  | cons c rest ih =>
    have hrest := fun x hx => h x (List.mem_cons_of_mem c hx)
    simp only [processLimitsLoop]
    rcases h c (by simp) with ⟨v, hv⟩ | ⟨n1, n2, n3⟩
    · obtain ⟨c1, c2, c3⟩ := processLimit_parseable s c v
      rcases hv with hv | hv | hv
      · rw [c1 hv]; exact ih _ hrest
      · rw [c2 hv]; exact ih _ hrest
      · rw [c3 hv]; exact ih _ hrest
    · have hp : processLimit (some s) c = .ok (some s) := by
        unfold processLimit
        simp only [n1, n2, n3, Bool.false_eq_true, if_false]
      rw [hp]; exact ih _ hrest

theorem parseSensorSimple_fields (name v : Str) (s : Sensor)
    (h : parseSensorSimple name v = .ok (some s)) :
    s.Name = name ∧ s.Low = none ∧ s.High = none ∧ s.Critical = none := by
  unfold parseSensorSimple at h
  simp only at h
  split at h
  · split at h
    · cases h
    · cases h; exact ⟨rfl, rfl, rfl, rfl⟩
  · cases h

theorem parseSensorWithLimits_inline (name main limits : Str) (s0 : Sensor)
    (hmain : '(' ∉ main)
    (hvalue : parseSensorSimple name main = .ok (some s0)) :
    parseSensorWithLimits name (.string (main ++ '(' :: limits ++ [')'])) [] =
      match processLimitsLoop (some s0) (Split limits ',') with
      | .error p => .error p
      | .ok s => .ok (.ok s) := by
  have hs : SplitN2 (main ++ '(' :: (limits ++ [')'])) '(' = [main, limits ++ [')']] :=
    splitN2_append main _ '(' hmain
  have ht : TrimSuffix (limits ++ [')']) ")".toList = limits := trimSuffix_append limits _
  unfold parseSensorWithLimits
  simp only [List.append_assoc, List.cons_append] at hs ⊢
  simp only [hs, List.headD_cons, hvalue]
  rw [show limits ++ [')'] = limits ++ ")".toList from rfl, trimSuffix_append]
  rfl

theorem processLimitsLoop_last (s r : Sensor) (pre post : List Str) (c : Str) (v : Float64)
    (hrun : processLimitsLoop (some s) (pre ++ c :: post) = .ok (some r)) :
    (ParseableClause "low".toList c v →
      (∀ l ∈ post, ∀ w, ¬ParseableClause "low".toList l w) → r.Low = some v) ∧
    (ParseableClause "high".toList c v →
      (∀ l ∈ post, ∀ w, ¬ParseableClause "high".toList l w) → r.High = some v) ∧
    (ParseableClause "crit".toList c v →
      (∀ l ∈ post, ∀ w, ¬ParseableClause "crit".toList l w) → r.Critical = some v) := by
  rw [processLimitsLoop_append] at hrun
  cases hpre : processLimitsLoop (some s) pre with
  | error p => rw [hpre] at hrun; cases hrun
  | ok o1 =>
    rw [hpre] at hrun
    obtain ⟨s1, ho1, _⟩ := processLimitsLoop_keeps pre s o1 hpre
    subst ho1
    simp only [processLimitsLoop] at hrun
    obtain ⟨c1, c2, c3⟩ := processLimit_parseable s1 c v
    refine ⟨?_, ?_, ?_⟩
    · intro hp hpost
      rw [c1 hp] at hrun
      obtain ⟨r1, hr1, _, _, _, b1, _, _⟩ := processLimitsLoop_keeps post _ _ hrun
      cases hr1
      rw [b1 hpost]
    · intro hp hpost
      rw [c2 hp] at hrun
      obtain ⟨r1, hr1, _, _, _, _, b2, _⟩ := processLimitsLoop_keeps post _ _ hrun
      cases hr1
      rw [b2 hpost]
    · intro hp hpost
      rw [c3 hp] at hrun
      obtain ⟨r1, hr1, _, _, _, _, _, b3⟩ := processLimitsLoop_keeps post _ _ hrun
      cases hr1
      rw [b3 hpost]

theorem not_parseable_of_no_keyword (kw : Str) (ls : List Str)
    (h : ∀ l ∈ ls, HasPrefix (TrimSpace l) kw = false) :
    ∀ l ∈ ls, ∀ w, ¬ParseableClause kw l w := by
  intro l hl w hw
  have := h l hl
  rw [hw.1] at this
  cases this

theorem openEulerStep_open_line (l : Str) (hne : TrimSpace l ≠ []) :
    ∃ (fa : Str → Str) (extra : List Sensor), ∀ st1 : DeviceState,
      st1.currentDevice.Name ≠ [] →
      openEulerStep st1 l =
        .ok ⟨st1.result, ⟨st1.currentDevice.Name, fa st1.currentDevice.Adapter,
          st1.currentDevice.Sensors ++ extra⟩⟩ := by
  cases ha : HasPrefix (TrimSpace l) "Adapter:".toList with
  | true =>
    refine ⟨fun _ => TrimSpace (TrimPrefix (TrimSpace l) "Adapter:".toList), [], ?_⟩
    intro st1 h1
    unfold openEulerStep
    simp only [hne, if_false, h1, ha, if_true, List.append_nil]
  | false =>
    cases hp : parseOpenEulerSensorLine (TrimSpace l) with
    | error e =>
      refine ⟨id, [], ?_⟩
      intro st1 h1
      unfold openEulerStep
      simp only [hne, if_false, h1, ha, Bool.false_eq_true, hp, List.append_nil, id]
    | ok o =>
      cases o with
      | none =>
        refine ⟨id, [], ?_⟩
        intro st1 h1
        unfold openEulerStep
        simp only [hne, if_false, h1, ha, Bool.false_eq_true, hp, List.append_nil, id]
      | some sensor =>
        refine ⟨id, [sensor], ?_⟩
        intro st1 h1
        unfold openEulerStep
        simp only [hne, if_false, h1, ha, Bool.false_eq_true, hp, id]

theorem openEuler_block (block : List Str) (hblock : ∀ l ∈ block, TrimSpace l ≠ []) :
    ∃ (fa : Str → Str) (extra : List Sensor), ∀ st : DeviceState,
      st.currentDevice.Name ≠ [] →
      scanLoop openEulerStep st block =
        .ok ⟨st.result, ⟨st.currentDevice.Name, fa st.currentDevice.Adapter,
          st.currentDevice.Sensors ++ extra⟩⟩ := by
  induction block with
  | nil =>
    refine ⟨id, [], ?_⟩
    intro st _
    simp [scanLoop]
  | cons l ls ih =>
    obtain ⟨fa2, extra2, h2⟩ := ih (fun x hx => hblock x (by simp [hx]))
    obtain ⟨fa1, extra1, h1⟩ := openEulerStep_open_line l (hblock l (by simp))
    refine ⟨fun a => fa2 (fa1 a), extra1 ++ extra2, ?_⟩
    intro st hopen
    simp only [scanLoop, h1 st hopen]
    have h3 := h2 ⟨st.result, ⟨st.currentDevice.Name, fa1 st.currentDevice.Adapter,
      st.currentDevice.Sensors ++ extra1⟩⟩ hopen
    rw [h3]
    simp

theorem openEuler_parse_of_scan (lines : List Str) (st : DeviceState)
    (h : scanLoop openEulerStep ⟨[], Device.zero⟩ lines = .ok st) :
    OpenEulerParser.Parse ⟨lines, none⟩ = .ok (.ok ⟨openEulerFinal st⟩) := by
  unfold OpenEulerParser.Parse finish
  simp only [h]

theorem scanLoop_open_block {σ : Type} (step : σ → Str → Except Panic σ)
    (result : σ → List Device) (cur : σ → Device)
    (hstep : ∀ st st1 raw, (cur st).Name ≠ [] → TrimSpace raw ≠ [] → step st raw = .ok st1 →
      result st1 = result st ∧ (cur st1).Name = (cur st).Name ∧
        (HasPrefix (TrimSpace raw) "Adapter:".toList = false →
          (cur st1).Adapter = (cur st).Adapter))
    (block : List Str) (st st1 : σ)
    (hopen : (cur st).Name ≠ [])
    (hblock : ∀ l ∈ block, TrimSpace l ≠ [])
    (h : scanLoop step st block = .ok st1) :
    result st1 = result st ∧ (cur st1).Name = (cur st).Name ∧
      ((∀ l ∈ block, HasPrefix (TrimSpace l) "Adapter:".toList = false) →
        (cur st1).Adapter = (cur st).Adapter) := by
  induction block generalizing st with
  | nil => cases h; exact ⟨rfl, rfl, fun _ => rfl⟩
  | cons l ls ih =>
    obtain ⟨st2, hs, h2⟩ := scanLoop_cons_ok _ _ _ _ _ h
    obtain ⟨h1, h2n, h3⟩ := hstep st st2 l hopen (hblock l (by simp)) hs
    obtain ⟨k1, k2, k3⟩ := ih st2 (by rw [h2n]; exact hopen)
      (fun x hx => hblock x (by simp [hx])) h2
    refine ⟨k1.trans h1, k2.trans h2n, ?_⟩
    intro hall
    rw [k3 (fun x hx => hall x (by simp [hx])), h3 (hall l (by simp))]

theorem scanLoop_adapter_block {σ : Type} (step : σ → Str → Except Panic σ)
    (result : σ → List Device) (cur : σ → Device)
    (hstep : ∀ st st1 raw, (cur st).Name ≠ [] → TrimSpace raw ≠ [] → step st raw = .ok st1 →
      result st1 = result st ∧ (cur st1).Name = (cur st).Name ∧
        (HasPrefix (TrimSpace raw) "Adapter:".toList = false →
          (cur st1).Adapter = (cur st).Adapter))
    (hadapterstep : ∀ st st1 raw, (cur st).Name ≠ [] →
      HasPrefix (TrimSpace raw) "Adapter:".toList = true → step st raw = .ok st1 →
      (cur st1).Adapter = TrimSpace ((TrimSpace raw).drop 8))
    (block1 block2 : List Str) (raw : Str) (st st2 : σ)
    (hopen : (cur st).Name ≠ [])
    (hb1 : ∀ l ∈ block1, TrimSpace l ≠ [])
    (hadapter : HasPrefix (TrimSpace raw) "Adapter:".toList = true)
    (hb2 : ∀ l ∈ block2,
      TrimSpace l ≠ [] ∧ HasPrefix (TrimSpace l) "Adapter:".toList = false)
    (h : scanLoop step st (block1 ++ raw :: block2) = .ok st2) :
    result st2 = result st ∧ (cur st2).Name = (cur st).Name ∧
      (cur st2).Adapter = TrimSpace ((TrimSpace raw).drop 8) := by
  rw [scanLoop_append] at h
  cases hs1 : scanLoop step st block1 with
  | error p => rw [hs1] at h; cases h
  | ok s1 =>
    rw [hs1] at h
    obtain ⟨a1, a2, _⟩ := scanLoop_open_block step result cur hstep block1 st s1 hopen hb1 hs1
    have hopen1 : (cur s1).Name ≠ [] := by rw [a2]; exact hopen
    obtain ⟨s1a, hsa, hrest⟩ := scanLoop_cons_ok _ _ _ _ _ h
    have hne := hasPrefix_ne_nil _ _ (by decide) hadapter
    obtain ⟨b1, b2, _⟩ := hstep s1 s1a raw hopen1 hne hsa
    have b3 := hadapterstep s1 s1a raw hopen1 hadapter hsa
    have hopen2 : (cur s1a).Name ≠ [] := by rw [b2]; exact hopen1
    obtain ⟨c1, c2, c3⟩ := scanLoop_open_block step result cur hstep block2 s1a st2 hopen2
      (fun l hl => (hb2 l hl).1) hrest
    exact ⟨c1.trans (b1.trans a1), c2.trans (b2.trans a2),
      (c3 (fun l hl => (hb2 l hl).2)).trans b3⟩

theorem genericStep_open_any_line (st st1 : GenericState) (raw : Str)
    (hopen : (flushSensor st.currentDevice st.currentSensor).Name ≠ [])
    (hne : TrimSpace raw ≠ [])
    (h : genericStep st raw = .ok st1) :
    st1.result = st.result ∧
      (flushSensor st1.currentDevice st1.currentSensor).Name =
        (flushSensor st.currentDevice st.currentSensor).Name ∧
      (HasPrefix (TrimSpace raw) "Adapter:".toList = false →
        (flushSensor st1.currentDevice st1.currentSensor).Adapter =
          (flushSensor st.currentDevice st.currentSensor).Adapter) := by
  rw [flushSensor_name] at hopen
  simp only [flushSensor_name, flushSensor_adapter]
  cases ha : HasPrefix (TrimSpace raw) "Adapter:".toList with
  | true =>
    rw [genericStep_adapter st raw hopen ha] at h
    cases h
    exact ⟨rfl, rfl, fun hf => by cases hf⟩
  | false =>
    obtain ⟨h1, h2, h3⟩ := genericStep_block_line st st1 raw hopen hne ha h
    exact ⟨h1, h2, fun _ => h3⟩

theorem ubuntuStep_open_any_line (st st1 : DeviceState) (raw : Str)
    (hopen : st.currentDevice.Name ≠ [])
    (hne : TrimSpace raw ≠ [])
    (h : ubuntuStep st raw = .ok st1) :
    st1.result = st.result ∧ st1.currentDevice.Name = st.currentDevice.Name ∧
      (HasPrefix (TrimSpace raw) "Adapter:".toList = false →
        st1.currentDevice.Adapter = st.currentDevice.Adapter) := by
  cases ha : HasPrefix (TrimSpace raw) "Adapter:".toList with
  | true =>
    rw [ubuntuStep_adapter st raw hopen ha] at h
    cases h
    exact ⟨rfl, rfl, fun hf => by cases hf⟩
  | false =>
    obtain ⟨h1, h2, h3⟩ := ubuntuStep_block_line st st1 raw hopen hne ha h
    exact ⟨h1, h2, fun _ => h3⟩

theorem openEulerStep_open_any_line (st st1 : DeviceState) (raw : Str)
    (hopen : st.currentDevice.Name ≠ [])
    (hne : TrimSpace raw ≠ [])
    (h : openEulerStep st raw = .ok st1) :
    st1.result = st.result ∧ st1.currentDevice.Name = st.currentDevice.Name ∧
      (HasPrefix (TrimSpace raw) "Adapter:".toList = false →
        st1.currentDevice.Adapter = st.currentDevice.Adapter) := by
  cases ha : HasPrefix (TrimSpace raw) "Adapter:".toList with
  | true =>
    rw [openEulerStep_adapter st raw hopen ha] at h
    cases h
    exact ⟨rfl, rfl, fun hf => by cases hf⟩
  | false =>
    obtain ⟨h1, h2, h3⟩ := openEulerStep_block_line st st1 raw hopen hne ha h
    exact ⟨h1, h2, fun _ => h3⟩

theorem scanLoop_named_block {σ : Type} (step : σ → Str → Except Panic σ)
    (result : σ → List Device) (cur : σ → Device) (init : σ) (nc : Str → Prop)
    (hnamestep : ∀ st raw, (cur st).Name = [] → TrimSpace raw ≠ [] → nc raw →
      ∃ st1, step st raw = .ok st1 ∧ result st1 = result st ∧
        (cur st1).Name = TrimSpace raw ∧ (cur st1).Adapter = [])
    (pre block : List Str) (name : Str) (sP s : σ)
    (hpre : scanLoop step init pre = .ok sP)
    (hclosed : (cur sP).Name = [])
    (hname : TrimSpace name ≠ []) (hnc : nc name)
    (hscan : scanLoop step init (pre ++ name :: block) = .ok s) :
    ∃ sN, step sP name = .ok sN ∧ scanLoop step sN block = .ok s ∧
      result sN = result sP ∧ (cur sN).Name = TrimSpace name ∧ (cur sN).Adapter = [] := by
  rw [scanLoop_append, hpre] at hscan
  obtain ⟨sN, h1, h2, h3, h4⟩ := hnamestep sP name hclosed hname hnc
  obtain ⟨sN2, k1, k2⟩ := scanLoop_cons_ok _ _ _ _ _ hscan
  rw [h1] at k1
  cases k1
  exact ⟨sN, h1, k2, h2, h3, h4⟩

theorem genericStep_adapter_obs (st st1 : GenericState) (raw : Str)
    (hopen : (flushSensor st.currentDevice st.currentSensor).Name ≠ [])
    (hadapter : HasPrefix (TrimSpace raw) "Adapter:".toList = true)
    (h : genericStep st raw = .ok st1) :
    st1.result = st.result ∧
      flushSensor st1.currentDevice st1.currentSensor =
        { flushSensor st.currentDevice st.currentSensor with
          Adapter := TrimSpace ((TrimSpace raw).drop 8) } := by
  rw [flushSensor_name] at hopen
  rw [genericStep_adapter st raw hopen hadapter] at h
  cases h
  refine ⟨rfl, ?_⟩
  cases st.currentSensor <;> rfl

theorem genericStep_name_obs (st : GenericState) (raw : Str)
    (hclosed : (flushSensor st.currentDevice st.currentSensor).Name = [])
    (hname : TrimSpace raw ≠ [])
    (hcolon : Contains (TrimSpace raw) ':' = false) :
    ∃ st1, genericStep st raw = .ok st1 ∧ st1.result = st.result ∧
      (flushSensor st1.currentDevice st1.currentSensor).Name = TrimSpace raw ∧
      (flushSensor st1.currentDevice st1.currentSensor).Adapter = [] := by
  rw [flushSensor_name] at hclosed
  exact ⟨_, genericStep_name_line st raw hclosed hname hcolon, rfl,
    by rw [flushSensor_name], by rw [flushSensor_adapter]⟩

theorem generic_close (lines : List Str) (blank : Str) (st : GenericState)
    (hblank : TrimSpace blank = [])
    (h : scanLoop genericStep ⟨[], Device.zero, none⟩ lines = .ok st)
    (hopen : (flushSensor st.currentDevice st.currentSensor).Name ≠ []) :
    GenericParser.Parse ⟨lines ++ [blank], none⟩ =
        .ok (.ok ⟨st.result ++ [flushSensor st.currentDevice st.currentSensor]⟩) ∧
      GenericParser.Parse ⟨lines, none⟩ =
        .ok (.ok ⟨st.result ++ [flushSensor st.currentDevice st.currentSensor]⟩) := by
  rw [flushSensor_name] at hopen
  constructor
  · have hs : scanLoop genericStep ⟨[], Device.zero, none⟩ (lines ++ [blank]) =
        .ok ⟨st.result ++ [flushSensor st.currentDevice st.currentSensor], Device.zero,
          none⟩ := by
      rw [scanLoop_append, h]
      simp only [scanLoop]
      rw [genericStep_blank st blank hblank]
      simp only [ne_eq, hopen, not_false_eq_true, if_true]
    rw [generic_parse_of_scan _ _ hs]
    simp [genericFinal, Device.zero]
  · rw [generic_parse_of_scan _ _ h]
    simp [genericFinal, hopen]

theorem ubuntu_close (lines : List Str) (blank : Str) (st : DeviceState)
    (hblank : TrimSpace blank = [])
    (h : scanLoop ubuntuStep ⟨[], Device.zero⟩ lines = .ok st)
    (hopen : st.currentDevice.Name ≠ []) :
    UbuntuParser.Parse ⟨lines ++ [blank], none⟩ =
        .ok (.ok ⟨st.result ++ [st.currentDevice]⟩) ∧
      UbuntuParser.Parse ⟨lines, none⟩ = .ok (.ok ⟨st.result ++ [st.currentDevice]⟩) := by
  constructor
  · have hs : scanLoop ubuntuStep ⟨[], Device.zero⟩ (lines ++ [blank]) =
        .ok ⟨st.result ++ [st.currentDevice], Device.zero⟩ := by
      rw [scanLoop_append, h]
      simp only [scanLoop]
      rw [ubuntuStep_blank st blank hblank]
      simp only [ne_eq, hopen, not_false_eq_true, if_true]
    rw [ubuntu_parse_of_scan _ _ hs]
    simp [ubuntuFinal, Device.zero]
  · rw [ubuntu_parse_of_scan _ _ h]
    simp [ubuntuFinal, hopen]

theorem openEuler_close (lines : List Str) (blank : Str) (st : DeviceState)
    (hblank : TrimSpace blank = [])
    (h : scanLoop openEulerStep ⟨[], Device.zero⟩ lines = .ok st)
    (hopen : st.currentDevice.Name ≠ []) :
    OpenEulerParser.Parse ⟨lines ++ [blank], none⟩ =
        .ok (.ok ⟨st.result ++ [st.currentDevice]⟩) ∧
      (st.currentDevice.Sensors ≠ [] →
        OpenEulerParser.Parse ⟨lines, none⟩ =
          .ok (.ok ⟨st.result ++ [st.currentDevice]⟩)) := by
  constructor
  · have hs : scanLoop openEulerStep ⟨[], Device.zero⟩ (lines ++ [blank]) =
        .ok ⟨st.result ++ [st.currentDevice], Device.zero⟩ := by
      rw [scanLoop_append, h]
      simp only [scanLoop]
      rw [openEulerStep_blank st blank hblank]
      simp only [ne_eq, hopen, not_false_eq_true, if_true]
    rw [openEuler_parse_of_scan _ _ hs]
    simp [openEulerFinal, Device.zero]
  · intro hsens
    rw [openEuler_parse_of_scan _ _ h]
    have hl : 0 < st.currentDevice.Sensors.length := List.length_pos.mpr hsens
    simp [openEulerFinal, hopen, hl]

theorem adapter_block_facts {σ : Type} (step : σ → Str → Except Panic σ)
    (result : σ → List Device) (cur : σ → Device) (init : σ) (nc : Str → Prop)
    (hstep : ∀ st st1 raw, (cur st).Name ≠ [] → TrimSpace raw ≠ [] → step st raw = .ok st1 →
      result st1 = result st ∧ (cur st1).Name = (cur st).Name ∧
        (HasPrefix (TrimSpace raw) "Adapter:".toList = false →
          (cur st1).Adapter = (cur st).Adapter))
    (hadapterstep : ∀ st st1 raw, (cur st).Name ≠ [] →
      HasPrefix (TrimSpace raw) "Adapter:".toList = true → step st raw = .ok st1 →
      (cur st1).Adapter = TrimSpace ((TrimSpace raw).drop 8))
    (hnamestep : ∀ st raw, (cur st).Name = [] → TrimSpace raw ≠ [] → nc raw →
      ∃ st1, step st raw = .ok st1 ∧ result st1 = result st ∧
        (cur st1).Name = TrimSpace raw ∧ (cur st1).Adapter = [])
    (pre block1 block2 : List Str) (name raw : Str) (sP : σ)
    (hpre : scanLoop step init pre = .ok sP)
    (hclosed : (cur sP).Name = [])
    (hname : TrimSpace name ≠ []) (hnc : nc name)
    (hb1 : ∀ l ∈ block1, TrimSpace l ≠ [])
    (hadapter : HasPrefix (TrimSpace raw) "Adapter:".toList = true)
    (hb2 : ∀ l ∈ block2,
      TrimSpace l ≠ [] ∧ HasPrefix (TrimSpace l) "Adapter:".toList = false) :
    (∀ s2, scanLoop step init (pre ++ name :: block1 ++ raw :: block2) = .ok s2 →
      result s2 = result sP ∧ (cur s2).Name = TrimSpace name ∧
        (cur s2).Adapter = TrimSpace ((TrimSpace raw).drop 8)) ∧
    (∀ s1, scanLoop step init (pre ++ name :: block1) = .ok s1 →
      result s1 = result sP ∧ (cur s1).Name = TrimSpace name ∧
        scanLoop step init (pre ++ name :: block1 ++ [raw]) = step s1 raw) ∧
    (∀ (block : List Str) (s3 : σ),
      (∀ l ∈ block,
        TrimSpace l ≠ [] ∧ HasPrefix (TrimSpace l) "Adapter:".toList = false) →
      scanLoop step init (pre ++ name :: block) = .ok s3 →
      result s3 = result sP ∧ (cur s3).Name = TrimSpace name ∧ (cur s3).Adapter = []) := by
  refine ⟨?_, ?_, ?_⟩
  · intro s2 h
    have h' : scanLoop step init (pre ++ name :: (block1 ++ raw :: block2)) = .ok s2 := by
      simpa using h
    obtain ⟨sN, _, k2, k3, k4, _⟩ := scanLoop_named_block step result cur init nc
      hnamestep pre _ name sP s2 hpre hclosed hname hnc h'
    obtain ⟨a1, a2, a3⟩ := scanLoop_adapter_block step result cur hstep hadapterstep
      block1 block2 raw sN s2 (by rw [k4]; exact hname) hb1 hadapter hb2 k2
    exact ⟨a1.trans k3, a2.trans k4, a3⟩
  · intro s1 h
    obtain ⟨sN, _, k2, k3, k4, _⟩ := scanLoop_named_block step result cur init nc
      hnamestep pre _ name sP s1 hpre hclosed hname hnc h
    obtain ⟨a1, a2, _⟩ := scanLoop_open_block step result cur hstep block1 sN s1
      (by rw [k4]; exact hname) hb1 k2
    refine ⟨a1.trans k3, a2.trans k4, ?_⟩
    rw [scanLoop_append, h]
    simp only [scanLoop]
    cases step s1 raw <;> rfl
  · intro block s3 hblock h
    obtain ⟨sN, _, k2, k3, k4, k5⟩ := scanLoop_named_block step result cur init nc
      hnamestep pre _ name sP s3 hpre hclosed hname hnc h
    obtain ⟨a1, a2, a3⟩ := scanLoop_open_block step result cur hstep block sN s3
      (by rw [k4]; exact hname) (fun l hl => (hblock l hl).1) k2
    exact ⟨a1.trans k3, a2.trans k4, (a3 (fun l hl => (hblock l hl).2)).trans k5⟩

theorem ubuntuStep_name_obs (st : DeviceState) (raw : Str)
    (hclosed : st.currentDevice.Name = [])
    (hname : TrimSpace raw ≠ []) (_hnc : True) :
    ∃ st1, ubuntuStep st raw = .ok st1 ∧ st1.result = st.result ∧
      st1.currentDevice.Name = TrimSpace raw ∧ st1.currentDevice.Adapter = [] :=
  ⟨_, ubuntuStep_name_line st raw hclosed hname, rfl, rfl, rfl⟩

theorem openEulerStep_name_obs (st : DeviceState) (raw : Str)
    (hclosed : st.currentDevice.Name = [])
    (hname : TrimSpace raw ≠ []) (_hnc : True) :
    ∃ st1, openEulerStep st raw = .ok st1 ∧ st1.result = st.result ∧
      st1.currentDevice.Name = TrimSpace raw ∧ st1.currentDevice.Adapter = [] :=
  ⟨_, openEulerStep_name_line st raw hclosed hname, rfl, rfl, rfl⟩

theorem adapter_block_core {σ : Type} (step : σ → Str → Except Panic σ)
    (result : σ → List Device) (cur : σ → Device) (init : σ) (nc : Str → Prop)
    (scan : List Str → Except Panic (List Device × Device))
    (parse : Reader → Except Panic (Except GoError Result)) (eofOK : Device → Prop)
    (hscan_def : ∀ lines, scan lines =
      match scanLoop step init lines with
      | .error e => .error e
      | .ok st => .ok (result st, cur st))
    (hstep : ∀ st st1 raw, (cur st).Name ≠ [] → TrimSpace raw ≠ [] → step st raw = .ok st1 →
      result st1 = result st ∧ (cur st1).Name = (cur st).Name ∧
        (HasPrefix (TrimSpace raw) "Adapter:".toList = false →
          (cur st1).Adapter = (cur st).Adapter))
    (hadapterobs : ∀ st raw, (cur st).Name ≠ [] →
      HasPrefix (TrimSpace raw) "Adapter:".toList = true →
      ∃ st1, step st raw = .ok st1 ∧ result st1 = result st ∧
        cur st1 = { cur st with Adapter := TrimSpace ((TrimSpace raw).drop 8) })
    (hnamestep : ∀ st raw, (cur st).Name = [] → TrimSpace raw ≠ [] → nc raw →
      ∃ st1, step st raw = .ok st1 ∧ result st1 = result st ∧
        (cur st1).Name = TrimSpace raw ∧ (cur st1).Adapter = [])
    (hclose : ∀ lines blank st, TrimSpace blank = [] → scanLoop step init lines = .ok st →
      (cur st).Name ≠ [] →
      parse ⟨lines ++ [blank], none⟩ = .ok (.ok ⟨result st ++ [cur st]⟩) ∧
        (eofOK (cur st) → parse ⟨lines, none⟩ = .ok (.ok ⟨result st ++ [cur st]⟩)))
    (pre block1 block2 : List Str) (name raw blank : Str)
    (before ds : List Device) (c d : Device)
    (hpre : scan pre = .ok (before, c))
    (hclosed : c.Name = [])
    (hname : TrimSpace name ≠ []) (hnc : nc name)
    (hb1 : ∀ l ∈ block1, TrimSpace l ≠ [])
    (hadapter : HasPrefix (TrimSpace raw) "Adapter:".toList = true)
    (hb2 : ∀ l ∈ block2,
      TrimSpace l ≠ [] ∧ HasPrefix (TrimSpace l) "Adapter:".toList = false)
    (hblank : TrimSpace blank = [])
    (hscan : scan (pre ++ name :: block1 ++ raw :: block2) = .ok (ds, d)) :
    ds = before ∧ d.Name = TrimSpace name ∧
      d.Adapter = TrimSpace ((TrimSpace raw).drop 8) ∧
      parse ⟨pre ++ name :: block1 ++ raw :: block2 ++ [blank], none⟩ =
        .ok (.ok ⟨before ++ [d]⟩) ∧
      (eofOK d →
        parse ⟨pre ++ name :: block1 ++ raw :: block2, none⟩ = .ok (.ok ⟨before ++ [d]⟩)) ∧
      (∀ ds1 d1, scan (pre ++ name :: block1) = .ok (ds1, d1) →
        scan (pre ++ name :: block1 ++ [raw]) =
          .ok (ds1, { d1 with Adapter := TrimSpace ((TrimSpace raw).drop 8) })) ∧
      (∀ (block : List Str) (ds3 : List Device) (d3 : Device),
        (∀ l ∈ block,
          TrimSpace l ≠ [] ∧ HasPrefix (TrimSpace l) "Adapter:".toList = false) →
        scan (pre ++ name :: block) = .ok (ds3, d3) →
        ds3 = before ∧ d3.Name = TrimSpace name ∧ d3.Adapter = [] ∧
          parse ⟨pre ++ name :: block ++ [blank], none⟩ = .ok (.ok ⟨before ++ [d3]⟩) ∧
          (eofOK d3 →
            parse ⟨pre ++ name :: block, none⟩ = .ok (.ok ⟨before ++ [d3]⟩))) := by
  have hinv : ∀ lines ds0 d0, scan lines = .ok (ds0, d0) →
      ∃ st, scanLoop step init lines = .ok st ∧ result st = ds0 ∧ cur st = d0 := by
    intro lines ds0 d0 h
    rw [hscan_def] at h
    cases hs : scanLoop step init lines with
    | error e => rw [hs] at h; cases h
    | ok st => rw [hs] at h; cases h; exact ⟨st, rfl, rfl, rfl⟩
  have hadapterstep : ∀ st st1 raw, (cur st).Name ≠ [] →
      HasPrefix (TrimSpace raw) "Adapter:".toList = true → step st raw = .ok st1 →
      (cur st1).Adapter = TrimSpace ((TrimSpace raw).drop 8) := by
    intro st st1 raw0 ho ha h
    obtain ⟨st2, k1, _, k3⟩ := hadapterobs st raw0 ho ha
    rw [k1] at h
    cases h
    rw [k3]
  obtain ⟨sP, p1, p2, p3⟩ := hinv _ _ _ hpre
  obtain ⟨f1, f2, f3⟩ := adapter_block_facts step result cur init nc hstep hadapterstep
    hnamestep pre block1 block2 name raw sP p1 (by rw [p3]; exact hclosed) hname hnc hb1
    hadapter hb2
  obtain ⟨s2, q1, q2, q3⟩ := hinv _ _ _ hscan
  obtain ⟨g1, g2, g3⟩ := f1 s2 q1
  subst q2 q3 p2 p3
  have hopen2 : (cur s2).Name ≠ [] := by rw [g2]; exact hname
  obtain ⟨c1, c2⟩ := hclose _ blank s2 hblank q1 hopen2
  rw [g1] at c1 c2
  refine ⟨g1, g2, g3, c1, c2, ?_, ?_⟩
  · intro ds1 d1 h1
    obtain ⟨s1, r1, r2, r3⟩ := hinv _ _ _ h1
    obtain ⟨_, m2, m3⟩ := f2 s1 r1
    obtain ⟨s1a, n1, n2, n3⟩ := hadapterobs s1 raw (by rw [m2]; exact hname) hadapter
    rw [hscan_def, m3, n1]
    simp only [n2, n3, r2, r3]
  · intro block ds3 d3 hblock h3
    obtain ⟨s3, r1, r2, r3⟩ := hinv _ _ _ h3
    obtain ⟨m1, m2, m3⟩ := f3 block s3 hblock r1
    subst r2 r3
    obtain ⟨e1, e2⟩ := hclose _ blank s3 hblank r1 (by rw [m2]; exact hname)
    rw [m1] at e1 e2
    exact ⟨m1, m2, m3, e1, e2⟩

theorem genericStep_adapter_total (st : GenericState) (raw : Str)
    (hopen : (flushSensor st.currentDevice st.currentSensor).Name ≠ [])
    (hadapter : HasPrefix (TrimSpace raw) "Adapter:".toList = true) :
    ∃ st1, genericStep st raw = .ok st1 ∧ st1.result = st.result ∧
      flushSensor st1.currentDevice st1.currentSensor =
        { flushSensor st.currentDevice st.currentSensor with
          Adapter := TrimSpace ((TrimSpace raw).drop 8) } := by
  have h := genericStep_adapter st raw (by rw [flushSensor_name] at hopen; exact hopen)
    hadapter
  exact ⟨_, h, genericStep_adapter_obs st _ raw hopen hadapter h⟩

theorem ubuntuStep_adapter_total (st : DeviceState) (raw : Str)
    (hopen : st.currentDevice.Name ≠ [])
    (hadapter : HasPrefix (TrimSpace raw) "Adapter:".toList = true) :
    ∃ st1, ubuntuStep st raw = .ok st1 ∧ st1.result = st.result ∧
      st1.currentDevice =
        { st.currentDevice with Adapter := TrimSpace ((TrimSpace raw).drop 8) } :=
  ⟨_, ubuntuStep_adapter st raw hopen hadapter, rfl, rfl⟩

theorem openEulerStep_adapter_total (st : DeviceState) (raw : Str)
    (hopen : st.currentDevice.Name ≠ [])
    (hadapter : HasPrefix (TrimSpace raw) "Adapter:".toList = true) :
    ∃ st1, openEulerStep st raw = .ok st1 ∧ st1.result = st.result ∧
      st1.currentDevice =
        { st.currentDevice with Adapter := TrimSpace ((TrimSpace raw).drop 8) } :=
  ⟨_, openEulerStep_adapter st raw hopen hadapter, rfl, rfl⟩

/-! ## The claims -/

/-- C1 (the code at the input of the claim): on the four lines `coretemp-isa-0000` /
`Adapter: ISA adapter` / `Package id 0:  +45.0°C  (high = +80.0°C, crit = +90.0°C)` /
blank, `GenericParser.Parse` returns the one Device with the one Sensor `Package id 0`,
Value 45.0, Unit `°C`, but with High and Critical unset: `extractValue` hands `80.0°C`
and `90.0°C` to `ParseFloat`, which rejects them. -/
theorem C1_generic_inline_limits_with_unit_lost :
    GenericParser.Parse
        ⟨["coretemp-isa-0000".toList, "Adapter: ISA adapter".toList,
          "Package id 0:  +45.0°C  (high = +80.0°C, crit = +90.0°C)".toList, "".toList], none⟩ =
      .ok (.ok ⟨[⟨"coretemp-isa-0000".toList, "ISA adapter".toList,
        [⟨"Package id 0".toList, .finite false 45 0, "°C".toList, none, none, none⟩]⟩]⟩) ∧
    extractValue "high = +80.0°C".toList = .ok "80.0°C".toList ∧
    ParseFloat "80.0°C".toList = .error .ErrSyntax ∧
    ParseFloat "90.0°C".toList = .error .ErrSyntax := by
  decide

/-- C2 (the code at a failing input): on `cpu` / `temp1: +45.0 C` / `   crit = +90.0 C` /
blank, `GenericParser.Parse` returns the device `cpu` with the sensor `temp1` whose
Critical is unset: the line is trimmed before the test for a leading space, so the
continuation branch is never taken and the line is parsed as a sensor line of its own,
which has no colon and is dropped. -/
theorem C2_generic_continuation_line_dropped :
    GenericParser.Parse
        ⟨["cpu".toList, "temp1: +45.0 C".toList, "   crit = +90.0 C".toList, "".toList], none⟩ =
      .ok (.ok ⟨[⟨"cpu".toList, [],
        [⟨"temp1".toList, .finite false 45 0, "C".toList, none, none, none⟩]⟩]⟩) ∧
    (∀ raw : Str, HasPrefix (TrimSpace raw) " ".toList = false) :=
  ⟨by decide, hasPrefix_space_trimSpace⟩

/-- C3 (as amended): a sensor line whose value portion has no `(` and starts with a
non-empty run of digits, `+`, `-`, `.` that `ParseFloat` rejects is skipped by the loop of
`GenericParser.Parse`: the step succeeds, it only flushes the pending sensor and leaves no
new pending sensor; and `GenericParser.Parse` returns an error only when the scanner
reports one, so on a stream read without error it never returns an error. -/
theorem C3_generic_skips_malformed_number (st : GenericState) (raw p0 p1 : Str) (e : GoError)
    (hsplit : SplitN2 (TrimSpace raw) ':' = [p0, p1])
    (hadapter : HasPrefix (TrimSpace raw) "Adapter:".toList = false)
    (hparen : Contains (TrimSpace p1) '(' = false)
    (hrun : 0 < numRunLen (TrimSpace p1))
    (hbad : ParseFloat
      (TrimPrefix ((TrimSpace p1).take (numRunLen (TrimSpace p1))) "+".toList) = .error e) :
    genericStep st raw =
        .ok { st with currentDevice := flushSensor st.currentDevice st.currentSensor,
                      currentSensor := none } ∧
      (∀ (r : Reader) (e1 : GoError), GenericParser.Parse r = .ok (.error e1) → r.err = some e1) ∧
      (∀ (lines : List Str) (e1 : GoError), GenericParser.Parse ⟨lines, none⟩ ≠ .ok (.error e1)) := by
  refine ⟨?_, ?_, ?_⟩
  · rw [genericStep_sensor_branch st raw (splitN2_two_ne_nil _ p0 p1 ':' hsplit)
      (splitN2_two_contains _ p0 p1 ':' hsplit) hadapter]
    rcases parseSensorLine_malformed (TrimSpace raw) p0 p1 e hsplit hparen hrun hbad with h | h
    · rw [h]
    · rw [h]
  · intro r e1 h
    exact ((generic_parse_error_iff r e1).mp h).1
  · intro lines e1 h
    have := ((generic_parse_error_iff ⟨lines, none⟩ e1).mp h).1
    simp at this

/-- C3 (witness): the step on the line `temp1: 12..3 C` in the open block `cpu`. -/
theorem C3_generic_skips_malformed_number_witness :
    genericStep ⟨[], ⟨"cpu".toList, [], []⟩, none⟩ "temp1: 12..3 C".toList =
        .ok ⟨[], ⟨"cpu".toList, [], []⟩, none⟩ ∧
      (∀ (r : Reader) (e1 : GoError), GenericParser.Parse r = .ok (.error e1) → r.err = some e1) ∧
      (∀ (lines : List Str) (e1 : GoError), GenericParser.Parse ⟨lines, none⟩ ≠ .ok (.error e1)) :=
  C3_generic_skips_malformed_number ⟨[], ⟨"cpu".toList, [], []⟩, none⟩ "temp1: 12..3 C".toList
    "temp1".toList " 12..3 C".toList .ErrSyntax (by decide) (by decide) (by decide) (by decide)
    (by decide)

/-- C3 (counterexample): on the block `cpu` / `temp1: 12..3 C`, whose value portion
starts with the run `12..3` that `ParseFloat` rejects, `GenericParser.Parse` returns a
Result (the device `cpu` without sensors) and no error. -/
theorem C3_counterexample :
    parseSensorSimple "temp1".toList "12..3 C".toList = .error .ErrSyntax ∧
    GenericParser.Parse ⟨["cpu".toList, "temp1: 12..3 C".toList], none⟩ =
      .ok (.ok ⟨[⟨"cpu".toList, [], []⟩]⟩) := by
  decide

/-- C4 (the code at failing inputs): for every sensor, `processLimits` panics with an
index out of range on the limits `low =`, on `crit = +`, and on `high = 80.0, low =`
(where the sibling clause `high = 80.0` comes first): `extractValue` indexes the empty
result of `strings.Fields`.  The panic is reached from `GenericParser.Parse` and from
`UbuntuParser.Parse` by the sensor line `temp1: 45 (low =)`. -/
theorem C4_processLimits_panics_on_empty_value (s : Sensor) :
    extractValue "low =".toList = .error .indexOutOfRange ∧
    processLimits (some s) "low =".toList = .error .indexOutOfRange ∧
    processLimits (some s) "crit = +".toList = .error .indexOutOfRange ∧
    processLimits (some s) "high = 80.0, low =".toList = .error .indexOutOfRange ∧
    GenericParser.Parse ⟨["cpu".toList, "temp1: 45 (low =)".toList], none⟩ =
      .error .indexOutOfRange ∧
    UbuntuParser.Parse ⟨["cpu".toList, "temp1: 45 (low =)".toList], none⟩ =
      .error .indexOutOfRange :=
  ⟨rfl, rfl, rfl, rfl, by decide, by decide⟩

/-- C5 (as amended): every Device in a Result of `GenericParser.Parse` has a non-empty
Name, and a Device need not have a Sensor: a block that is only a name line (no colon in
it), met while no device is open and no sensor is pending, is kept as a Device without
sensors, both when end of input closes it and when a blank line closes it (then it stays
in the Result whatever follows, the rest of the input being scanned without a panic). -/
theorem C5_generic_keeps_empty_devices (pre : List Str) (name blank : Str)
    (st : GenericState)
    (hpre : scanLoop genericStep ⟨[], Device.zero, none⟩ pre = .ok st)
    (hclosed : st.currentDevice.Name = [])
    (hpending : st.currentSensor = none)
    (hname : TrimSpace name ≠ [])
    (hcolon : Contains (TrimSpace name) ':' = false)
    (hblank : TrimSpace blank = []) :
    GenericParser.Parse ⟨pre ++ [name], none⟩ =
        .ok (.ok ⟨st.result ++ [⟨TrimSpace name, [], []⟩]⟩) ∧
      GenericParser.Parse ⟨pre ++ [name, blank], none⟩ =
        .ok (.ok ⟨st.result ++ [⟨TrimSpace name, [], []⟩]⟩) ∧
      (∀ (post : List Str) (st1 : GenericState),
        scanLoop genericStep
            ⟨st.result ++ [⟨TrimSpace name, [], []⟩], Device.zero, none⟩ post = .ok st1 →
          GenericParser.Parse ⟨pre ++ name :: blank :: post, none⟩ =
              .ok (.ok ⟨genericFinal st1⟩) ∧
            (st.result ++ [⟨TrimSpace name, [], []⟩]) <+: genericFinal st1) ∧
      (∀ (r : Reader) (res : Result), GenericParser.Parse r = .ok (.ok res) →
        ∀ d ∈ res.Devices, d.Name ≠ []) := by
  have hstep := genericStep_name_line st name hclosed hname hcolon
  have hclose : ∀ post : List Str,
      scanLoop genericStep ⟨[], Device.zero, none⟩ (pre ++ name :: blank :: post) =
        scanLoop genericStep
          ⟨st.result ++ [⟨TrimSpace name, [], []⟩], Device.zero, none⟩ post := by
    intro post
    rw [scanLoop_append, hpre]
    simp only [scanLoop, hstep]
    rw [genericStep_blank _ blank hblank]
    simp only [ne_eq, hname, not_false_eq_true, if_true, flushSensor, hpending]
  refine ⟨?_, ?_, ?_, generic_parse_named⟩
  · have hscan : scanLoop genericStep ⟨[], Device.zero, none⟩ (pre ++ [name]) =
        .ok { st with currentDevice := ⟨TrimSpace name, [], []⟩ } := by
      rw [scanLoop_append, hpre]
      simp only [scanLoop, hstep]
    rw [generic_parse_of_scan _ _ hscan]
    simp [genericFinal, hname, flushSensor, hpending]
  · rw [generic_parse_of_scan _ _ ((hclose []).trans rfl)]
    simp [genericFinal, Device.zero]
  · intro post st1 hpost
    exact ⟨generic_parse_of_scan _ _ ((hclose post).trans hpost),
      List.IsPrefix.trans (scanLoop_generic_extends post _ st1 hpost) (genericFinal_extends st1)⟩

/-- C5 (witness): the block `cpu` after a first device `a`, closed by end of input, by a
blank line, and by a blank line with more input after it. -/
theorem C5_generic_keeps_empty_devices_witness :
    GenericParser.Parse ⟨["a".toList, "".toList] ++ ["cpu".toList], none⟩ =
        .ok (.ok ⟨[⟨"a".toList, [], []⟩] ++ [⟨TrimSpace "cpu".toList, [], []⟩]⟩) ∧
      GenericParser.Parse ⟨["a".toList, "".toList] ++ ["cpu".toList, " ".toList], none⟩ =
        .ok (.ok ⟨[⟨"a".toList, [], []⟩] ++ [⟨TrimSpace "cpu".toList, [], []⟩]⟩) ∧
      (∀ (post : List Str) (st1 : GenericState),
        scanLoop genericStep
            ⟨[⟨"a".toList, [], []⟩] ++ [⟨TrimSpace "cpu".toList, [], []⟩], Device.zero, none⟩
            post = .ok st1 →
          GenericParser.Parse
              ⟨["a".toList, "".toList] ++ "cpu".toList :: " ".toList :: post, none⟩ =
              .ok (.ok ⟨genericFinal st1⟩) ∧
            ([⟨"a".toList, [], []⟩] ++ [⟨TrimSpace "cpu".toList, [], []⟩]) <+:
              genericFinal st1) ∧
      (∀ (r : Reader) (res : Result), GenericParser.Parse r = .ok (.ok res) →
        ∀ d ∈ res.Devices, d.Name ≠ []) :=
  C5_generic_keeps_empty_devices ["a".toList, "".toList] "cpu".toList " ".toList
    ⟨[⟨"a".toList, [], []⟩], Device.zero, none⟩ (by decide) rfl rfl (by decide) (by decide)
    (by decide)

/-- C5 (counterexample): the Result of `GenericParser.Parse` holds a Device without any
Sensor, for the block `cpu` closed by a blank line and for the trailing block `cpu`. -/
theorem C5_counterexample :
    GenericParser.Parse ⟨["cpu".toList, "".toList], none⟩ =
        .ok (.ok ⟨[⟨"cpu".toList, [], []⟩]⟩) ∧
      GenericParser.Parse ⟨["cpu".toList], none⟩ = .ok (.ok ⟨[⟨"cpu".toList, [], []⟩]⟩) := by
  decide

/-- C6 (the code at a failing input): on the name line `k10temp-pci-00c3` followed
immediately by a blank line, `OpenEulerParser.Parse` returns a Result with that Device
and no Sensor. -/
theorem C6_openEuler_blank_line_keeps_empty_device :
    OpenEulerParser.Parse ⟨["k10temp-pci-00c3".toList, "".toList], none⟩ =
      .ok (.ok ⟨[⟨"k10temp-pci-00c3".toList, [], []⟩]⟩) := by
  decide

/-- C7: `UbuntuParser.Parse` keeps devices without sensors.  A block that is only a
non-blank name line, met while no device is open, yields the Device with the trimmed
name, empty Adapter and no Sensor: the Result is the devices before it followed by that
Device when end of input closes the block or when a blank line closes it, and after the
blank line the Device stays in the Result whatever follows (the rest of the input being
scanned without a panic). -/
theorem C7_ubuntu_keeps_empty_devices (pre : List Str) (name blank : Str)
    (st : DeviceState)
    (hpre : scanLoop ubuntuStep ⟨[], Device.zero⟩ pre = .ok st)
    (hclosed : st.currentDevice.Name = [])
    (hname : TrimSpace name ≠ [])
    (hblank : TrimSpace blank = []) :
    UbuntuParser.Parse ⟨pre ++ [name], none⟩ =
        .ok (.ok ⟨st.result ++ [⟨TrimSpace name, [], []⟩]⟩) ∧
      UbuntuParser.Parse ⟨pre ++ [name, blank], none⟩ =
        .ok (.ok ⟨st.result ++ [⟨TrimSpace name, [], []⟩]⟩) ∧
      (∀ (post : List Str) (st1 : DeviceState),
        scanLoop ubuntuStep ⟨st.result ++ [⟨TrimSpace name, [], []⟩], Device.zero⟩ post =
            .ok st1 →
          UbuntuParser.Parse ⟨pre ++ name :: blank :: post, none⟩ =
              .ok (.ok ⟨ubuntuFinal st1⟩) ∧
            (st.result ++ [⟨TrimSpace name, [], []⟩]) <+: ubuntuFinal st1) := by
  have hstep := ubuntuStep_name_line st name hclosed hname
  have hclose : ∀ post : List Str,
      scanLoop ubuntuStep ⟨[], Device.zero⟩ (pre ++ name :: blank :: post) =
        scanLoop ubuntuStep ⟨st.result ++ [⟨TrimSpace name, [], []⟩], Device.zero⟩ post := by
    intro post
    rw [scanLoop_append, hpre]
    simp only [scanLoop, hstep]
    rw [ubuntuStep_blank _ blank hblank]
    simp only [ne_eq, hname, not_false_eq_true, if_true]
  refine ⟨?_, ?_, ?_⟩
  · have hscan : scanLoop ubuntuStep ⟨[], Device.zero⟩ (pre ++ [name]) =
        .ok { st with currentDevice := ⟨TrimSpace name, [], []⟩ } := by
      rw [scanLoop_append, hpre]
      simp only [scanLoop, hstep]
    rw [ubuntu_parse_of_scan _ _ hscan]
    simp [ubuntuFinal, hname]
  · rw [ubuntu_parse_of_scan _ _ ((hclose []).trans rfl)]
    simp [ubuntuFinal, Device.zero]
  · intro post st1 hpost
    exact ⟨ubuntu_parse_of_scan _ _ ((hclose post).trans hpost),
      List.IsPrefix.trans (scanLoop_ubuntu_extends post _ st1 hpost) (ubuntuFinal_extends st1)⟩

/-- C7 (witness): the block `  cpu ` after a first device `a`, closed by end of input, by
a blank line, and by a blank line with more input after it. -/
theorem C7_ubuntu_keeps_empty_devices_witness :
    UbuntuParser.Parse ⟨["a".toList, "".toList] ++ ["  cpu ".toList], none⟩ =
        .ok (.ok ⟨[⟨"a".toList, [], []⟩] ++ [⟨TrimSpace "  cpu ".toList, [], []⟩]⟩) ∧
      UbuntuParser.Parse ⟨["a".toList, "".toList] ++ ["  cpu ".toList, " ".toList], none⟩ =
        .ok (.ok ⟨[⟨"a".toList, [], []⟩] ++ [⟨TrimSpace "  cpu ".toList, [], []⟩]⟩) ∧
      (∀ (post : List Str) (st1 : DeviceState),
        scanLoop ubuntuStep
            ⟨[⟨"a".toList, [], []⟩] ++ [⟨TrimSpace "  cpu ".toList, [], []⟩], Device.zero⟩
            post = .ok st1 →
          UbuntuParser.Parse
              ⟨["a".toList, "".toList] ++ "  cpu ".toList :: " ".toList :: post, none⟩ =
              .ok (.ok ⟨ubuntuFinal st1⟩) ∧
            ([⟨"a".toList, [], []⟩] ++ [⟨TrimSpace "  cpu ".toList, [], []⟩]) <+:
              ubuntuFinal st1) :=
  C7_ubuntu_keeps_empty_devices ["a".toList, "".toList] "  cpu ".toList " ".toList
    ⟨[⟨"a".toList, [], []⟩], Device.zero⟩ (by decide) rfl (by decide) (by decide)

/-- C8 (the code at a failing input, and the two dialects for which the claim holds):
for `OpenEulerParser`, the input `cpu` gives no Device while `cpu` followed by a blank
line gives the Device `cpu`; for `GenericParser` and `UbuntuParser` an extra blank line
at the end never changes what `Parse` returns. -/
theorem C8_openEuler_end_of_input_is_not_a_blank_line :
    OpenEulerParser.Parse ⟨["cpu".toList], none⟩ = .ok (.ok ⟨[]⟩) ∧
    OpenEulerParser.Parse ⟨["cpu".toList] ++ [[]], none⟩ =
      .ok (.ok ⟨[⟨"cpu".toList, [], []⟩]⟩) ∧
    (∀ (lines : List Str) (err : Option GoError),
      GenericParser.Parse ⟨lines ++ [[]], err⟩ = GenericParser.Parse ⟨lines, err⟩) ∧
    (∀ (lines : List Str) (err : Option GoError),
      UbuntuParser.Parse ⟨lines ++ [[]], err⟩ = UbuntuParser.Parse ⟨lines, err⟩) :=
  ⟨by decide, by decide, generic_parse_blank_end, ubuntu_parse_blank_end⟩

/-- C9: `NewParser` selects by the lower-cased name: the OpenEuler parser exactly when
`strings.ToLower` of the name is `openeuler`, the Ubuntu parser exactly when it is
`ubuntu`, the generic parser in every other case; so `Ubuntu`, `ubuntu`, `UBUNTU` select
Ubuntu, `openEuler` selects OpenEuler, and the empty name, `fedora` and `unknown` select
the generic parser. -/
theorem C9_newParser_selects (tbl : Char → Char) (s : Str) :
    (NewParser tbl s = .OpenEulerParser ↔ ToLower tbl s = "openeuler".toList) ∧
    (NewParser tbl s = .UbuntuParser ↔ ToLower tbl s = "ubuntu".toList) ∧
    (NewParser tbl s = .GenericParser ↔
      (ToLower tbl s ≠ "openeuler".toList ∧ ToLower tbl s ≠ "ubuntu".toList)) ∧
    NewParser tbl "Ubuntu".toList = .UbuntuParser ∧
    NewParser tbl "ubuntu".toList = .UbuntuParser ∧
    NewParser tbl "UBUNTU".toList = .UbuntuParser ∧
    NewParser tbl "openEuler".toList = .OpenEulerParser ∧
    NewParser tbl "".toList = .GenericParser ∧
    NewParser tbl "fedora".toList = .GenericParser ∧
    NewParser tbl "unknown".toList = .GenericParser := by
  have hsel := select_by_name (ToLower tbl s) "openeuler".toList "ubuntu".toList (by decide)
  exact ⟨hsel.1, hsel.2.1, hsel.2.2, rfl, rfl, rfl, rfl, rfl, rfl, rfl⟩

/-- C10: `parseSensorSimple` splits the fragment at the end of its maximal leading run of
characters among `+`, `-`, `.` and the digits: when the run is not empty and, after one
leading `+` is removed, `ParseFloat` reads it as the number `v`, the result is the Sensor
with the given name, Value `v`, Unit the rest of the fragment trimmed of white space, and
no threshold. -/
theorem C10_parseSensorSimple_value_and_unit (name frag : Str) (v : Float64)
    (hrun : frag.takeWhile isNumChar ≠ [])
    (hnum : ParseFloat (TrimPrefix (frag.takeWhile isNumChar) "+".toList) = .ok v) :
    parseSensorSimple name frag =
      .ok (some ⟨name, v, TrimSpace (frag.dropWhile isNumChar), none, none, none⟩) := by
  have hlen : 0 < numRunLen frag := by
    rw [numRunLen_eq]
    exact List.length_pos.mpr hrun
  unfold parseSensorSimple
  simp only [hlen, if_true, take_numRunLen, hnum, drop_numRunLen]
  by_cases hlt : numRunLen frag < frag.length
  · simp [hlt]
  · have hd : frag.dropWhile isNumChar = [] := by
      rw [← drop_numRunLen]
      exact List.drop_eq_nil_of_le (Nat.le_of_not_lt hlt)
    simp [hlt, hd, TrimSpace, List.rdropWhile]

/-- C10 (witness): `+49.0 C` gives Value 49.0 and Unit `C`; `-5.2` gives Value -5.2 (the
float64 nearest to it, `-5854679515581645 · 2^-50`) and the empty Unit. -/
theorem C10_parseSensorSimple_value_and_unit_witness :
    parseSensorSimple "temp1".toList "+49.0 C".toList =
        .ok (some ⟨"temp1".toList, .finite false 49 0, "C".toList, none, none, none⟩) ∧
      parseSensorSimple "temp1".toList "-5.2".toList =
        .ok (some ⟨"temp1".toList, .finite true 5854679515581645 (-50), [], none, none, none⟩) :=
  ⟨C10_parseSensorSimple_value_and_unit "temp1".toList "+49.0 C".toList (.finite false 49 0)
      (by decide) (by decide),
    C10_parseSensorSimple_value_and_unit "temp1".toList "-5.2".toList
      (.finite true 5854679515581645 (-50)) (by decide) (by rfl)⟩

/-- C11: `parseSensorSimple` returns no sensor and no error exactly when the leading run
of `+`, `-`, `.` and digits of the fragment is empty, and it returns an error (hence no
sensor) exactly when the run is not empty and `ParseFloat` rejects it after one leading
`+` is removed; `12..3 C` yields the error `ErrSyntax`. -/
theorem C11_parseSensorSimple_soft_miss_and_hard_error (name frag : Str) :
    (parseSensorSimple name frag = .ok none ↔ frag.takeWhile isNumChar = []) ∧
    ((∃ e, parseSensorSimple name frag = .error e) ↔
      (frag.takeWhile isNumChar ≠ [] ∧
        ∃ e, ParseFloat (TrimPrefix (frag.takeWhile isNumChar) "+".toList) = .error e)) ∧
    parseSensorSimple name "12..3 C".toList = .error .ErrSyntax := by
  have hlen : (0 < numRunLen frag) ↔ frag.takeWhile isNumChar ≠ [] := by
    rw [numRunLen_eq]
    exact List.length_pos
  refine ⟨?_, ?_, rfl⟩
  · unfold parseSensorSimple
    by_cases h : 0 < numRunLen frag
    · have hne := hlen.mp h
      simp only [h, if_true, take_numRunLen]
      cases ParseFloat (TrimPrefix (frag.takeWhile isNumChar) "+".toList) with
      | error e => simp [hne]
      | ok v => simp [hne]
    · have he : frag.takeWhile isNumChar = [] := by
        by_contra hc
        exact h (hlen.mpr hc)
      simp [h, he]
  · unfold parseSensorSimple
    by_cases h : 0 < numRunLen frag
    · have hne := hlen.mp h
      simp only [h, if_true, take_numRunLen]
      cases ParseFloat (TrimPrefix (frag.takeWhile isNumChar) "+".toList) with
      | error e => simp [hne]
      | ok v => simp [hne]
    · have he : frag.takeWhile isNumChar = [] := by
        by_contra hc
        exact h (hlen.mpr hc)
      simp [h, he]

/-- C12: inline thresholds are parsed from a `value (limits)` fragment.
`parseSensorWithLimits` on `30.0 C (low = +10.0 C, high = +80.0 C, crit = +90.0 C)` returns
the Sensor with the given name, Value 30.0, Unit `C`, Low 10.0, High 80.0 and Critical
90.0.  In general, for a fragment `main(c1,...,cn)` whose `main` has no `(` and is read by
`parseSensorSimple` as the sensor `s0`, and whose clauses have no comma and each either
have the shape `key = [+]number[ white space unit]` with `key` beginning `low`, `high` or
`crit` (`ThresholdClause`) or begin with none of the three keywords:
`parseSensorWithLimits` returns a Sensor with the given name and the Value and Unit of
`s0`, in which each threshold is the number of the last clause for its keyword, and is
unset when no clause starts with its keyword. -/
theorem C12_inline_thresholds (name main : Str) (s0 : Sensor) (cs : List Str)
    (hmain : '(' ∉ main)
    (hvalue : parseSensorSimple name main = .ok (some s0))
    (hne : cs ≠ [])
    (hcs : ∀ c ∈ cs, ',' ∉ c ∧
      ((∃ v, ThresholdClause "low".toList c v ∨ ThresholdClause "high".toList c v ∨
          ThresholdClause "crit".toList c v) ∨
        (HasPrefix (TrimSpace c) "low".toList = false ∧
          HasPrefix (TrimSpace c) "high".toList = false ∧
          HasPrefix (TrimSpace c) "crit".toList = false))) :
    parseSensorWithLimits name
        (.string "30.0 C (low = +10.0 C, high = +80.0 C, crit = +90.0 C)".toList) [] =
      .ok (.ok (some ⟨name, .finite false 15 1, "C".toList, some (.finite false 5 1),
        some (.finite false 5 4), some (.finite false 45 1)⟩)) ∧
    ∃ r, parseSensorWithLimits name
          (.string (main ++ '(' :: List.intercalate [','] cs ++ [')'])) [] =
        .ok (.ok (some r)) ∧
      r.Name = name ∧ r.Value = s0.Value ∧ r.Unit = s0.Unit ∧
      (∀ (pre : List Str) (c : Str) (post : List Str) (v : Float64),
        cs = pre ++ c :: post → ThresholdClause "low".toList c v →
        (∀ l ∈ post, HasPrefix (TrimSpace l) "low".toList = false) → r.Low = some v) ∧
      (∀ (pre : List Str) (c : Str) (post : List Str) (v : Float64),
        cs = pre ++ c :: post → ThresholdClause "high".toList c v →
        (∀ l ∈ post, HasPrefix (TrimSpace l) "high".toList = false) → r.High = some v) ∧
      (∀ (pre : List Str) (c : Str) (post : List Str) (v : Float64),
        cs = pre ++ c :: post → ThresholdClause "crit".toList c v →
        (∀ l ∈ post, HasPrefix (TrimSpace l) "crit".toList = false) →
        r.Critical = some v) ∧
      ((∀ l ∈ cs, HasPrefix (TrimSpace l) "low".toList = false) → r.Low = none) ∧
      ((∀ l ∈ cs, HasPrefix (TrimSpace l) "high".toList = false) → r.High = none) ∧
      ((∀ l ∈ cs, HasPrefix (TrimSpace l) "crit".toList = false) → r.Critical = none) := by
  refine ⟨rfl, ?_⟩
  obtain ⟨hname, hlow, hhigh, hcrit⟩ := parseSensorSimple_fields name main s0 hvalue
  have hsplit : Split (List.intercalate [','] cs) ',' = cs :=
    split_intercalate cs ',' hne (fun c hc => (hcs c hc).1)
  have hparse : ∀ c ∈ cs, (∃ v, ParseableClause "low".toList c v ∨
        ParseableClause "high".toList c v ∨ ParseableClause "crit".toList c v) ∨
      (HasPrefix (TrimSpace c) "low".toList = false ∧
        HasPrefix (TrimSpace c) "high".toList = false ∧
        HasPrefix (TrimSpace c) "crit".toList = false) := by
    intro c hc
    rcases (hcs c hc).2 with ⟨v, hv⟩ | hno
    · exact Or.inl ⟨v, hv.imp (thresholdClause_parseable _ c v)
        (Or.imp (thresholdClause_parseable _ c v) (thresholdClause_parseable _ c v))⟩
    · exact Or.inr hno
  obtain ⟨r, hr⟩ := processLimitsLoop_total cs s0 hparse
  obtain ⟨r0, hr0, n1, n2, n3, k1, k2, k3⟩ := processLimitsLoop_keeps cs s0 _ hr
  cases hr0
  refine ⟨r, ?_, n1.trans hname, n2, n3, ?_, ?_, ?_, ?_, ?_, ?_⟩
  · rw [parseSensorWithLimits_inline name main _ s0 hmain hvalue, hsplit, hr]
  · intro pre c post v hsp hc hpost
    rw [hsp] at hr
    exact (processLimitsLoop_last s0 r pre post c v hr).1 (thresholdClause_parseable _ c v hc)
      (not_parseable_of_no_keyword _ post hpost)
  · intro pre c post v hsp hc hpost
    rw [hsp] at hr
    exact (processLimitsLoop_last s0 r pre post c v hr).2.1
      (thresholdClause_parseable _ c v hc) (not_parseable_of_no_keyword _ post hpost)
  · intro pre c post v hsp hc hpost
    rw [hsp] at hr
    exact (processLimitsLoop_last s0 r pre post c v hr).2.2
      (thresholdClause_parseable _ c v hc) (not_parseable_of_no_keyword _ post hpost)
  · intro h
    rw [k1 (not_parseable_of_no_keyword _ cs h), hlow]
  · intro h
    rw [k2 (not_parseable_of_no_keyword _ cs h), hhigh]
  · intro h
    rw [k3 (not_parseable_of_no_keyword _ cs h), hcrit]

/-- C12 (witness): the fragment `30 (low = 10, high = 80, hyst = 5)`, whose clauses have no
unit and whose last clause starts with none of the keywords: the result has Low 10.0,
High 80.0 and no Critical. -/
theorem C12_inline_thresholds_witness :
    ∃ r, parseSensorWithLimits "temp1".toList
          (.string "30 (low = 10, high = 80, hyst = 5)".toList) [] =
        .ok (.ok (some r)) ∧
      r.Name = "temp1".toList ∧ r.Value = .finite false 15 1 ∧ r.Unit = [] ∧
      r.Low = some (.finite false 5 1) ∧ r.High = some (.finite false 5 4) ∧
      r.Critical = none :=
  have hl : ThresholdClause "low".toList "low = 10".toList (.finite false 5 1) :=
    ⟨"low ".toList, " 10".toList, "10".toList, [], by decide, by decide, by decide,
      by decide, by decide, by decide, Or.inl rfl, by decide⟩
  have hh : ThresholdClause "high".toList " high = 80".toList (.finite false 5 4) :=
    ⟨"high ".toList, " 80".toList, "80".toList, [], by decide, by decide, by decide,
      by decide, by decide, by decide, Or.inl rfl, by decide⟩
  match (C12_inline_thresholds "temp1".toList "30 ".toList
    ⟨"temp1".toList, .finite false 15 1, [], none, none, none⟩
    ["low = 10".toList, " high = 80".toList, " hyst = 5".toList]
    (by decide) (by decide) (by decide)
    (by
      intro c hc1
      simp only [List.mem_cons, List.mem_singleton, List.not_mem_nil, or_false] at hc1
      rcases hc1 with rfl | rfl | rfl
      · exact ⟨by decide, Or.inl ⟨.finite false 5 1, Or.inl hl⟩⟩
      · exact ⟨by decide, Or.inl ⟨.finite false 5 4, Or.inr (Or.inl hh)⟩⟩
      · exact ⟨by decide, Or.inr (by decide)⟩)).2 with
  | ⟨r, h1, h2, h3, h4, hL, hH, _, _, _, hC⟩ =>
    ⟨r, h1, h2, h3, h4,
      hL [] "low = 10".toList [" high = 80".toList, " hyst = 5".toList] _ rfl hl
        (by decide),
      hH ["low = 10".toList] " high = 80".toList [" hyst = 5".toList] _ rfl hh (by decide),
      hC (by decide)⟩

/-- C13: `OpenEulerParser.Parse` never sets a threshold, and the line
`Tctl:        +49.0°C` in a device block yields exactly one Sensor.  For every input `Parse`
returns without a panic, and every Sensor of every Device of its Result has Low, High and
Critical unset.  When the line is read while a device is open and the non-blank lines
`block` follow it, the Result, with the block closed by end of input or by a blank line,
is the devices recorded before followed by the open device with its earlier sensors, then
the Sensor `Tctl` (Value 49.0, Unit `°C`, no thresholds), then the sensors `extra` of the
following lines; and the same input without that line gives the same device without that
one Sensor. -/
theorem C13_openEuler_no_thresholds (pre block : List Str) (raw blank : Str)
    (st : DeviceState)
    (hpre : scanLoop openEulerStep ⟨[], Device.zero⟩ pre = .ok st)
    (hopen : st.currentDevice.Name ≠ [])
    (hline : TrimSpace raw = "Tctl:        +49.0°C".toList)
    (hblock : ∀ l ∈ block, TrimSpace l ≠ [])
    (hblank : TrimSpace blank = []) :
    (∃ (adapter : Str) (extra : List Sensor),
      OpenEulerParser.Parse ⟨pre ++ raw :: block, none⟩ =
          .ok (.ok ⟨st.result ++ [⟨st.currentDevice.Name, adapter,
            st.currentDevice.Sensors ++
              ⟨"Tctl".toList, .finite false 49 0, "°C".toList, none, none, none⟩ :: extra⟩]⟩) ∧
        OpenEulerParser.Parse ⟨pre ++ raw :: block ++ [blank], none⟩ =
          .ok (.ok ⟨st.result ++ [⟨st.currentDevice.Name, adapter,
            st.currentDevice.Sensors ++
              ⟨"Tctl".toList, .finite false 49 0, "°C".toList, none, none, none⟩ :: extra⟩]⟩) ∧
        OpenEulerParser.Parse ⟨pre ++ block ++ [blank], none⟩ =
          .ok (.ok ⟨st.result ++ [⟨st.currentDevice.Name, adapter,
            st.currentDevice.Sensors ++ extra⟩]⟩)) ∧
      openEulerStep st raw =
        .ok { st with currentDevice :=
                { st.currentDevice with
                  Sensors := st.currentDevice.Sensors ++
                    [⟨"Tctl".toList, .finite false 49 0, "°C".toList, none, none, none⟩] } } ∧
      (∀ r : Reader, ∃ ds, OpenEulerParser.Parse r = .ok (finish r ds) ∧
        ∀ d ∈ ds, ∀ s ∈ d.Sensors, s.Low = none ∧ s.High = none ∧ s.Critical = none) ∧
      (∀ (r : Reader) (res : Result), OpenEulerParser.Parse r = .ok (.ok res) →
        ∀ d ∈ res.Devices, ∀ s ∈ d.Sensors,
          s.Low = none ∧ s.High = none ∧ s.Critical = none) := by
  have hstep := openEulerStep_sensor_line st raw _
    ⟨"Tctl".toList, .finite false 49 0, "°C".toList, none, none, none⟩ hopen hline
    (by decide) (by decide) (by decide)
  obtain ⟨fa, extra, hb⟩ := openEuler_block block hblock
  refine ⟨⟨fa st.currentDevice.Adapter, extra, ?_, ?_, ?_⟩, hstep, openEuler_parse_total, ?_⟩
  · have hscan : scanLoop openEulerStep ⟨[], Device.zero⟩ (pre ++ raw :: block) =
        .ok ⟨st.result, ⟨st.currentDevice.Name, fa st.currentDevice.Adapter,
          (st.currentDevice.Sensors ++ [⟨"Tctl".toList, .finite false 49 0, "°C".toList, none, none, none⟩]) ++ extra⟩⟩ := by
      rw [scanLoop_append, hpre]
      simp only [scanLoop, hstep]
      exact hb _ hopen
    rw [openEuler_parse_of_scan _ _ hscan]
    simp [openEulerFinal, hopen]
  · have hscan : scanLoop openEulerStep ⟨[], Device.zero⟩ (pre ++ raw :: block ++ [blank]) =
        .ok ⟨st.result ++ [⟨st.currentDevice.Name, fa st.currentDevice.Adapter,
          (st.currentDevice.Sensors ++ [⟨"Tctl".toList, .finite false 49 0, "°C".toList, none, none, none⟩]) ++ extra⟩], Device.zero⟩ := by
      rw [scanLoop_append, scanLoop_append, hpre]
      simp only [scanLoop, hstep]
      have hb1 := hb ⟨st.result, ⟨st.currentDevice.Name, st.currentDevice.Adapter,
        st.currentDevice.Sensors ++ [⟨"Tctl".toList, .finite false 49 0, "°C".toList, none, none, none⟩]⟩⟩ hopen
      simp only at hb1
      rw [hb1]
      simp only
      rw [openEulerStep_blank _ blank hblank]
      simp only [ne_eq, hopen, not_false_eq_true, if_true]
    rw [openEuler_parse_of_scan _ _ hscan]
    simp [openEulerFinal, Device.zero]
  · have hscan : scanLoop openEulerStep ⟨[], Device.zero⟩ (pre ++ block ++ [blank]) =
        .ok ⟨st.result ++ [⟨st.currentDevice.Name, fa st.currentDevice.Adapter,
          st.currentDevice.Sensors ++ extra⟩], Device.zero⟩ := by
      rw [scanLoop_append, scanLoop_append, hpre]
      simp only
      rw [hb st hopen]
      simp only [scanLoop]
      rw [openEulerStep_blank _ blank hblank]
      simp only [ne_eq, hopen, not_false_eq_true, if_true]
    rw [openEuler_parse_of_scan _ _ hscan]
    simp [openEulerFinal, Device.zero]
  · intro r res h
    obtain ⟨ds, hds, hno⟩ := openEuler_parse_total r
    rw [hds] at h
    unfold finish at h
    cases he : r.err with
    | some e => rw [he] at h; cases h
    | none =>
      rw [he] at h
      cases h
      exact hno

/-- C13 (witness): the block `k10temp-pci-00c3` / `Adapter: PCI adapter` /
`Tctl:        +49.0°C` / `Tccd1:       +38.5°C`, closed by end of input or a blank line;
the Result of the block holds the two sensors `Tctl` 49.0 and `Tccd1` 38.5. -/
theorem C13_openEuler_no_thresholds_witness :
    (∃ (adapter : Str) (extra : List Sensor),
      OpenEulerParser.Parse
          ⟨["k10temp-pci-00c3".toList, "Adapter: PCI adapter".toList] ++
            "Tctl:        +49.0°C".toList :: ["Tccd1:       +38.5°C".toList], none⟩ =
          .ok (.ok ⟨[] ++ [⟨"k10temp-pci-00c3".toList, adapter,
            [] ++ ⟨"Tctl".toList, .finite false 49 0, "°C".toList, none, none, none⟩ ::
              extra⟩]⟩) ∧
        OpenEulerParser.Parse
          ⟨["k10temp-pci-00c3".toList, "Adapter: PCI adapter".toList] ++
            "Tctl:        +49.0°C".toList :: ["Tccd1:       +38.5°C".toList] ++ ["".toList],
            none⟩ =
          .ok (.ok ⟨[] ++ [⟨"k10temp-pci-00c3".toList, adapter,
            [] ++ ⟨"Tctl".toList, .finite false 49 0, "°C".toList, none, none, none⟩ ::
              extra⟩]⟩) ∧
        OpenEulerParser.Parse
          ⟨["k10temp-pci-00c3".toList, "Adapter: PCI adapter".toList] ++
            ["Tccd1:       +38.5°C".toList] ++ ["".toList], none⟩ =
          .ok (.ok ⟨[] ++ [⟨"k10temp-pci-00c3".toList, adapter, [] ++ extra⟩]⟩)) ∧
      openEulerStep ⟨[], ⟨"k10temp-pci-00c3".toList, "PCI adapter".toList, []⟩⟩
          "Tctl:        +49.0°C".toList =
        .ok ⟨[], ⟨"k10temp-pci-00c3".toList, "PCI adapter".toList,
          [⟨"Tctl".toList, .finite false 49 0, "°C".toList, none, none, none⟩]⟩⟩ ∧
      OpenEulerParser.Parse
          ⟨["k10temp-pci-00c3".toList, "Adapter: PCI adapter".toList,
            "Tctl:        +49.0°C".toList, "Tccd1:       +38.5°C".toList], none⟩ =
        .ok (.ok ⟨[⟨"k10temp-pci-00c3".toList, "PCI adapter".toList,
          [⟨"Tctl".toList, .finite false 49 0, "°C".toList, none, none, none⟩,
            ⟨"Tccd1".toList, .finite false 77 (-1), "°C".toList, none, none, none⟩]⟩]⟩) :=
  have h := C13_openEuler_no_thresholds
    ["k10temp-pci-00c3".toList, "Adapter: PCI adapter".toList]
    ["Tccd1:       +38.5°C".toList] "Tctl:        +49.0°C".toList "".toList
    ⟨[], ⟨"k10temp-pci-00c3".toList, "PCI adapter".toList, []⟩⟩
    (by decide) (by decide) (by decide) (by decide) (by decide)
  ⟨h.1, h.2.1, by decide⟩

/-- C14: for each of the three dialects and every input, the names of the Devices of the
Result are, in the same order, a subsequence of the trimmed non-blank input lines; so no
Device of a Result has an empty Name. -/
theorem C14_device_names_follow_input (p : SensorParser) (r : Reader) (res : Result)
    (h : SensorParser.Parse p r = .ok (.ok res)) :
    (res.Devices.map Device.Name).Sublist (nonBlankLines r.lines) ∧
      ∀ d ∈ res.Devices, d.Name ≠ [] := by
  have hsub : (res.Devices.map Device.Name).Sublist (nonBlankLines r.lines) := by
    cases p with
    | GenericParser =>
      obtain ⟨st, hs, hres⟩ := generic_parse_ok_inv r res h
      rw [hres, genericFinal_names]
      have := scanLoop_names genericStep (fun s => deviceNames s.result s.currentDevice)
        genericStep_names r.lines _ st [] hs (by simp [deviceNames, Device.zero])
      simpa using this
    | UbuntuParser =>
      obtain ⟨st, hs, hres⟩ := parse_ok_inv ubuntuStep ubuntuFinal r res h
      rw [hres, ubuntuFinal_names]
      have := scanLoop_names ubuntuStep (fun s => deviceNames s.result s.currentDevice)
        ubuntuStep_names r.lines _ st [] hs (by simp [deviceNames, Device.zero])
      simpa using this
    | OpenEulerParser =>
      obtain ⟨st, hs, hres⟩ := parse_ok_inv openEulerStep openEulerFinal r res h
      rw [hres]
      have := scanLoop_names openEulerStep (fun s => deviceNames s.result s.currentDevice)
        openEulerStep_names r.lines _ st [] hs (by simp [deviceNames, Device.zero])
      exact (openEulerFinal_names st).trans (by simpa using this)
  refine ⟨hsub, ?_⟩
  intro d hd
  exact mem_nonBlankLines r.lines d.Name (hsub.subset (List.mem_map_of_mem _ hd))

/-- C14 (witness): the generic parser on `cpu` / ` temp1: 40` / blank / `gpu `: the names
`cpu`, `gpu` among the lines `cpu`, `temp1: 40`, `gpu`. -/
theorem C14_device_names_follow_input_witness :
    ([⟨"cpu".toList, [], [⟨"temp1".toList, .finite false 5 3, [], none, none, none⟩]⟩,
        (⟨"gpu".toList, [], []⟩ : Device)].map Device.Name).Sublist
        (nonBlankLines ["cpu".toList, " temp1: 40".toList, "".toList, "gpu ".toList]) ∧
      ∀ d ∈ [⟨"cpu".toList, [], [⟨"temp1".toList, .finite false 5 3, [], none, none, none⟩]⟩,
        (⟨"gpu".toList, [], []⟩ : Device)], d.Name ≠ [] :=
  C14_device_names_follow_input .GenericParser
    ⟨["cpu".toList, " temp1: 40".toList, "".toList, "gpu ".toList], none⟩
    ⟨[⟨"cpu".toList, [], [⟨"temp1".toList, .finite false 5 3, [], none, none, none⟩]⟩,
      ⟨"gpu".toList, [], []⟩]⟩ (by decide)

/-- C15: a line whose text after the first colon has no decimal digit (in particular a
line without a colon) never becomes a Sensor.  `parseSensorLine` (the generic and Ubuntu
dialects) returns no sensor and no error, `parseOpenEulerSensorLine` returns no sensor
(with no error, or with the error `ErrSyntax` that its caller ignores); and in each of the
three dialects the loop step for such a line succeeds and adds no sensor: the sensors held
by the state after the step are, in order, among those held before it. -/
theorem C15_no_digit_no_sensor (line : Str)
    (hnodigit : hasDigit ((line.dropWhile (fun c => c != ':')).drop 1) = false) :
    parseSensorLine line = .ok (.ok none) ∧
      parseUbuntuSensorLine line = .ok (.ok none) ∧
      (parseOpenEulerSensorLine line = .ok none ∨
        parseOpenEulerSensorLine line = .error .ErrSyntax) ∧
      (∀ (g : GenericState) (raw : Str), TrimSpace raw = line →
        ∃ g1, genericStep g raw = .ok g1 ∧ g1.sensors.Sublist g.sensors) ∧
      (∀ (u : DeviceState) (raw : Str), TrimSpace raw = line →
        ∃ u1, ubuntuStep u raw = .ok u1 ∧ u1.sensors.Sublist u.sensors) ∧
      (∀ (u : DeviceState) (raw : Str), TrimSpace raw = line →
        ∃ u1, openEulerStep u raw = .ok u1 ∧ u1.sensors.Sublist u.sensors) := by
  have h1 := parseSensorLine_no_digit line hnodigit
  have h2 := parseOpenEulerSensorLine_no_digit line hnodigit
  refine ⟨h1, h1, h2, ?_, ?_, ?_⟩
  · intro g raw hr
    exact genericStep_no_sensor g raw (by rw [hr]; exact h1)
  · intro u raw hr
    exact ubuntuStep_no_sensor u raw (by rw [hr]; exact h1)
  · intro u raw hr
    exact openEulerStep_no_sensor u raw (by rw [hr]; exact h2)

/-- C15 (witness): the line `Adapter: PCI adapter`. -/
theorem C15_no_digit_no_sensor_witness :
    parseSensorLine "Adapter: PCI adapter".toList = .ok (.ok none) ∧
      parseUbuntuSensorLine "Adapter: PCI adapter".toList = .ok (.ok none) ∧
      (parseOpenEulerSensorLine "Adapter: PCI adapter".toList = .ok none ∨
        parseOpenEulerSensorLine "Adapter: PCI adapter".toList = .error .ErrSyntax) ∧
      (∀ (g : GenericState) (raw : Str), TrimSpace raw = "Adapter: PCI adapter".toList →
        ∃ g1, genericStep g raw = .ok g1 ∧ g1.sensors.Sublist g.sensors) ∧
      (∀ (u : DeviceState) (raw : Str), TrimSpace raw = "Adapter: PCI adapter".toList →
        ∃ u1, ubuntuStep u raw = .ok u1 ∧ u1.sensors.Sublist u.sensors) ∧
      (∀ (u : DeviceState) (raw : Str), TrimSpace raw = "Adapter: PCI adapter".toList →
        ∃ u1, openEulerStep u raw = .ok u1 ∧ u1.sensors.Sublist u.sensors) :=
  C15_no_digit_no_sensor "Adapter: PCI adapter".toList (by decide)

/-- C16: the `Adapter:` line, followed into the Result of each dialect.  Let the input
begin with lines `pre` after which the dialect `p` has no device open (`p.scan pre` is
the pair of the devices recorded so far and the device under construction, for Generic
with the pending sensor counted in), then a name line `name` (for Generic without a
colon), then non-blank lines `block1`, then a line `raw` that after trimming starts with
`Adapter:`, then lines `block2` that are neither blank nor `Adapter:` lines.  Then the
device `d` under construction at the end of these lines has the name of the name line
and Adapter equal to the trimmed remainder of `raw` (its trimmed text from the ninth
character on), and nothing else got recorded; `Parse` of the input closed by a blank
line returns the earlier devices followed by exactly that `d`, and so does `Parse` of
the input ending there (for OpenEuler when `d` has a sensor).  The `Adapter:` line itself
changes only Adapter: the devices recorded and the device under construction after
`block1` and `raw` are those after `block1`, with Adapter replaced, so no Sensor is
contributed, whatever digits the remainder contains.  And a device whose block `block`
has no blank and no `Adapter:` line has the empty Adapter, in the scan and in the Result
that `Parse` returns with it.  On every state with a device open the step of each
dialect on `raw` is the state with only the Adapter of the current device replaced. -/
theorem C16_adapter_line (p : SensorParser) (pre block1 block2 : List Str)
    (name raw blank : Str) (before ds : List Device) (c d : Device)
    (hpre : p.scan pre = .ok (before, c))
    (hclosed : c.Name = [])
    (hname : TrimSpace name ≠ [])
    (hcolon : p = .GenericParser → Contains (TrimSpace name) ':' = false)
    (hb1 : ∀ l ∈ block1, TrimSpace l ≠ [])
    (hadapter : HasPrefix (TrimSpace raw) "Adapter:".toList = true)
    (hb2 : ∀ l ∈ block2,
      TrimSpace l ≠ [] ∧ HasPrefix (TrimSpace l) "Adapter:".toList = false)
    (hblank : TrimSpace blank = [])
    (hscan : p.scan (pre ++ name :: block1 ++ raw :: block2) = .ok (ds, d)) :
    (ds = before ∧ d.Name = TrimSpace name ∧
      d.Adapter = TrimSpace ((TrimSpace raw).drop 8) ∧
      p.Parse ⟨pre ++ name :: block1 ++ raw :: block2 ++ [blank], none⟩ =
        .ok (.ok ⟨before ++ [d]⟩) ∧
      ((p = .OpenEulerParser → d.Sensors ≠ []) →
        p.Parse ⟨pre ++ name :: block1 ++ raw :: block2, none⟩ =
          .ok (.ok ⟨before ++ [d]⟩)) ∧
      (∀ ds1 d1, p.scan (pre ++ name :: block1) = .ok (ds1, d1) →
        p.scan (pre ++ name :: block1 ++ [raw]) =
          .ok (ds1, { d1 with Adapter := TrimSpace ((TrimSpace raw).drop 8) })) ∧
      (∀ (block : List Str) (ds3 : List Device) (d3 : Device),
        (∀ l ∈ block,
          TrimSpace l ≠ [] ∧ HasPrefix (TrimSpace l) "Adapter:".toList = false) →
        p.scan (pre ++ name :: block) = .ok (ds3, d3) →
        ds3 = before ∧ d3.Name = TrimSpace name ∧ d3.Adapter = [] ∧
          p.Parse ⟨pre ++ name :: block ++ [blank], none⟩ = .ok (.ok ⟨before ++ [d3]⟩) ∧
          ((p = .OpenEulerParser → d3.Sensors ≠ []) →
            p.Parse ⟨pre ++ name :: block, none⟩ = .ok (.ok ⟨before ++ [d3]⟩)))) ∧
    (∀ g : GenericState, g.currentDevice.Name ≠ [] →
      genericStep g raw =
        .ok { g with currentDevice :=
                { g.currentDevice with Adapter := TrimSpace ((TrimSpace raw).drop 8) } }) ∧
    (∀ u : DeviceState, u.currentDevice.Name ≠ [] →
      ubuntuStep u raw =
          .ok { u with currentDevice :=
                  { u.currentDevice with Adapter := TrimSpace ((TrimSpace raw).drop 8) } } ∧
        openEulerStep u raw =
          .ok { u with currentDevice :=
                  { u.currentDevice with
                    Adapter := TrimSpace ((TrimSpace raw).drop 8) } }) := by
  refine ⟨?_, fun g hg => genericStep_adapter g raw hg hadapter,
    fun u hu => ⟨ubuntuStep_adapter u raw hu hadapter, openEulerStep_adapter u raw hu hadapter⟩⟩
  cases p with
  | GenericParser =>
    have h := adapter_block_core genericStep (fun s => s.result)
      (fun s => flushSensor s.currentDevice s.currentSensor) ⟨[], Device.zero, none⟩
      (fun l => Contains (TrimSpace l) ':' = false)
      (SensorParser.scan .GenericParser) GenericParser.Parse (fun _ => True)
      (fun lines => by
        unfold SensorParser.scan
        simp only
        cases scanLoop genericStep ⟨[], Device.zero, none⟩ lines <;> rfl)
      genericStep_open_any_line genericStep_adapter_total
      genericStep_name_obs
      (fun lines bl st hbl hs ho =>
        ⟨(generic_close lines bl st hbl hs ho).1, fun _ => (generic_close lines bl st hbl hs ho).2⟩)
      pre block1 block2 name raw blank before ds c d hpre hclosed hname (hcolon rfl) hb1
      hadapter hb2 hblank hscan
    obtain ⟨h1, h2, h3, h4, h5, h6, h7⟩ := h
    refine ⟨h1, h2, h3, h4, fun _ => h5 trivial, h6, ?_⟩
    intro block ds3 d3 hblock h3s
    obtain ⟨k1, k2, k3, k4, k5⟩ := h7 block ds3 d3 hblock h3s
    exact ⟨k1, k2, k3, k4, fun _ => k5 trivial⟩
  | UbuntuParser =>
    have h := adapter_block_core ubuntuStep (fun s => s.result)
      (fun s => s.currentDevice) ⟨[], Device.zero⟩ (fun _ => True)
      (SensorParser.scan .UbuntuParser) UbuntuParser.Parse (fun _ => True)
      (fun lines => by
        unfold SensorParser.scan
        simp only
        cases scanLoop ubuntuStep ⟨[], Device.zero⟩ lines <;> rfl)
      ubuntuStep_open_any_line ubuntuStep_adapter_total
      ubuntuStep_name_obs
      (fun lines bl st hbl hs ho =>
        ⟨(ubuntu_close lines bl st hbl hs ho).1, fun _ => (ubuntu_close lines bl st hbl hs ho).2⟩)
      pre block1 block2 name raw blank before ds c d hpre hclosed hname trivial hb1
      hadapter hb2 hblank hscan
    obtain ⟨h1, h2, h3, h4, h5, h6, h7⟩ := h
    refine ⟨h1, h2, h3, h4, fun _ => h5 trivial, h6, ?_⟩
    intro block ds3 d3 hblock h3s
    obtain ⟨k1, k2, k3, k4, k5⟩ := h7 block ds3 d3 hblock h3s
    exact ⟨k1, k2, k3, k4, fun _ => k5 trivial⟩
  | OpenEulerParser =>
    have h := adapter_block_core openEulerStep (fun s => s.result)
      (fun s => s.currentDevice) ⟨[], Device.zero⟩ (fun _ => True)
      (SensorParser.scan .OpenEulerParser) OpenEulerParser.Parse (fun d => d.Sensors ≠ [])
      (fun lines => by
        unfold SensorParser.scan
        simp only
        cases scanLoop openEulerStep ⟨[], Device.zero⟩ lines <;> rfl)
      openEulerStep_open_any_line openEulerStep_adapter_total
      openEulerStep_name_obs
      (fun lines bl st hbl hs ho => openEuler_close lines bl st hbl hs ho)
      pre block1 block2 name raw blank before ds c d hpre hclosed hname trivial hb1
      hadapter hb2 hblank hscan
    obtain ⟨h1, h2, h3, h4, h5, h6, h7⟩ := h
    refine ⟨h1, h2, h3, h4, fun hs => h5 (hs rfl), h6, ?_⟩
    intro block ds3 d3 hblock h3s
    obtain ⟨k1, k2, k3, k4, k5⟩ := h7 block ds3 d3 hblock h3s
    exact ⟨k1, k2, k3, k4, fun hs => k5 (hs rfl)⟩

/-- C16 (witness): the OpenEuler input `cpu` / `temp1: 40` / `Adapter: ISA adapter 2`
closed by a blank line or by the end of input, and the same block without its
`Adapter:` line. -/
theorem C16_adapter_line_witness :
    SensorParser.scan .OpenEulerParser
        ["cpu".toList, "temp1: 40".toList, "Adapter: ISA adapter 2".toList] =
        .ok ([], ⟨"cpu".toList, "ISA adapter 2".toList,
          [⟨"temp1".toList, .finite false 5 3, [], none, none, none⟩]⟩) ∧
      SensorParser.Parse .OpenEulerParser
        ⟨["cpu".toList, "temp1: 40".toList, "Adapter: ISA adapter 2".toList, []], none⟩ =
        .ok (.ok ⟨[⟨"cpu".toList, "ISA adapter 2".toList,
          [⟨"temp1".toList, .finite false 5 3, [], none, none, none⟩]⟩]⟩) ∧
      SensorParser.Parse .OpenEulerParser
        ⟨["cpu".toList, "temp1: 40".toList, "Adapter: ISA adapter 2".toList], none⟩ =
        .ok (.ok ⟨[⟨"cpu".toList, "ISA adapter 2".toList,
          [⟨"temp1".toList, .finite false 5 3, [], none, none, none⟩]⟩]⟩) ∧
      SensorParser.Parse .OpenEulerParser ⟨["cpu".toList, "temp1: 40".toList, []], none⟩ =
        .ok (.ok ⟨[⟨"cpu".toList, [],
          [⟨"temp1".toList, .finite false 5 3, [], none, none, none⟩]⟩]⟩) :=
  have h := (C16_adapter_line .OpenEulerParser [] ["temp1: 40".toList] [] "cpu".toList
    "Adapter: ISA adapter 2".toList [] [] []
    Device.zero ⟨"cpu".toList, "ISA adapter 2".toList,
      [⟨"temp1".toList, .finite false 5 3, [], none, none, none⟩]⟩
    rfl rfl (by decide) (fun hp => by cases hp) (by decide) (by decide) (by decide) rfl
    (by decide)).1
  ⟨by decide, h.2.2.2.1, h.2.2.2.2.1 (fun _ => by decide),
    (h.2.2.2.2.2.2 ["temp1: 40".toList] []
      ⟨"cpu".toList, [], [⟨"temp1".toList, .finite false 5 3, [], none, none, none⟩]⟩
      (by decide) (by decide)).2.2.2.1⟩

/-- C17 (as amended): in threshold parsing the last match wins per keyword.  When the
limits string splits at its commas into the clauses `pre`, `c`, `post` and `processLimits`
returns the sensor `r`: if `c` is a parseable clause for `low` with the number `v`
(`ParseableClause`) and no clause after it is a parseable clause for `low`, then Low of
`r` is `v`, whatever the clauses before `c` had set and whatever unparseable clauses
follow; likewise for `high` and High, `crit` and Critical.  A threshold for which the
string has no parseable clause is left as it was. -/
theorem C17_last_clause_wins (s r : Sensor) (limitsStr : Str) (pre post : List Str)
    (c : Str) (v : Float64)
    (hsplit : Split limitsStr ',' = pre ++ c :: post)
    (hrun : processLimits (some s) limitsStr = .ok (some r)) :
    (ParseableClause "low".toList c v →
      (∀ l ∈ post, ∀ w, ¬ParseableClause "low".toList l w) → r.Low = some v) ∧
    (ParseableClause "high".toList c v →
      (∀ l ∈ post, ∀ w, ¬ParseableClause "high".toList l w) → r.High = some v) ∧
    (ParseableClause "crit".toList c v →
      (∀ l ∈ post, ∀ w, ¬ParseableClause "crit".toList l w) → r.Critical = some v) ∧
    ((∀ l ∈ pre ++ c :: post, ∀ w, ¬ParseableClause "low".toList l w) → r.Low = s.Low) ∧
    ((∀ l ∈ pre ++ c :: post, ∀ w, ¬ParseableClause "high".toList l w) →
      r.High = s.High) ∧
    ((∀ l ∈ pre ++ c :: post, ∀ w, ¬ParseableClause "crit".toList l w) →
      r.Critical = s.Critical) := by
  unfold processLimits at hrun
  rw [hsplit] at hrun
  obtain ⟨r0, hr0, _, _, _, k1, k2, k3⟩ := processLimitsLoop_keeps _ s _ hrun
  cases hr0
  obtain ⟨l1, l2, l3⟩ := processLimitsLoop_last s r pre post c v hrun
  exact ⟨l1, l2, l3, k1, k2, k3⟩

/-- C17 (witness): the limits `low = 1, low = 2, low = x, high = 3` on a sensor without
thresholds: the clause ` low = 2` is the last parseable one for `low` (` low = x` starts
with `low` but `ParseFloat` rejects `x`), and Low of the result is 2.0. -/
theorem C17_last_clause_wins_witness :
    Split "low = 1, low = 2, low = x, high = 3".toList ',' =
        ["low = 1".toList] ++ " low = 2".toList :: [" low = x".toList, " high = 3".toList] ∧
      processLimits (some ⟨"temp1".toList, .finite false 5 3, [], none, none, none⟩)
          "low = 1, low = 2, low = x, high = 3".toList =
        .ok (some ⟨"temp1".toList, .finite false 5 3, [], some (.finite false 1 1),
          some (.finite false 3 0), none⟩) ∧
      ParseableClause "low".toList " low = 2".toList (.finite false 1 1) ∧
      (∀ l ∈ [" low = x".toList, " high = 3".toList],
        ∀ w, ¬ParseableClause "low".toList l w) ∧
      (⟨"temp1".toList, .finite false 5 3, [], some (.finite false 1 1),
        some (.finite false 3 0), none⟩ : Sensor).Low = some (.finite false 1 1) :=
  have hP : ParseableClause "low".toList " low = 2".toList (.finite false 1 1) :=
    ⟨by decide, "2".toList, by decide, by decide, by decide⟩
  have hpost : ∀ l ∈ [" low = x".toList, " high = 3".toList],
      ∀ w, ¬ParseableClause "low".toList l w := by
    intro l hl w hw
    obtain ⟨hp, tok, htok, _, hval⟩ := hw
    simp only [List.mem_cons, List.mem_singleton, List.not_mem_nil, or_false] at hl
    rcases hl with rfl | rfl
    · have h1 : extractValue (TrimSpace " low = x".toList) = .ok "x".toList := by decide
      rw [h1] at htok
      cases htok
      have h2 : ParseFloat "x".toList = .error .ErrSyntax := by decide
      rw [h2] at hval
      cases hval
    · exact absurd hp (by decide)
  ⟨by decide, by decide, hP, hpost,
    (C17_last_clause_wins ⟨"temp1".toList, .finite false 5 3, [], none, none, none⟩
      ⟨"temp1".toList, .finite false 5 3, [], some (.finite false 1 1),
        some (.finite false 3 0), none⟩
      "low = 1, low = 2, low = x, high = 3".toList ["low = 1".toList]
      [" low = x".toList, " high = 3".toList]
      " low = 2".toList (.finite false 1 1)
      (by decide) (by decide)).1 hP hpost⟩

/-- C17 (counterexample): on the limits `low = 1, low = 2`, `processLimits` leaves Low at
2.0 (`1 · 2^1`), the value of the second clause, not at 1.0, the value of the first. -/
theorem C17_counterexample :
    processLimits (some ⟨"temp1".toList, .finite false 5 3, [], none, none, none⟩)
        "low = 1, low = 2".toList =
      .ok (some ⟨"temp1".toList, .finite false 5 3, [], some (.finite false 1 1), none, none⟩) ∧
    ParseFloat "1".toList = .ok (.finite false 1 0) ∧
    ParseFloat "2".toList = .ok (.finite false 1 1) := by
  decide

/-- C18: `UbuntuParser.Parse` silently skips a sensor line that fails to parse.  For a
line read while a device is open, that is neither blank nor an `Adapter:` line and whose
value portion has no `(` and starts with a non-empty run of digits, `+`, `-`, `.` that
`ParseFloat` rejects, the loop step leaves the state as it is, so `Parse` returns on the
input with the line exactly what it returns on the input without it; and `Parse` returns
an error only when the scanner reports one. -/
theorem C18_ubuntu_skips_malformed_line (pre post : List Str) (raw p0 p1 : Str)
    (e : GoError) (st : DeviceState) (err : Option GoError)
    (hpre : scanLoop ubuntuStep ⟨[], Device.zero⟩ pre = .ok st)
    (hopen : st.currentDevice.Name ≠ [])
    (hsplit : SplitN2 (TrimSpace raw) ':' = [p0, p1])
    (hadapter : HasPrefix (TrimSpace raw) "Adapter:".toList = false)
    (hparen : Contains (TrimSpace p1) '(' = false)
    (hrun : 0 < numRunLen (TrimSpace p1))
    (hbad : ParseFloat
      (TrimPrefix ((TrimSpace p1).take (numRunLen (TrimSpace p1))) "+".toList) = .error e) :
    ubuntuStep st raw = .ok st ∧
      UbuntuParser.Parse ⟨pre ++ raw :: post, err⟩ = UbuntuParser.Parse ⟨pre ++ post, err⟩ ∧
      (∀ (r : Reader) (e1 : GoError),
        UbuntuParser.Parse r = .ok (.error e1) → r.err = some e1) := by
  have hstep := ubuntuStep_malformed st raw p0 p1 e hopen hsplit hadapter hparen hrun hbad
  refine ⟨hstep, ?_, fun r e1 h => ((ubuntu_parse_error_iff r e1).mp h).1⟩
  unfold UbuntuParser.Parse
  simp only [scanLoop_append, hpre, scanLoop, hstep]
  rfl

/-- C18 (witness): the line `temp1: 12..3 C` between two good sensor lines of the block
`cpu`. -/
theorem C18_ubuntu_skips_malformed_line_witness :
    ubuntuStep ⟨[], ⟨"cpu".toList, [],
          [⟨"temp0".toList, .finite false 15 1, "C".toList, none, none, none⟩]⟩⟩
        "temp1: 12..3 C".toList =
        .ok ⟨[], ⟨"cpu".toList, [],
          [⟨"temp0".toList, .finite false 15 1, "C".toList, none, none, none⟩]⟩⟩ ∧
      UbuntuParser.Parse
          ⟨["cpu".toList, "temp0: 30 C".toList] ++
            "temp1: 12..3 C".toList :: ["temp2: 40 C".toList], none⟩ =
        UbuntuParser.Parse
          ⟨["cpu".toList, "temp0: 30 C".toList] ++ ["temp2: 40 C".toList], none⟩ ∧
      (∀ (r : Reader) (e1 : GoError),
        UbuntuParser.Parse r = .ok (.error e1) → r.err = some e1) :=
  C18_ubuntu_skips_malformed_line ["cpu".toList, "temp0: 30 C".toList]
    ["temp2: 40 C".toList] "temp1: 12..3 C".toList "temp1".toList " 12..3 C".toList
    .ErrSyntax
    ⟨[], ⟨"cpu".toList, [],
      [⟨"temp0".toList, .finite false 15 1, "C".toList, none, none, none⟩]⟩⟩
    none (by decide) (by decide) (by decide) (by decide) (by decide) (by decide) (by decide)

/-- C19 (the code at failing inputs): on `temp1: 40` / `cpu` / blank, where the sensor
line comes before any device is open, `GenericParser.Parse` returns the device `cpu`
with the sensor `temp1` (Value 40.0): the pending sensor is kept when the name line opens
the device.  On `temp0: 30` / `temp1: 40` / `cpu` / blank the result is the same: the
sensor `temp0`, flushed into the nameless device, is dropped by the name line, and only
the pending one leaks into `cpu`. -/
theorem C19_generic_sensor_before_device_leaks :
    GenericParser.Parse ⟨["temp1: 40".toList, "cpu".toList, "".toList], none⟩ =
      .ok (.ok ⟨[⟨"cpu".toList, [],
        [⟨"temp1".toList, .finite false 5 3, [], none, none, none⟩]⟩]⟩) ∧
    GenericParser.Parse
        ⟨["temp0: 30".toList, "temp1: 40".toList, "cpu".toList, "".toList], none⟩ =
      .ok (.ok ⟨[⟨"cpu".toList, [],
        [⟨"temp1".toList, .finite false 5 3, [], none, none, none⟩]⟩]⟩) := by
  decide

/-- C20: `GenericParser.Parse` and `UbuntuParser.Parse` agree on well-formed input.  When
every non-blank line that the generic parser reads while no device is open (its current
device has no name) contains no `:`, the two parsers return the same thing on the input:
the same Result (same devices, adapters and sensors in the same order), the same scanner
error, or the same panic. -/
theorem C20_generic_ubuntu_agree (lines : List Str) (err : Option GoError)
    (hwf : ∀ (pre : List Str) (l : Str) (post : List Str) (st : GenericState),
      lines = pre ++ l :: post →
      scanLoop genericStep ⟨[], Device.zero, none⟩ pre = .ok st →
      st.currentDevice.Name = [] → TrimSpace l ≠ [] → Contains (TrimSpace l) ':' = false) :
    GenericParser.Parse ⟨lines, err⟩ = UbuntuParser.Parse ⟨lines, err⟩ := by
  have hsim := scan_simulation lines ⟨[], Device.zero, none⟩ (fun _ => ⟨rfl, rfl⟩) hwf
  have hinit : (⟨[], Device.zero, none⟩ : GenericState).toDeviceState = ⟨[], Device.zero⟩ := rfl
  rw [hinit] at hsim
  unfold GenericParser.Parse UbuntuParser.Parse
  cases hs : scanLoop genericStep ⟨[], Device.zero, none⟩ lines with
  | error p =>
    rw [hs] at hsim
    simp only [hsim]
  | ok g1 =>
    rw [hs] at hsim
    simp only [hsim, ubuntuFinal_toDeviceState]

/-- C20 (witness): the input `cpu` / `temp1: +45.0 C (high = +80.0 C)` / blank / `gpu`,
whose two name lines, the only lines read while no device is open, have no colon. -/
theorem C20_generic_ubuntu_agree_witness :
    GenericParser.Parse
        ⟨["cpu".toList, "temp1: +45.0 C (high = +80.0 C)".toList, "".toList, "gpu".toList],
          none⟩ =
      UbuntuParser.Parse
        ⟨["cpu".toList, "temp1: +45.0 C (high = +80.0 C)".toList, "".toList, "gpu".toList],
          none⟩ :=
  C20_generic_ubuntu_agree
    ["cpu".toList, "temp1: +45.0 C (high = +80.0 C)".toList, "".toList, "gpu".toList] none
    (by
      intro pre l post st hl hs hn hne
      rcases pre with _ | ⟨a, _ | ⟨b, _ | ⟨c, _ | ⟨d, pre⟩⟩⟩⟩
      · simp only [List.nil_append, List.cons.injEq] at hl
        obtain ⟨rfl, _⟩ := hl
        decide
      · simp only [List.cons_append, List.nil_append, List.cons.injEq] at hl
        obtain ⟨rfl, _, _⟩ := hl
        have h2 : scanLoop genericStep ⟨[], Device.zero, none⟩ ["cpu".toList] =
            .ok ⟨[], ⟨"cpu".toList, [], []⟩, none⟩ := by decide
        rw [h2] at hs
        cases hs
        exact absurd hn (by decide)
      · simp only [List.cons_append, List.nil_append, List.cons.injEq] at hl
        obtain ⟨rfl, rfl, _, _⟩ := hl
        have h2 : scanLoop genericStep ⟨[], Device.zero, none⟩
            ["cpu".toList, "temp1: +45.0 C (high = +80.0 C)".toList] =
            .ok ⟨[], ⟨"cpu".toList, [], []⟩,
              some ⟨"temp1".toList, .finite false 45 0, "C".toList, none,
                some (.finite false 5 4), none⟩⟩ := by decide
        rw [h2] at hs
        cases hs
        exact absurd hn (by decide)
      · simp only [List.cons_append, List.nil_append, List.cons.injEq] at hl
        obtain ⟨_, _, _, rfl, _⟩ := hl
        decide
      · simp at hl)

end Sensorparser
